import Mathlib

/-! Arus lock server: verification of the trust path.

A shallow embedding of the server's token codec (`middleware/auth.go`,
`middleware/hmac.go`), key custody (`kms/kms.go`), lock service
(`service/lock_service.go`) and fail-count store (`repository/session_store.go`).

Conventions of the embedding.

* A Go `string` or `[]byte` is a list of bytes, `Bytes := List Nat`; a byte is a
  natural number below 256 (`IsBytes`).
* A Go `int64` is an `Int` in `[-2^63, 2^63)`; arithmetic that can overflow wraps
  through `wrapInt64`.
* The database handle `repository.DB` is an explicit `DB` value, its tables lists of
  rows in primary-key order; an operation that writes returns the new `DB`.
* Clock readings, random bytes and store faults are explicit inputs.
* Functions of the Go standard library and of `github.com/google/uuid` that the
  source calls are embedded next to their callers, under their Go names.
-/

namespace Arus

/-! ## Bytes -/

/-- Go byte string: the contents of a `string` or a `[]byte`. -/
abbrev Bytes := List Nat

/-- Every element is a byte. -/
def IsBytes (bs : Bytes) : Prop := ∀ b ∈ bs, b < 256

instance (bs : Bytes) : Decidable (IsBytes bs) := by
  unfold IsBytes; infer_instance

/-- The UTF-8 bytes of a string literal, `[]byte("...")`. -/
def utf8 (s : String) : Bytes := s.toUTF8.data.toList.map UInt8.toNat

/-! ## encoding/hex -/

/-- Table `hextable` of encoding/hex. -/
def hextable : Bytes := utf8 "0123456789abcdef"

/-- Value of one hexadecimal digit, either case (`reverseHexTable` of encoding/hex,
`xvalues` of google/uuid); `none` stands for the table's 0xff. -/
def fromHexChar (c : Nat) : Option Nat :=
  if 48 ≤ c ∧ c ≤ 57 then some (c - 48)
  else if 97 ≤ c ∧ c ≤ 102 then some (c - 97 + 10)
  else if 65 ≤ c ∧ c ≤ 70 then some (c - 65 + 10)
  else none

/-- Function `hex.EncodeToString`: two lowercase digits per byte. -/
def hexEncodeToString : Bytes → Bytes
  | [] => []
  | b :: rest => hextable.getD (b / 16) 0 :: hextable.getD (b % 16) 0 :: hexEncodeToString rest

/-- Function `hex.DecodeString`; `none` is any of its errors (`InvalidByteError`,
`ErrLength`). -/
def hexDecodeString : Bytes → Option Bytes
  | [] => some []
  | [_] => none
  | p :: q :: rest =>
    match fromHexChar p, fromHexChar q with
    | some a, some b => (hexDecodeString rest).map (fun t => (a * 16 + b) :: t)
    | _, _ => none

/-! ## encoding/base64, `RawURLEncoding` -/

/-- Alphabet `encodeURL` of encoding/base64. -/
def encodeURL : Bytes :=
  utf8 "ABCDEFGHIJKLMNOPQRSTUVWXYZabcdefghijklmnopqrstuvwxyz0123456789-_"

/-- Character of a 6-bit value. -/
def b64Char (v : Nat) : Nat := encodeURL.getD v 0

/-- Table `decodeMap`: the 6-bit value of an alphabet character, `none` for 0xff. -/
def decodeMap (c : Nat) : Option Nat :=
  if encodeURL.indexOf c < 64 then some (encodeURL.indexOf c) else none

/-- The 6-bit groups of `Encoding.Encode` without padding: three bytes give four
groups, a remainder of one byte gives two, of two bytes gives three. -/
def b64Groups : Bytes → List Nat
  | x :: y :: z :: rest =>
    let val := x * 65536 + y * 256 + z
    (val / 262144 % 64) :: (val / 4096 % 64) :: (val / 64 % 64) :: (val % 64) :: b64Groups rest
  | [x, y] =>
    let val := x * 65536 + y * 256
    [val / 262144 % 64, val / 4096 % 64, val / 64 % 64]
  | [x] =>
    let val := x * 65536
    [val / 262144 % 64, val / 4096 % 64]
  | [] => []

/-- Function `base64.RawURLEncoding.EncodeToString`. -/
def b64EncodeToString (src : Bytes) : Bytes := (b64Groups src).map b64Char

/-- The 6-bit values read by `Encoding.decodeQuantum`: CR and LF are skipped, any
other byte outside the alphabet is a `CorruptInputError` (the padding character
too: this encoding has none). -/
def b64Values : Bytes → Option (List Nat)
  | [] => some []
  | c :: rest =>
    match decodeMap c with
    | some v => (b64Values rest).map (fun t => v :: t)
    | none => if c = 10 ∨ c = 13 then b64Values rest else none

/-- The bytes `Encoding.decodeQuantum` assembles, not in strict mode: four values
give three bytes; at the end two values give one byte and three give two, the
unused low bits being dropped unchecked; one value alone is corrupt. -/
def b64Quanta : List Nat → Option Bytes
  | a :: b :: c :: d :: rest =>
    let val := a * 262144 + b * 4096 + c * 64 + d
    (b64Quanta rest).map (fun t => (val / 65536 % 256) :: (val / 256 % 256) :: (val % 256) :: t)
  | [a, b, c] =>
    let val := a * 262144 + b * 4096 + c * 64
    some [val / 65536 % 256, val / 256 % 256]
  | [a, b] =>
    let val := a * 262144 + b * 4096
    some [val / 65536 % 256]
  | [_] => none
  | [] => some []

/-- Function `base64.RawURLEncoding.DecodeString`; `none` is a `CorruptInputError`. -/
def b64DecodeString (s : Bytes) : Option Bytes := (b64Values s).bind b64Quanta

/-! ## crypto/sha256 and crypto/hmac -/

/-- Round constants of SHA-256 (the words 428a2f98, 71374491, ... of FIPS 180-4, in
decimal). -/
def sha256K : List Nat := [
  1116352408, 1899447441, 3049323471, 3921009573, 961987163, 1508970993, 2453635748, 2870763221,
  3624381080, 310598401, 607225278, 1426881987, 1925078388, 2162078206, 2614888103, 3248222580,
  3835390401, 4022224774, 264347078, 604807628, 770255983, 1249150122, 1555081692, 1996064986,
  2554220882, 2821834349, 2952996808, 3210313671, 3336571891, 3584528711, 113926993, 338241895,
  666307205, 773529912, 1294757372, 1396182291, 1695183700, 1986661051, 2177026350, 2456956037,
  2730485921, 2820302411, 3259730800, 3345764771, 3516065817, 3600352804, 4094571909, 275423344,
  430227734, 506948616, 659060556, 883997877, 958139571, 1322822218, 1537002063, 1747873779,
  1955562222, 2024104815, 2227730452, 2361852424, 2428436474, 2756734187, 3204031479, 3329325298]

/-- Chaining value of SHA-256: eight 32-bit words. -/
structure Sha256State where
  a : Nat
  b : Nat
  c : Nat
  d : Nat
  e : Nat
  f : Nat
  g : Nat
  h : Nat
deriving DecidableEq, Repr

/-- Initial chaining value (the words 6a09e667, bb67ae85, ... of FIPS 180-4, in decimal). -/
def sha256Init : Sha256State :=
  { a := 1779033703, b := 3144134277, c := 1013904242, d := 2773480762,
    e := 1359893119, f := 2600822924, g := 528734635, h := 1541459225 }

/-- Addition of `uint32`. -/
def add32 (x y : Nat) : Nat := (x + y) % 4294967296

/-- Rotation `bits.RotateLeft32(x, -n)` of a 32-bit word. -/
def rotr32 (x n : Nat) : Nat := (x >>> n ||| x <<< (32 - n)) % 4294967296

/-- Complement of a 32-bit word. -/
def not32 (x : Nat) : Nat := 4294967295 - x % 4294967296

/-- Big-endian 32-bit word of four bytes. -/
def be32Word (bs : Bytes) : Nat :=
  (bs.getD 0 0 * 16777216 + bs.getD 1 0 * 65536 + bs.getD 2 0 * 256 + bs.getD 3 0) % 4294967296

/-- Big-endian bytes of a 32-bit word. -/
def be32Bytes (w : Nat) : Bytes := [w / 16777216 % 256, w / 65536 % 256, w / 256 % 256, w % 256]

/-- The first sixteen words of the message schedule: the block itself. -/
def sha256Words : Nat → Bytes → List Nat
  | 0, _ => []
  | n + 1, bs => be32Word (bs.take 4) :: sha256Words n (bs.drop 4)

/-- Extends the message schedule by `n` words. -/
def sha256Schedule : Nat → List Nat → List Nat
  | 0, w => w
  | n + 1, w =>
    let t := w.length
    let v1 := w.getD (t - 2) 0
    let v2 := w.getD (t - 15) 0
    let t1 := rotr32 v1 17 ^^^ rotr32 v1 19 ^^^ (v1 >>> 10)
    let t2 := rotr32 v2 7 ^^^ rotr32 v2 18 ^^^ (v2 >>> 3)
    sha256Schedule n (w ++ [add32 (add32 (add32 t1 (w.getD (t - 7) 0)) t2) (w.getD (t - 16) 0)])

/-- One round of the compression function, on the pair (constant, schedule word). -/
def sha256Round (s : Sha256State) (kw : Nat × Nat) : Sha256State :=
  let t1 := add32 (add32 (add32 (add32 s.h
    (rotr32 s.e 6 ^^^ rotr32 s.e 11 ^^^ rotr32 s.e 25))
    ((s.e &&& s.f) ^^^ (not32 s.e &&& s.g))) kw.1) kw.2
  let t2 := add32 (rotr32 s.a 2 ^^^ rotr32 s.a 13 ^^^ rotr32 s.a 22)
    ((s.a &&& s.b) ^^^ (s.a &&& s.c) ^^^ (s.b &&& s.c))
  { a := add32 t1 t2, b := s.a, c := s.b, d := s.c, e := add32 s.d t1, f := s.e, g := s.f, h := s.g }

/-- Compression of one 64-byte block. -/
def sha256Block (s : Sha256State) (block : Bytes) : Sha256State :=
  let w := sha256Schedule 48 (sha256Words 16 block)
  let r := (sha256K.zip w).foldl sha256Round s
  { a := add32 s.a r.a, b := add32 s.b r.b, c := add32 s.c r.c, d := add32 s.d r.d,
    e := add32 s.e r.e, f := add32 s.f r.f, g := add32 s.g r.g, h := add32 s.h r.h }

/-- Big-endian bytes of a `uint64`. -/
def be64Bytes (n : Nat) : Bytes :=
  [n / 72057594037927936 % 256, n / 281474976710656 % 256, n / 1099511627776 % 256,
   n / 4294967296 % 256, n / 16777216 % 256, n / 65536 % 256, n / 256 % 256, n % 256]

/-- Padding of SHA-256: a 0x80 byte, zeros up to 56 modulo 64, and the bit length
as a big-endian `uint64`. -/
def sha256Pad (msg : Bytes) : Bytes :=
  msg ++ [128] ++ List.replicate ((64 - (msg.length + 9) % 64) % 64) 0
    ++ be64Bytes (msg.length * 8 % 18446744073709551616)

/-- Runs the compression function over `n` consecutive blocks. -/
def sha256Blocks : Nat → Sha256State → Bytes → Sha256State
  | 0, s, _ => s
  | n + 1, s, bs => sha256Blocks n (sha256Block s (bs.take 64)) (bs.drop 64)

/-- Function `sha256.Sum256`. -/
def sha256 (msg : Bytes) : Bytes :=
  let p := sha256Pad msg
  let s := sha256Blocks (p.length / 64) sha256Init p
  be32Bytes s.a ++ be32Bytes s.b ++ be32Bytes s.c ++ be32Bytes s.d
    ++ be32Bytes s.e ++ be32Bytes s.f ++ be32Bytes s.g ++ be32Bytes s.h

/-- HMAC-SHA-256, `hmac.New(sha256.New, key)` followed by `Write(data)` and
`Sum(nil)`: a key longer than the 64-byte block is hashed first, then zero-padded
to the block. -/
def hmacSHA256 (key data : Bytes) : Bytes :=
  let k := if key.length > 64 then sha256 key else key
  let k := k ++ List.replicate (64 - k.length) 0
  sha256 (k.map (fun b => b ^^^ 0x5c) ++ sha256 (k.map (fun b => b ^^^ 0x36) ++ data))

/-- Function `hmac.Equal`: a constant-time comparison, false when the lengths differ. -/
def hmacEqual (x y : Bytes) : Bool := decide (x = y)

/-! ## strings and github.com/google/uuid -/

/-- Function `strings.SplitN(s, sep, 2)` for a one-byte separator: the whole string
when the separator is absent, else what precedes and what follows its first
occurrence. -/
def splitN2 (s : Bytes) (sep : Nat) : List Bytes :=
  match s.dropWhile (fun c => c != sep) with
  | [] => [s]
  | _ :: after => [s.takeWhile (fun c => c != sep), after]

/-- ASCII lower case of a byte. -/
def asciiLower (c : Nat) : Nat := if 65 ≤ c ∧ c ≤ 90 then c + 32 else c

/-- A UUID is an array of sixteen bytes. -/
def IsUUID (u : Bytes) : Prop := u.length = 16 ∧ IsBytes u

instance (u : Bytes) : Decidable (IsUUID u) := by
  unfold IsUUID; infer_instance

/-- Method `UUID.String`: the form xxxxxxxx-xxxx-xxxx-xxxx-xxxxxxxxxxxx in lowercase
hexadecimal (`encodeHex`). -/
def uuidString (u : Bytes) : Bytes :=
  hexEncodeToString (u.take 4) ++ [45] ++ hexEncodeToString ((u.drop 4).take 2) ++ [45]
    ++ hexEncodeToString ((u.drop 6).take 2) ++ [45] ++ hexEncodeToString ((u.drop 8).take 2)
    ++ [45] ++ hexEncodeToString (u.drop 10)

/-- Function `xtob` of google/uuid: the byte written by two hexadecimal digits. -/
def xtob (x1 x2 : Nat) : Option Nat :=
  match fromHexChar x1, fromHexChar x2 with
  | some a, some b => some (a * 16 + b)
  | _, _ => none

/-- The loop of `uuid.Parse` over the offsets of the digit pairs: it stops at the
first pair that is not hexadecimal. -/
def uuidBytesAt (s : Bytes) : List Nat → Option Bytes
  | [] => some []
  | x :: xs =>
    match xtob (s.getD x 0) (s.getD (x + 1) 0) with
    | none => none
    | some v => (uuidBytesAt s xs).map (fun t => v :: t)

/-- The tail of `uuid.Parse`, on a string of at least 36 bytes: hyphens at 8, 13,
18 and 23, a pair of hexadecimal digits at each of the sixteen offsets. -/
def uuidParseCanonical (s : Bytes) : Option Bytes :=
  if s.getD 8 0 ≠ 45 ∨ s.getD 13 0 ≠ 45 ∨ s.getD 18 0 ≠ 45 ∨ s.getD 23 0 ≠ 45 then none
  else uuidBytesAt s [0, 2, 4, 6, 9, 11, 14, 16, 19, 21, 24, 26, 28, 30, 32, 34]

/-- Function `uuid.Parse`; `none` is any of its errors. It takes the canonical
36-byte form, that form after a 9-byte `urn:uuid:` (any case) or inside one byte
on each side, and 32 bare hexadecimal digits. -/
def uuidParse (s : Bytes) : Option Bytes :=
  if s.length = 36 then uuidParseCanonical s
  else if s.length = 45 then
    if (s.take 9).map asciiLower = utf8 "urn:uuid:" then uuidParseCanonical (s.drop 9) else none
  else if s.length = 38 then uuidParseCanonical (s.drop 1)
  else if s.length = 32 then
    uuidBytesAt s [0, 2, 4, 6, 8, 10, 12, 14, 16, 18, 20, 22, 24, 26, 28, 30]
  else none

/-! ## middleware: the token codec (`hmac.go`, `auth.go`) -/

/-- The one error of the token codec. -/
inductive TokenError where
  | ErrInvalidToken
deriving DecidableEq, Repr

/-- A function result `(T, error)`. -/
inductive Result (ε α : Type) where
  | ok : α → Result ε α
  | error : ε → Result ε α
deriving DecidableEq, Repr

/-- Claims carried by a token. -/
structure TokenClaims where
  UserUUID : Bytes
  JTI : Bytes
deriving DecidableEq, Repr

/-- Function `signHMAC`: base64url(payload) "." base64url(HMAC-SHA-256(payload)). -/
def signHMAC (payload secret : Bytes) : Result TokenError Bytes :=
  let sig := b64EncodeToString (hmacSHA256 secret payload)
  let encodedPayload := b64EncodeToString payload
  .ok (encodedPayload ++ [46] ++ sig)

/-- Function `verifyHMAC`. -/
def verifyHMAC (token secret : Bytes) : Result TokenError Bytes :=
  match splitN2 token 46 with
  | [part0, part1] =>
    match b64DecodeString part0 with
    | none => .error .ErrInvalidToken
    | some payloadBytes =>
      match b64DecodeString part1 with
      | none => .error .ErrInvalidToken
      | some sigBytes =>
        let expectedSig := hmacSHA256 secret payloadBytes
        if !hmacEqual sigBytes expectedSig then .error .ErrInvalidToken
        else .ok payloadBytes
  | _ => .error .ErrInvalidToken

/-- Function `GenerateToken`; `tokenSecret` is the package variable set by
`SetTokenSecret`. -/
def GenerateToken (tokenSecret userUUID jti : Bytes) : Result TokenError Bytes :=
  let payload := uuidString userUUID ++ [58] ++ uuidString jti
  signHMAC payload tokenSecret

/-- Function `ParseToken`. -/
def ParseToken (tokenSecret tokenStr : Bytes) : Result TokenError TokenClaims :=
  match verifyHMAC tokenStr tokenSecret with
  | .error err => .error err
  | .ok payload =>
    match splitN2 payload 58 with
    | [part0, part1] =>
      match uuidParse part0 with
      | none => .error .ErrInvalidToken
      | some userUUID =>
        match uuidParse part1 with
        | none => .error .ErrInvalidToken
        | some jti => .ok { UserUUID := userUUID, JTI := jti }
    | _ => .error .ErrInvalidToken

/-! ## kms: key custody (`kms/kms.go`) -/

/-- The AEAD of crypto/cipher built by `cipher.NewGCM(aes.NewCipher(key))`, with no
additional data: `Seal` returns the ciphertext followed by the tag, `Open` returns
`none` when authentication fails. The primitive is a parameter of the embedding. -/
structure AEAD where
  Seal : Bytes → Bytes → Bytes → Bytes
  Open : Bytes → Bytes → Bytes → Option Bytes

/-- Errors of the key-custody operations. -/
inductive KMSError where
  | keySize
  | randRead
  | tooShort
  | openFailed
  | sliceBounds
deriving DecidableEq, Repr

/-- Type `LocalKMS`: the master key held in memory, with the cipher it is used with. -/
structure LocalKMS where
  masterKey : Bytes
  gcm : AEAD

/-- Function `aes.NewCipher` accepts keys of 16, 24 or 32 bytes. -/
def aesKeySizeOK (key : Bytes) : Bool :=
  key.length = 16 || key.length = 24 || key.length = 32

/-- Size of the GCM nonce, `aesGCM.NonceSize()`. -/
def gcmNonceSize : Nat := 12

/-- Method `LocalKMS.EncryptDeviceKey`; `rand` is what `rand.Reader` has to give,
of which `io.ReadFull` takes the first twelve bytes as the nonce. The result is
`Seal(nonce, nonce, plainKey, nil)`, the sealed key appended to the nonce. -/
def LocalKMS.EncryptDeviceKey (k : LocalKMS) (rand plainKey : Bytes) : Result KMSError Bytes :=
  if !aesKeySizeOK k.masterKey then .error .keySize
  else if rand.length < gcmNonceSize then .error .randRead
  else
    let nonce := rand.take gcmNonceSize
    .ok (nonce ++ k.gcm.Seal k.masterKey nonce plainKey)

/-- Method `LocalKMS.DecryptDeviceKey`. -/
def LocalKMS.DecryptDeviceKey (k : LocalKMS) (encryptedKey : Bytes) : Result KMSError Bytes :=
  if !aesKeySizeOK k.masterKey then .error .keySize
  else
    let nonceSize := gcmNonceSize
    if encryptedKey.length < nonceSize then .error .tooShort
    else
      let nonce := encryptedKey.take nonceSize
      let ciphertext := encryptedKey.drop nonceSize
      match k.gcm.Open k.masterKey nonce ciphertext with
      | some plain => .ok plain
      | none => .error .openFailed

/-- Method `LocalKMS.ComputeCMAC`: HMAC-SHA-256 of the data under the device key,
cut by the slice expression `full[:16]`, which panics on a shorter slice. -/
def LocalKMS.ComputeCMAC (_k : LocalKMS) (key data : Bytes) : Result KMSError Bytes :=
  let full := hmacSHA256 key data
  if full.length < 16 then .error .sliceBounds else .ok (full.take 16)

/-! ## model: rows, tables and business codes (`model/models.go`, `model/response.go`) -/

/-- Constant `DeviceTypeLock`. -/
def DeviceTypeLock : Bytes := utf8 "lock"

def CodeAuthFailed : Int := 1001
def CodeAccountDisabled : Int := 1002
def CodeSessionExpired : Int := 1003
def CodeNoPermission : Int := 2001
def CodeForbidden : Int := 2002
def CodeDeviceNotFound : Int := 3001
def CodeDeviceUnavailable : Int := 3002
def CodeTooManyRequests : Int := 3003
def CodeParamError : Int := 4001
def CodeRequestExpired : Int := 4002
def CodeInternalError : Int := 5001

/-- Row of `app.devices_lock`, with the columns the lock service reads or writes.
Instants are integers on the clock of the database. -/
structure Device where
  ID : Int := 0
  DeviceID : Bytes
  KeyEncrypted : Bytes := []
  Status : Int := 1
  LastActiveAt : Option Int := none
  DeletedAt : Option Int := none
deriving DecidableEq, Repr

/-- Row of `app.permissions`. -/
structure Permission where
  ID : Int := 0
  UserID : Int
  DeviceType : Bytes
  DeviceID : Bytes
  GrantedBy : Int := 0
  ValidFrom : Int
  ValidUntil : Option Int := none
  Status : Int := 1
  RevokedBy : Option Int := none
  RevokedAt : Option Int := none
deriving DecidableEq, Repr

/-- Row of `app.alerts`; `FailCount` is the `fail_count` entry of `Extra`. -/
structure Alert where
  ID : Int := 0
  AlertType : Bytes
  DeviceType : Bytes
  DeviceID : Bytes
  UserID : Option Int := none
  Severity : Int
  Status : Int := 0
  HandledBy : Option Int := none
  HandleNote : Option Bytes := none
  FailCount : Int := 0
  HandledAt : Option Int := none
deriving DecidableEq, Repr

/-- Row of `app.device_fail_counts`, keyed by `(device_type, device_id)`. -/
structure DeviceFailCount where
  DeviceType : Bytes
  DeviceID : Bytes
  Count : Int := 0
  LastFailAt : Int := 0
deriving DecidableEq, Repr

/-- Row of `app.users`. -/
structure User where
  ID : Int := 0
  UUID : Bytes
  Phone : Bytes
  PasswordHash : Bytes := []
  Name : Bytes := []
  Department : Option Bytes := none
  Role : Bytes
  Status : Int := 1
  DeletedAt : Option Int := none
deriving DecidableEq, Repr

/-- Row of `app.sessions`. -/
structure Session where
  ID : Int := 0
  JTI : Bytes
  UserID : Int
  Role : Bytes
  ExpiresAt : Int
  UserAgent : Bytes := []
  IPAddress : Bytes := []
deriving DecidableEq, Repr

/-- Row of `app.rate_limits`, keyed by `key`. -/
structure RateLimit where
  Key : Bytes
  Count : Int := 1
  WindowStart : Int
deriving DecidableEq, Repr

/-- Row of `app.ip_blocks`, keyed by `ip`. -/
structure IPBlock where
  IP : Bytes
  BlockedAt : Int := 0
  ExpiresAt : Int
  Reason : Bytes := []
deriving DecidableEq, Repr

/-- Row of `log.operation_logs`, without its two JSON snapshots. -/
structure OperationLog where
  OperatorID : Int
  Action : Bytes
  TargetType : Bytes
  TargetID : Int
deriving DecidableEq, Repr

/-- The tables behind `repository.DB`, each in primary-key order. -/
structure DB where
  devices : List Device := []
  permissions : List Permission := []
  alerts : List Alert := []
  failCounts : List DeviceFailCount := []
  users : List User := []
  sessions : List Session := []
  rateLimits : List RateLimit := []
  ipBlocks : List IPBlock := []
  operationLogs : List OperationLog := []
deriving DecidableEq, Repr

/-- Message of the audit queue (`mq.AuditMessage`). -/
structure AuditMessage where
  UserID : Int
  DeviceID : Bytes
  DeviceType : Bytes
  Action : Bytes
  ResultCode : Int := 0
  ClientIP : Bytes
  DeviceModel : Bytes := []
  FailReason : Option Bytes := none
deriving DecidableEq, Repr

/-- Message of the notify queue (`mq.NotifyMessage`). -/
structure NotifyMessage where
  AlertType : Bytes
  DeviceID : Bytes
  Severity : Int
  FailCount : Int
deriving DecidableEq, Repr

/-- A database statement issued by the lock service, as recorded in a trace. -/
inductive Stmt where
  | firstDevice (deviceID : Bytes)
  | countPermissions (userID : Int) (deviceID : Bytes)
  | touchDevice (deviceID : Bytes)
deriving DecidableEq, Repr

/-! ## repository: the fail-count store (`repository/session_store.go`) -/

/-- Key test of `app.device_fail_counts`: `device_type = ? AND device_id = ?`. -/
def DeviceFailCount.hasKey (r : DeviceFailCount) (deviceType deviceID : Bytes) : Bool :=
  r.DeviceType = deviceType && r.DeviceID = deviceID

/-- Method `PostgresDeviceFailStore.Increment`: the upsert inserts a row with count 1
or, on conflict, adds one to the count; it returns the new count together with
whether an error occurred. When the statement fails nothing is written and the
scanned count is the zero value. -/
def PostgresDeviceFailStore.Increment (db : DB) (now : Int) (fails : Bool)
    (deviceType deviceID : Bytes) : DB × Int × Bool :=
  if fails then (db, 0, true)
  else
    match db.failCounts.find? (fun r => r.hasKey deviceType deviceID) with
    | some row =>
      ({ db with failCounts := db.failCounts.map (fun r =>
          if r.hasKey deviceType deviceID then { r with Count := r.Count + 1, LastFailAt := now }
          else r) },
        row.Count + 1, false)
    | none =>
      ({ db with failCounts := db.failCounts ++
          [{ DeviceType := deviceType, DeviceID := deviceID, Count := 1, LastFailAt := now }] },
        1, false)

/-- Method `PostgresDeviceFailStore.Reset`; the second component tells whether an
error occurred. -/
def PostgresDeviceFailStore.Reset (db : DB) (fails : Bool) (deviceType deviceID : Bytes) :
    DB × Bool :=
  if fails then (db, true)
  else
    ({ db with failCounts := db.failCounts.map (fun r =>
        if r.hasKey deviceType deviceID then { r with Count := 0 } else r) }, false)

/-- Method `PostgresDeviceFailStore.Get`: the stored count, zero when there is no
row. -/
def PostgresDeviceFailStore.Get (db : DB) (deviceType deviceID : Bytes) : Int :=
  match db.failCounts.find? (fun r => r.hasKey deviceType deviceID) with
  | some row => row.Count
  | none => 0

/-! ## service: the lock service (`service/lock_service.go`) -/

/-- Wrap-around of a mathematical integer into `int64`, as the machine subtraction
does. -/
def wrapInt64 (x : Int) : Int :=
  (x + 9223372036854775808) % 18446744073709551616 - 9223372036854775808

/-- Conversion `uint64(x)` of an `int64`: the two's complement bit pattern. -/
def uint64OfInt64 (x : Int) : Nat := (x % 18446744073709551616).toNat

/-- Conversion `float64(x)` of an `int64`: the nearest value with a 53-bit
significand, ties to the even significand. Such a value is an integer, and is
kept as one. -/
def float64OfInt64 (x : Int) : Int :=
  let a := x.natAbs
  if a < 9007199254740992 then x
  else
    let e := Nat.log2 a - 52
    let q := a / 2 ^ e
    let r := a % 2 ^ e
    let half := 2 ^ (e - 1)
    let q1 := if r > half ∨ (r = half ∧ q % 2 = 1) then q + 1 else q
    if x < 0 then -((q1 * 2 ^ e : Nat) : Int) else ((q1 * 2 ^ e : Nat) : Int)

/-- Type `LockService`: whether a publisher is attached (`s.publisher != nil`); the
fail store is the Postgres one. -/
structure LockService where
  hasPublisher : Bool := true

structure ChallengeRequest where
  DeviceID : Bytes
  ChallengeC : Bytes
  Timestamp : Int
deriving DecidableEq, Repr

structure ChallengeResponse where
  Response : Bytes
deriving DecidableEq, Repr

structure ReportRequest where
  DeviceID : Bytes
  Result : Bytes
  FailReason : Bytes := []
  OccurredAt : Int := 0
  DeviceModel : Bytes := []
deriving DecidableEq, Repr

/-- What the surroundings give to one `Challenge` call: the reading
`time.Now().Unix()` of the freshness check, the two readings `time.Now()` passed
to the permission query, and whether the device query (with an error other than
record-not-found) or the permission count fails. -/
structure ChallengeWorld where
  serverTime : Int
  permNowFrom : Int
  permNowUntil : Int
  deviceQueryFails : Bool := false
  permQueryFails : Bool := false
deriving DecidableEq, Repr

/-- What `Challenge` returns, `(*ChallengeResponse, int, string)`, with the trace of
the database statements it issued, the statement it hands to a goroutine and the
audit messages it published. -/
structure ChallengeResult where
  resp : Option ChallengeResponse := none
  code : Int
  msg : Bytes
  stmts : List Stmt := []
  spawned : List Stmt := []
  audits : List AuditMessage := []
deriving DecidableEq, Repr

/-- The `Where` clause of the device lookups: `device_id = ? AND deleted_at IS NULL`. -/
def deviceWhere (deviceID : Bytes) (d : Device) : Bool :=
  d.DeviceID = deviceID && d.DeletedAt.isNone

/-- The `Where` clause of the permission count of `Challenge`: `user_id = ? AND
device_type = ? AND device_id = ? AND status = 1 AND valid_from <= ? AND
(valid_until IS NULL OR valid_until > ?)`. -/
def challengePermWhere (userID : Int) (deviceType deviceID : Bytes) (now1 now2 : Int)
    (p : Permission) : Bool :=
  p.UserID = userID && p.DeviceType = deviceType && p.DeviceID = deviceID && p.Status = 1
    && decide (p.ValidFrom ≤ now1)
    && (p.ValidUntil.isNone || p.ValidUntil.any (fun u => decide (u > now2)))

/-- The MAC input of `Challenge` (lines 108 to 117): the challenge bytes, the bytes
of the device id, `uint64(userID)` and `uint64(req.Timestamp)` written by
`binary.BigEndian.PutUint64`. -/
def challengeData (challengeBytes deviceID : Bytes) (userID timestamp : Int) : Bytes :=
  challengeBytes ++ deviceID ++ be64Bytes (uint64OfInt64 userID)
    ++ be64Bytes (uint64OfInt64 timestamp)

/-- Method `LockService.Challenge`. The deferred `clearBytes(kd)` overwrites a
buffer that is not part of the result and is left out. -/
def LockService.Challenge (s : LockService) (kms : LocalKMS) (db : DB) (w : ChallengeWorld)
    (req : ChallengeRequest) (userID : Int) (clientIP : Bytes) : ChallengeResult :=
  if (hexDecodeString req.ChallengeC).isNone ∨ req.ChallengeC.length ≠ 16 then
    { code := CodeParamError, msg := utf8 "challenge_c must be 16 hex characters (8 bytes)" }
  else
    let serverTime := w.serverTime
    if (float64OfInt64 (wrapInt64 (serverTime - req.Timestamp))).natAbs > 30 then
      { code := CodeRequestExpired, msg := utf8 "request expired" }
    else if w.deviceQueryFails then
      { code := CodeInternalError, msg := utf8 "internal error",
        stmts := [.firstDevice req.DeviceID] }
    else
      match db.devices.find? (deviceWhere req.DeviceID) with
      | none =>
        { code := CodeDeviceNotFound, msg := utf8 "device not found",
          stmts := [.firstDevice req.DeviceID] }
      | some device =>
        if device.Status ≠ 1 then
          { code := CodeDeviceUnavailable,
            msg := if device.Status = 2 then utf8 "device locked due to security alert"
              else utf8 "device unavailable",
            stmts := [.firstDevice req.DeviceID] }
        else
          let stmts := [Stmt.firstDevice req.DeviceID, Stmt.countPermissions userID device.DeviceID]
          let permCount : Nat :=
            if w.permQueryFails then 0
            else (db.permissions.filter (challengePermWhere userID DeviceTypeLock device.DeviceID
              w.permNowFrom w.permNowUntil)).length
          if permCount = 0 then
            { code := CodeNoPermission, msg := utf8 "no permission for this device",
              stmts := stmts }
          else
            match kms.DecryptDeviceKey device.KeyEncrypted with
            | .error _ =>
              { code := CodeInternalError, msg := utf8 "internal error", stmts := stmts }
            | .ok kd =>
              let challengeBytes := (hexDecodeString req.ChallengeC).getD []
              let data := challengeData challengeBytes req.DeviceID userID req.Timestamp
              match kms.ComputeCMAC kd data with
              | .error _ =>
                { code := CodeInternalError, msg := utf8 "internal error", stmts := stmts }
              | .ok cmacResult =>
                { resp := some { Response := hexEncodeToString cmacResult },
                  code := 0, msg := [],
                  stmts := stmts,
                  spawned := [.touchDevice req.DeviceID],
                  audits := if s.hasPublisher then
                    [{ UserID := userID, DeviceID := req.DeviceID, DeviceType := DeviceTypeLock,
                       Action := utf8 "challenge_request", ClientIP := clientIP }]
                    else [] }

/-- What the surroundings give to one `Report` call: the clock reading, and which
of the store operations fail. -/
structure ReportWorld where
  now : Int := 0
  incrementFails : Bool := false
  resetFails : Bool := false
  touchFails : Bool := false
  alertTxFails : Bool := false
deriving DecidableEq, Repr

/-- What `Report` returns, `(int, string)`, with the database it leaves and the
messages it published. -/
structure ReportResult where
  code : Int
  msg : Bytes
  db : DB
  audits : List AuditMessage := []
  notifies : List NotifyMessage := []
deriving DecidableEq, Repr

/-- Primary key given to a new alert row. -/
def nextAlertID (db : DB) : Int := db.alerts.foldl (fun m a => max m a.ID) 0 + 1

/-- Method `LockService.triggerAlertLock`: in one transaction, set the status of the
device rows to 2, insert the alert, zero the fail count; then publish the
notification. A failed transaction leaves the database as it was and publishes
nothing. -/
def LockService.triggerAlertLock (s : LockService) (db : DB) (txFails : Bool)
    (deviceID : Bytes) (userID : Int) (failCount : Int) : DB × List NotifyMessage :=
  if txFails then (db, [])
  else
    let devices := db.devices.map (fun d =>
      if deviceWhere deviceID d then { d with Status := 2 } else d)
    let alert : Alert :=
      { ID := nextAlertID db, AlertType := utf8 "consecutive_fail",
        DeviceType := DeviceTypeLock, DeviceID := deviceID, UserID := some userID,
        Severity := 3, Status := 0, FailCount := failCount }
    let failCounts := db.failCounts.map (fun r =>
      if r.hasKey DeviceTypeLock deviceID then { r with Count := 0 } else r)
    ({ db with devices := devices, alerts := db.alerts ++ [alert], failCounts := failCounts },
      if s.hasPublisher then
        [{ AlertType := utf8 "consecutive_fail", DeviceID := deviceID, Severity := 3,
           FailCount := failCount }]
      else [])

/-- Method `LockService.Report`. -/
def LockService.Report (s : LockService) (db : DB) (w : ReportWorld) (req : ReportRequest)
    (userID : Int) (clientIP : Bytes) : ReportResult :=
  let isFail : Bool := req.Result = utf8 "fail"
  let after : DB × List NotifyMessage :=
    if isFail then
      let inc := PostgresDeviceFailStore.Increment db w.now w.incrementFails DeviceTypeLock
        req.DeviceID
      let count := inc.2.1
      if count ≥ 3 then s.triggerAlertLock inc.1 w.alertTxFails req.DeviceID userID count
      else (inc.1, [])
    else
      let db1 := (PostgresDeviceFailStore.Reset db w.resetFails DeviceTypeLock req.DeviceID).1
      if w.touchFails then (db1, [])
      else
        ({ db1 with devices := db1.devices.map (fun d =>
            if deviceWhere req.DeviceID d then { d with LastActiveAt := some w.now } else d) }, [])
  let action := if isFail then utf8 "unlock_fail" else utf8 "unlock_success"
  let resultCode : Int := if isFail then 1 else 0
  { code := 0, msg := [], db := after.1,
    audits := if s.hasPublisher then
      [{ UserID := userID, DeviceID := req.DeviceID, DeviceType := DeviceTypeLock,
         Action := action, ResultCode := resultCode, ClientIP := clientIP,
         DeviceModel := req.DeviceModel, FailReason := some req.FailReason }]
      else [],
    notifies := after.2 }

/-- The `ON` clause of the join of `GetAuthorizedDevices`: `permissions.device_type
= ? AND permissions.device_id = devices_lock.device_id AND permissions.user_id = ?
AND permissions.status = 1 AND permissions.valid_from <= ? AND
(permissions.valid_until IS NULL OR permissions.valid_until > ?)`. -/
def authorizedJoinOn (deviceType : Bytes) (userID : Int) (now1 now2 : Int) (d : Device)
    (p : Permission) : Bool :=
  p.DeviceType = deviceType && p.DeviceID = d.DeviceID && p.UserID = userID && p.Status = 1
    && decide (p.ValidFrom ≤ now1)
    && (p.ValidUntil.isNone || p.ValidUntil.any (fun u => decide (u > now2)))

/-- Method `LockService.GetAuthorizedDevices`: the device rows of the join, one for
each pair of a device row and a permission row that meets the `ON` clause, among
the devices with `deleted_at IS NULL AND status != 0`; `now` is the one reading
`time.Now()`. A failed query gives an error. -/
def LockService.GetAuthorizedDevices (_s : LockService) (db : DB) (now : Int) (fails : Bool)
    (userID : Int) : Result Unit (List Device) :=
  if fails then .error ()
  else
    .ok ((db.devices.filter (fun d => d.DeletedAt.isNone && decide (d.Status ≠ 0))).flatMap
      (fun d => (db.permissions.filter (authorizedJoinOn DeviceTypeLock userID now now d)).map
        (fun _ => d)))

/-! ## model: the response envelope (`model/response.go`) -/

/-- The JSON encoding of a user row, by the `json` tags of `model.User`: the fields
`uuid`, `name`, `department`, `role` and `status`. The primary key, the phone, the
password hash and the deletion mark have the tag "-" and are left out of the
encoding, and so is `phone` (the masked phone, `omitempty`) when it has not been
set; the time stamps are not part of this development. -/
structure UserJSON where
  uuid : Bytes
  name : Bytes
  department : Option Bytes
  role : Bytes
  status : Int
deriving DecidableEq, Repr

/-- The JSON encoding of a user row whose masked phone has not been set. -/
def userJSON (u : User) : UserJSON :=
  { uuid := uuidString u.UUID, name := u.Name, department := u.Department, role := u.Role,
    status := u.Status }

/-- The `data` of a response envelope; `newPassword p` is the object with the one
key "new_password". -/
inductive ResponseData where
  | null
  | challenge (r : ChallengeResponse)
  | devices (ds : List Device)
  | user (u : UserJSON)
  | newPassword (p : Bytes)
deriving DecidableEq, Repr

/-- What `model.OK` and `model.Fail` write: the HTTP status, and the business code,
message and data of the envelope; `retryAfter` is the `Retry-After` header when it
has been set. -/
structure HTTPResponse where
  status : Int
  code : Int
  message : Bytes
  data : ResponseData := .null
  retryAfter : Option Bytes := none
deriving DecidableEq, Repr

/-- Function `model.OK`. -/
def modelOK (data : ResponseData) : HTTPResponse :=
  { status := 200, code := 0, message := utf8 "success", data := data }

/-- Function `model.Fail`. -/
def modelFail (httpStatus bizCode : Int) (message : Bytes) : HTTPResponse :=
  { status := httpStatus, code := bizCode, message := message }

/-! ## middleware: the rate gate (`middleware/ratelimit.go`) -/

/-- Clock ticks in a second: the instants of the database are counted in
microseconds. -/
def ticksPerSecond : Int := 1000000

/-- The parts of `gin.Context` that the rate gate reads: the client IP, and the form
fields of the request body (a JSON body has none). -/
structure RequestCtx where
  ClientIP : Bytes
  postForm : List (Bytes × Bytes) := []
deriving DecidableEq, Repr

/-- Method `Context.PostForm`: the value of a form field, the empty string when the
field is absent. -/
def RequestCtx.PostForm (c : RequestCtx) (key : Bytes) : Bytes :=
  match c.postForm.find? (fun kv => kv.1 = key) with
  | some kv => kv.2
  | none => []

/-- Type `RateLimitConfig`. -/
structure RateLimitConfig where
  KeyFunc : RequestCtx → Bytes
  Limit : Int
  WindowSecs : Int

/-- What the surroundings give to one pass through the rate gate: the reading
`time.Now()` of the block check, the reading `NOW()` of the upsert, and whether the
block count or the upsert fails. -/
structure GateWorld where
  now : Int
  dbNow : Int
  blockQueryFails : Bool := false
  upsertFails : Bool := false
deriving DecidableEq, Repr

/-- What a middleware does with a request: `c.Next()`, or a response followed by
`c.Abort()`. -/
inductive Outcome where
  | next
  | abort (resp : HTTPResponse)
deriving DecidableEq, Repr

/-- Function `checkIPBlock`; true stands for the error "ip blocked". The error of
the count query is not looked at: the count is then the zero value. -/
def checkIPBlock (db : DB) (w : GateWorld) (c : RequestCtx) : Bool :=
  let count : Nat :=
    if w.blockQueryFails then 0
    else (db.ipBlocks.filter (fun b => b.IP = c.ClientIP && decide (b.ExpiresAt > w.now))).length
  decide (count > 0)

/-- Function `incrementRateLimit`: the upsert inserts the row with count 1 and
window start `NOW()`; on conflict, when `window_start < NOW() - INTERVAL 'w
seconds'` the count becomes 1 and the window starts at `NOW()`, else the count
grows by one and the window start stays. It returns the new count and whether an
error occurred; on an error nothing is written and the count is 0. The count column
is taken to hold every count that is reached. -/
def incrementRateLimit (db : DB) (dbNow : Int) (fails : Bool) (key : Bytes) (windowSecs : Int) :
    DB × Int × Bool :=
  if fails then (db, 0, true)
  else
    match db.rateLimits.find? (fun r => r.Key = key) with
    | none =>
      ({ db with rateLimits := db.rateLimits ++ [{ Key := key, Count := 1, WindowStart := dbNow }] },
        1, false)
    | some row =>
      let expired : Bool := decide (row.WindowStart < dbNow - windowSecs * ticksPerSecond)
      ({ db with rateLimits := db.rateLimits.map (fun r =>
          if r.Key = key then
            { r with Count := if decide (r.WindowStart < dbNow - windowSecs * ticksPerSecond)
                        then 1 else r.Count + 1,
                     WindowStart := if decide (r.WindowStart < dbNow - windowSecs * ticksPerSecond)
                        then dbNow else r.WindowStart }
          else r) },
        if expired then 1 else row.Count + 1, false)

/-- Function `RateLimiter`: the handler it returns, applied to a request. -/
def RateLimiter (cfg : RateLimitConfig) (db : DB) (w : GateWorld) (c : RequestCtx) :
    Outcome × DB :=
  if checkIPBlock db w c then
    (.abort (modelFail 403 CodeTooManyRequests (utf8 "IP has been temporarily blocked")), db)
  else
    let key := cfg.KeyFunc c
    let inc := incrementRateLimit db w.dbNow w.upsertFails key cfg.WindowSecs
    if inc.2.2 then (.next, inc.1)
    else if inc.2.1 > cfg.Limit then
      (.abort { modelFail 429 CodeTooManyRequests (utf8 "too many requests") with
                retryAfter := some (utf8 (toString cfg.WindowSecs)) }, inc.1)
    else (.next, inc.1)

/-- Function `LoginRateLimit`: its configuration. -/
def LoginRateLimit : RateLimitConfig :=
  { KeyFunc := fun c => utf8 "login:ip:" ++ c.ClientIP, Limit := 10, WindowSecs := 60 }

/-- Function `ChallengeRateLimit`: its configuration. -/
def ChallengeRateLimit : RateLimitConfig :=
  { KeyFunc := fun c =>
      let deviceID := c.PostForm (utf8 "device_id")
      let deviceID := if deviceID = [] then utf8 "unknown" else deviceID
      utf8 "challenge:lock:" ++ deviceID,
    Limit := 5, WindowSecs := 60 }

/-- Function `GlobalRateLimit`: its configuration. -/
def GlobalRateLimit : RateLimitConfig :=
  { KeyFunc := fun c => utf8 "global:ip:" ++ c.ClientIP, Limit := 100, WindowSecs := 60 }

/-! ## handler: the lock handlers (`handler/lock_handler.go`) -/

/-- Function `httpStatusFromBizCode`. -/
def httpStatusFromBizCode (code : Int) : Int :=
  if code ≥ 1000 ∧ code < 2000 then 401
  else if code ≥ 2000 ∧ code < 3000 then 403
  else if code = CodeTooManyRequests then 429
  else if code ≥ 3000 ∧ code < 4000 then 400
  else if code ≥ 4000 ∧ code < 5000 then 400
  else 500

/-- Method `LockHandler.Challenge`. The argument `bound` is what `ShouldBindJSON`
gives: the request, or the text of its error; `userID` is `c.GetInt64("user_id")` and
`clientIP` is `c.ClientIP()`. -/
def LockHandler.Challenge (svc : LockService) (kms : LocalKMS) (db : DB) (w : ChallengeWorld)
    (bound : Result Bytes ChallengeRequest) (userID : Int) (clientIP : Bytes) : HTTPResponse :=
  match bound with
  | .error err => modelFail 400 CodeParamError (utf8 "invalid request: " ++ err)
  | .ok req =>
    let r := svc.Challenge kms db w req userID clientIP
    if r.code ≠ 0 then
      let status := httpStatusFromBizCode r.code
      modelFail status r.code r.msg
    else
      match r.resp with
      | some resp => modelOK (.challenge resp)
      | none => modelOK .null

/-- Method `LockHandler.Report`, with the database it leaves. -/
def LockHandler.Report (svc : LockService) (db : DB) (w : ReportWorld)
    (bound : Result Bytes ReportRequest) (userID : Int) (clientIP : Bytes) : HTTPResponse × DB :=
  match bound with
  | .error err => (modelFail 400 CodeParamError (utf8 "invalid request: " ++ err), db)
  | .ok req =>
    let r := svc.Report db w req userID clientIP
    if r.code ≠ 0 then (modelFail (httpStatusFromBizCode r.code) r.code r.msg, r.db)
    else (modelOK .null, r.db)

/-- Method `LockHandler.GetDevices`. -/
def LockHandler.GetDevices (svc : LockService) (db : DB) (now : Int) (fails : Bool)
    (userID : Int) : HTTPResponse :=
  match svc.GetAuthorizedDevices db now fails userID with
  | .error _ => modelFail 500 CodeInternalError (utf8 "failed to get devices")
  | .ok devices => modelOK (.devices devices)

/-! ## router: the routes (`router/router.go`) -/

/-- The handlers that `Setup` puts into chains, by name. -/
inductive HandlerName where
  | Recovery
  | RequestID
  | SecurityHeaders
  | CORS
  | AccessLog
  | GlobalRateLimit
  | LoginRateLimit
  | ChallengeRateLimit
  | Auth
  | RBAC (allowedRoles : List Bytes)
  | Health
  | AuthLogin
  | AuthLogout
  | LockGetDevices
  | LockChallenge
  | LockReport
  | AdminDashboard
  | AdminListUsers
  | AdminCreateUser
  | AdminUpdateUser
  | AdminResetPassword
  | AdminListDevices
  | AdminCreateDevice
  | AdminListPermissions
  | AdminGrantPermission
  | AdminBatchGrantPermissions
  | AdminRevokePermission
  | AdminListAuditLogs
  | AdminListAlerts
  | AdminHandleAlert
deriving DecidableEq, Repr

/-- A route of the engine: method, path pattern, and the chain of handlers run in
order for a request that matches. -/
structure Route where
  method : Bytes
  path : Bytes
  chain : List HandlerName
deriving DecidableEq, Repr

/-- The middleware installed by `r.Use(...)`, which heads every chain. -/
def globalChain : List HandlerName :=
  [.Recovery, .RequestID, .SecurityHeaders, .CORS, .AccessLog, .GlobalRateLimit]

/-- The chain of the group `/api/lock`, `r.Group("/api/lock").Use(middleware.Auth())`. -/
def lockChain : List HandlerName := globalChain ++ [.Auth]

/-- The chain of the group `/api/admin`. -/
def adminChain : List HandlerName := globalChain ++ [.Auth, .RBAC [utf8 "admin"]]

/-- Function `Setup`: the routes it registers. -/
def Setup : List Route :=
  [ { method := utf8 "GET", path := utf8 "/api/health", chain := globalChain ++ [.Health] },
    { method := utf8 "POST", path := utf8 "/api/auth/login",
      chain := globalChain ++ [.LoginRateLimit, .AuthLogin] },
    { method := utf8 "POST", path := utf8 "/api/auth/logout",
      chain := globalChain ++ [.Auth, .AuthLogout] },
    { method := utf8 "GET", path := utf8 "/api/lock/devices",
      chain := lockChain ++ [.LockGetDevices] },
    { method := utf8 "POST", path := utf8 "/api/lock/challenge",
      chain := lockChain ++ [.LockChallenge] },
    { method := utf8 "POST", path := utf8 "/api/lock/report",
      chain := lockChain ++ [.LockReport] },
    { method := utf8 "GET", path := utf8 "/api/admin/dashboard",
      chain := adminChain ++ [.AdminDashboard] },
    { method := utf8 "GET", path := utf8 "/api/admin/users",
      chain := adminChain ++ [.AdminListUsers] },
    { method := utf8 "POST", path := utf8 "/api/admin/users",
      chain := adminChain ++ [.AdminCreateUser] },
    { method := utf8 "PUT", path := utf8 "/api/admin/users/:uuid",
      chain := adminChain ++ [.AdminUpdateUser] },
    { method := utf8 "POST", path := utf8 "/api/admin/users/:uuid/reset-pwd",
      chain := adminChain ++ [.AdminResetPassword] },
    { method := utf8 "GET", path := utf8 "/api/admin/devices",
      chain := adminChain ++ [.AdminListDevices] },
    { method := utf8 "POST", path := utf8 "/api/admin/devices",
      chain := adminChain ++ [.AdminCreateDevice] },
    { method := utf8 "GET", path := utf8 "/api/admin/permissions",
      chain := adminChain ++ [.AdminListPermissions] },
    { method := utf8 "POST", path := utf8 "/api/admin/permissions",
      chain := adminChain ++ [.AdminGrantPermission] },
    { method := utf8 "POST", path := utf8 "/api/admin/permissions/batch",
      chain := adminChain ++ [.AdminBatchGrantPermissions] },
    { method := utf8 "DELETE", path := utf8 "/api/admin/permissions/:id",
      chain := adminChain ++ [.AdminRevokePermission] },
    { method := utf8 "GET", path := utf8 "/api/admin/audit-logs",
      chain := adminChain ++ [.AdminListAuditLogs] },
    { method := utf8 "GET", path := utf8 "/api/admin/alerts",
      chain := adminChain ++ [.AdminListAlerts] },
    { method := utf8 "PUT", path := utf8 "/api/admin/alerts/:id",
      chain := adminChain ++ [.AdminHandleAlert] } ]

/-- The chain that serves a request with this method on this path pattern. -/
def routeChain (method path : Bytes) : Option (List HandlerName) :=
  (Setup.find? (fun r => r.method = method && r.path = path)).map (fun r => r.chain)

/-! ## repository: the session store (`repository/session_store.go`) -/

/-- Primary key given to a new session row. -/
def nextSessionID (db : DB) : Int := db.sessions.foldl (fun m x => max m x.ID) 0 + 1

/-- Method `PostgresSessionStore.Create`; the second component tells whether an
error occurred. -/
def PostgresSessionStore.Create (db : DB) (fails : Bool) (session : Session) : DB × Bool :=
  if fails then (db, true)
  else ({ db with sessions := db.sessions ++ [{ session with ID := nextSessionID db }] }, false)

/-- Method `PostgresSessionStore.FindByJTI`: the session with this id that has not
expired. -/
def PostgresSessionStore.FindByJTI (db : DB) (now : Int) (jti : Bytes) : Option Session :=
  db.sessions.find? (fun x => x.JTI = jti && decide (x.ExpiresAt > now))

/-- Method `PostgresSessionStore.DeleteByJTI`. -/
def PostgresSessionStore.DeleteByJTI (db : DB) (fails : Bool) (jti : Bytes) : DB × Bool :=
  if fails then (db, true)
  else ({ db with sessions := db.sessions.filter (fun x => !(x.JTI = jti)) }, false)

/-- Method `PostgresSessionStore.DeleteByUserID`. -/
def PostgresSessionStore.DeleteByUserID (db : DB) (fails : Bool) (userID : Int) : DB × Bool :=
  if fails then (db, true)
  else ({ db with sessions := db.sessions.filter (fun x => !(x.UserID = userID)) }, false)

/-! ## service: the auth service (`service/auth_service.go`) -/

/-- The password functions of package `crypto` that the services call. Their source
file is not among the sources; they are parameters of the embedding:
`GenerateRandomPassword(n)` reading a random source, `HashPassword(password)`
reading a random source for its salt, and `VerifyPassword(password, hash)`, which
returns whether the password matches, or an error. -/
structure PasswordCrypto where
  GenerateRandomPassword : Nat → Bytes → Result Unit Bytes
  HashPassword : Bytes → Bytes → Result Unit Bytes
  VerifyPassword : Bytes → Bytes → Result Unit Bool

/-- Type `AuthService`: the session lifetime of its configuration, in clock ticks, the
password functions it calls and the token secret of package middleware. -/
structure AuthService where
  SessionTTL : Int
  crypto : PasswordCrypto
  tokenSecret : Bytes

structure LoginRequest where
  Phone : Bytes
  Password : Bytes
deriving DecidableEq, Repr

structure LoginResponse where
  Token : Bytes
  ExpiresAt : Int
  UserUUID : Bytes
  Role : Bytes
  Name : Bytes
deriving DecidableEq, Repr

/-- What the surroundings give to one `Login` call: the clock reading, the session id
drawn by `uuid.New()`, and whether the user query (with an error other than
record-not-found) or the session insert fails. -/
structure LoginWorld where
  now : Int := 0
  jti : Bytes := List.replicate 16 0
  userQueryFails : Bool := false
  sessionCreateFails : Bool := false
deriving DecidableEq, Repr

/-- What `Login` returns, `(*LoginResponse, int, string)`, with the database it
leaves and the number of `crypto.DummyVerify()` calls it made. -/
structure LoginResult where
  resp : Option LoginResponse := none
  code : Int
  msg : Bytes
  db : DB
  dummyVerifies : Nat := 0
deriving DecidableEq, Repr

/-- Method `AuthService.Login`. -/
def AuthService.Login (s : AuthService) (db : DB) (w : LoginWorld) (req : LoginRequest)
    (userAgent ipAddress : Bytes) : LoginResult :=
  if w.userQueryFails then
    { code := CodeInternalError, msg := utf8 "internal error", db := db }
  else
    match db.users.find? (fun u => u.Phone = req.Phone && u.DeletedAt.isNone) with
    | none =>
      { code := CodeAuthFailed, msg := utf8 "invalid credentials", db := db, dummyVerifies := 1 }
    | some user =>
      match s.crypto.VerifyPassword req.Password user.PasswordHash with
      | .error _ => { code := CodeAuthFailed, msg := utf8 "invalid credentials", db := db }
      | .ok false => { code := CodeAuthFailed, msg := utf8 "invalid credentials", db := db }
      | .ok true =>
        if user.Status = 0 then
          { code := CodeAccountDisabled, msg := utf8 "account has been disabled", db := db }
        else
          let jti := w.jti
          let expiresAt := w.now + s.SessionTTL
          let session : Session :=
            { JTI := jti, UserID := user.ID, Role := user.Role, ExpiresAt := expiresAt,
              UserAgent := userAgent, IPAddress := ipAddress }
          let created := PostgresSessionStore.Create db w.sessionCreateFails session
          if created.2 then
            { code := CodeInternalError, msg := utf8 "internal error", db := created.1 }
          else
            match GenerateToken s.tokenSecret user.UUID jti with
            | .error _ =>
              { code := CodeInternalError, msg := utf8 "internal error", db := created.1 }
            | .ok token =>
              { resp := some { Token := token, ExpiresAt := expiresAt,
                               UserUUID := uuidString user.UUID, Role := user.Role,
                               Name := user.Name },
                code := 0, msg := [], db := created.1 }

/-- Method `AuthService.Logout`, with whether it returns an error. -/
def AuthService.Logout (_s : AuthService) (db : DB) (fails : Bool) (jti : Bytes) : DB × Bool :=
  PostgresSessionStore.DeleteByJTI db fails jti

/-! ## service: the admin service (`service/admin_service.go`) -/

/-- The UTF-8 encodings of the characters for which `unicode.IsSpace` holds: tab,
line feed, vertical tab, form feed, carriage return, space, U+0085, U+00A0, U+1680,
U+2000 to U+200A, U+2028, U+2029, U+202F, U+205F and U+3000. -/
def unicodeSpaces : List Bytes :=
  [[9], [10], [11], [12], [13], [32], [194, 133], [194, 160], [225, 154, 128],
   [226, 128, 128], [226, 128, 129], [226, 128, 130], [226, 128, 131], [226, 128, 132],
   [226, 128, 133], [226, 128, 134], [226, 128, 135], [226, 128, 136], [226, 128, 137],
   [226, 128, 138], [226, 128, 168], [226, 128, 169], [226, 128, 175], [226, 129, 159],
   [227, 128, 128]]

/-- Removes the white space at the head of a string, at most `fuel` characters of it. -/
def trimSpaceLeft : Nat → Bytes → Bytes
  | 0, s => s
  | fuel + 1, s =>
    match unicodeSpaces.find? (fun sp => sp.isPrefixOf s) with
    | some sp => trimSpaceLeft fuel (s.drop sp.length)
    | none => s

/-- Removes the white space at the end of a string, at most `fuel` characters of it. -/
def trimSpaceRight : Nat → Bytes → Bytes
  | 0, s => s
  | fuel + 1, s =>
    match unicodeSpaces.find? (fun sp => sp.isSuffixOf s) with
    | some sp => trimSpaceRight fuel (s.take (s.length - sp.length))
    | none => s

/-- Function `strings.TrimSpace`. -/
def stringsTrimSpace (s : Bytes) : Bytes :=
  trimSpaceRight s.length (trimSpaceLeft s.length s)

/-- Function `strings.ReplaceAll(s, " ", "")`: the string without its space bytes. -/
def removeSpaces (s : Bytes) : Bytes := s.filter (fun c => c != 32)

/-- Function `hexCharToByte`; `none` stands for 0xFF. -/
def hexCharToByte (c : Nat) : Option Nat :=
  if c ≥ 48 ∧ c ≤ 57 then some (c - 48)
  else if c ≥ 97 ∧ c ≤ 102 then some (c - 97 + 10)
  else if c ≥ 65 ∧ c ≤ 70 then some (c - 65 + 10)
  else none

/-- Function `hexDecodeImpl`, reached through `decodeHexKey`, `decodeHex` and
`hexDecode`; `none` is any of its errors (odd length, invalid character). -/
def hexDecodeImpl : Bytes → Option Bytes
  | [] => some []
  | [_] => none
  | hi :: lo :: rest =>
    match hexCharToByte hi, hexCharToByte lo with
    | some h, some l => (hexDecodeImpl rest).map (fun t => (h * 16 + l) :: t)
    | _, _ => none

/-- Function `decodeHexKey`. -/
def decodeHexKey (hexStr : Bytes) : Option Bytes := hexDecodeImpl hexStr

/-- Type `AdminService`: the password functions it calls; its session store is the
Postgres one. -/
structure AdminService where
  crypto : PasswordCrypto

/-- What the surroundings give to one call of an admin operation: the clock reading,
the random sources read by the password generator, by the hasher and by the key
manager, the UUID drawn by `uuid.New()`, and which of the database statements fail:
the row lookup, the count of users, the count of devices, the update, the insert,
the transaction, the deletion of sessions, the insert of the operation log. -/
structure AdminWorld where
  now : Int := 0
  passwordRand : Bytes := []
  saltRand : Bytes := []
  nonceRand : Bytes := []
  newUUID : Bytes := List.replicate 16 0
  lookupFails : Bool := false
  userCountFails : Bool := false
  deviceCountFails : Bool := false
  updateFails : Bool := false
  createFails : Bool := false
  txFails : Bool := false
  sessionDeleteFails : Bool := false
  opLogFails : Bool := false
deriving DecidableEq, Repr

/-- What an admin operation returns, `(int, string)`, with the database it leaves. -/
structure AdminResult where
  code : Int
  msg : Bytes
  db : DB
deriving DecidableEq, Repr

/-- Method `AdminService.logOperation`: inserts a row of the operation log; a failed
insert is logged and nothing else. -/
def AdminService.logOperation (_s : AdminService) (db : DB) (fails : Bool) (operatorID : Int)
    (action targetType : Bytes) (targetID : Int) : DB :=
  if fails then db
  else
    { db with operationLogs := db.operationLogs ++
        [{ OperatorID := operatorID, Action := action, TargetType := targetType,
           TargetID := targetID }] }

structure CreateUserRequest where
  Phone : Bytes
  Name : Bytes
  Department : Bytes := []
  Role : Bytes
deriving DecidableEq, Repr

structure UpdateUserRequest where
  Name : Option Bytes := none
  Department : Option Bytes := none
  Role : Option Bytes := none
  Status : Option Int := none
deriving DecidableEq, Repr

/-- What `CreateUser` returns, `(*model.User, string, int, string)`, with the
database it leaves. -/
structure CreateUserResult where
  user : Option User := none
  password : Bytes := []
  code : Int
  msg : Bytes
  db : DB
deriving DecidableEq, Repr

/-- Primary key given to a new user row. -/
def nextUserID (db : DB) : Int := db.users.foldl (fun m x => max m x.ID) 0 + 1

/-- Method `AdminService.CreateUser`. -/
def AdminService.CreateUser (s : AdminService) (db : DB) (w : AdminWorld)
    (req : CreateUserRequest) (operatorID : Int) : CreateUserResult :=
  match s.crypto.GenerateRandomPassword 16 w.passwordRand with
  | .error _ =>
    { code := CodeInternalError, msg := utf8 "failed to generate password", db := db }
  | .ok password =>
    match s.crypto.HashPassword password w.saltRand with
    | .error _ => { code := CodeInternalError, msg := utf8 "failed to hash password", db := db }
    | .ok hash =>
      let user : User :=
        { ID := nextUserID db, UUID := w.newUUID, Phone := req.Phone, PasswordHash := hash,
          Name := req.Name, Role := req.Role, Status := 1,
          Department := if req.Department ≠ [] then some req.Department else none }
      if w.createFails then
        { code := CodeInternalError, msg := utf8 "failed to create user", db := db }
      else
        let db1 := { db with users := db.users ++ [user] }
        let db2 := s.logOperation db1 w.opLogFails operatorID (utf8 "create_user") (utf8 "user")
          user.ID
        { user := some user, password := password, code := 0, msg := [], db := db2 }

/-- The `Where` clause of the user lookups of the admin service: `uuid = ? AND
deleted_at IS NULL`, the column compared with the canonical text of its value. The
database also matches other spellings of the same UUID (upper case, braces, no
hyphens), which this comparison does not; the properties that use it either assume
that the lookup finds the user or hold whether it does or not. -/
def userWhere (userUUID : Bytes) (u : User) : Bool :=
  uuidString u.UUID = userUUID && u.DeletedAt.isNone

/-- Method `AdminService.UpdateUser`. The update goes to the row with the primary
key of the user found, under the scope `deleted_at IS NULL` of the model. -/
def AdminService.UpdateUser (s : AdminService) (db : DB) (w : AdminWorld) (userUUID : Bytes)
    (req : UpdateUserRequest) (operatorID : Int) : AdminResult :=
  match (if w.lookupFails then none else db.users.find? (userWhere userUUID)) with
  | none => { code := CodeParamError, msg := utf8 "user not found", db := db }
  | some user =>
    if w.updateFails then { code := CodeInternalError, msg := utf8 "update failed", db := db }
    else
      let db1 := { db with users := db.users.map (fun u =>
        if u.ID = user.ID ∧ u.DeletedAt.isNone then
          { u with Name := req.Name.getD u.Name,
                   Department := match req.Department with
                     | some dep => some dep
                     | none => u.Department,
                   Role := req.Role.getD u.Role,
                   Status := req.Status.getD u.Status }
        else u) }
      let db2 :=
        if req.Status = some 0 then
          (PostgresSessionStore.DeleteByUserID db1 w.sessionDeleteFails user.ID).1
        else db1
      let db3 := s.logOperation db2 w.opLogFails operatorID (utf8 "update_user") (utf8 "user")
        user.ID
      { code := 0, msg := [], db := db3 }

/-- What `ResetPassword` returns, `(string, int, string)`, with the database it
leaves. -/
structure ResetPasswordResult where
  password : Bytes := []
  code : Int
  msg : Bytes
  db : DB
deriving DecidableEq, Repr

/-- Method `AdminService.ResetPassword`. -/
def AdminService.ResetPassword (s : AdminService) (db : DB) (w : AdminWorld) (userUUID : Bytes)
    (operatorID : Int) : ResetPasswordResult :=
  match (if w.lookupFails then none else db.users.find? (userWhere userUUID)) with
  | none => { code := CodeParamError, msg := utf8 "user not found", db := db }
  | some user =>
    match s.crypto.GenerateRandomPassword 16 w.passwordRand with
    | .error _ =>
      { code := CodeInternalError, msg := utf8 "failed to generate password", db := db }
    | .ok password =>
      match s.crypto.HashPassword password w.saltRand with
      | .error _ =>
        { code := CodeInternalError, msg := utf8 "failed to hash password", db := db }
      | .ok hash =>
        if w.updateFails then
          { code := CodeInternalError, msg := utf8 "failed to update password", db := db }
        else
          let db1 := { db with users := db.users.map (fun u =>
            if u.ID = user.ID ∧ u.DeletedAt.isNone then { u with PasswordHash := hash }
            else u) }
          let db2 := (PostgresSessionStore.DeleteByUserID db1 w.sessionDeleteFails user.ID).1
          let db3 := s.logOperation db2 w.opLogFails operatorID (utf8 "reset_password")
            (utf8 "user") user.ID
          { password := password, code := 0, msg := [], db := db3 }

structure CreateDeviceRequest where
  DeviceID : Bytes
  DeviceKey : Bytes
deriving DecidableEq, Repr

/-- What `CreateDevice` returns, `(*model.Device, int, string)`, with the database it
leaves. -/
structure CreateDeviceResult where
  device : Option Device := none
  code : Int
  msg : Bytes
  db : DB
deriving DecidableEq, Repr

/-- Primary key given to a new device row. -/
def nextDeviceID (db : DB) : Int := db.devices.foldl (fun m x => max m x.ID) 0 + 1

/-- Method `AdminService.CreateDevice`. The columns of the request that the device
row of this development does not carry (name, location, risk level, pipeline tag)
are left out. -/
def AdminService.CreateDevice (s : AdminService) (kms : LocalKMS) (db : DB) (w : AdminWorld)
    (req : CreateDeviceRequest) (operatorID : Int) : CreateDeviceResult :=
  let keyHex := stringsTrimSpace (removeSpaces req.DeviceKey)
  if keyHex.length ≠ 32 then
    { code := CodeParamError,
      msg := utf8 "设备密钥须为 32 位十六进制（AES-128，如 0123456789abcdef0123456789abcdef）",
      db := db }
  else
    match decodeHexKey keyHex with
    | none =>
      { code := CodeParamError, msg := utf8 "设备密钥须为 32 位十六进制（仅含 0-9、a-f）",
        db := db }
    | some keyBytes =>
      match kms.EncryptDeviceKey w.nonceRand keyBytes with
      | .error _ =>
        { code := CodeInternalError, msg := utf8 "failed to encrypt device key", db := db }
      | .ok encrypted =>
        let device : Device :=
          { ID := nextDeviceID db, DeviceID := req.DeviceID, KeyEncrypted := encrypted,
            Status := 1 }
        if w.createFails then
          { code := CodeInternalError, msg := utf8 "failed to create device", db := db }
        else
          let db1 := { db with devices := db.devices ++ [device] }
          let db2 := s.logOperation db1 w.opLogFails operatorID (utf8 "create_device")
            (utf8 "device") device.ID
          { device := some device, code := 0, msg := [], db := db2 }

structure GrantPermissionRequest where
  UserID : Int
  DeviceID : Bytes
  DeviceType : Bytes := []
  ValidFrom : Int
  ValidUntil : Option Int := none
deriving DecidableEq, Repr

/-- Primary key given to a new permission row. -/
def nextPermissionID (db : DB) : Int := db.permissions.foldl (fun m x => max m x.ID) 0 + 1

/-- Method `AdminService.GrantPermission`. -/
def AdminService.GrantPermission (s : AdminService) (db : DB) (w : AdminWorld)
    (req : GrantPermissionRequest) (operatorID : Int) : AdminResult :=
  let deviceType := if req.DeviceType = [] then DeviceTypeLock else req.DeviceType
  if w.lookupFails then { code := CodeInternalError, msg := utf8 "查询授权失败", db := db }
  else
    match db.permissions.find? (fun p => p.UserID = req.UserID && p.DeviceType = deviceType
        && p.DeviceID = req.DeviceID && p.Status = 1) with
    | some existing =>
      if w.updateFails then { code := CodeInternalError, msg := utf8 "更新授权失败", db := db }
      else
        let db1 := { db with permissions := db.permissions.map (fun p =>
          if p.ID = existing.ID then { p with ValidUntil := req.ValidUntil } else p) }
        let db2 := s.logOperation db1 w.opLogFails operatorID (utf8 "grant_permission")
          (utf8 "permission") existing.ID
        { code := 0, msg := [], db := db2 }
    | none =>
      let userCnt : Int :=
        (db.users.filter (fun u => u.ID = req.UserID && u.DeletedAt.isNone)).length
      if w.userCountFails ∨ userCnt = 0 then
        { code := CodeParamError,
          msg := utf8 "用户不存在，请填写用户管理中的用户 ID（数字）", db := db }
      else
        let deviceCnt : Int := (db.devices.filter (deviceWhere req.DeviceID)).length
        if deviceType = DeviceTypeLock ∧ (w.deviceCountFails ∨ deviceCnt = 0) then
          { code := CodeParamError,
            msg := utf8 "设备不存在，请填写锁具管理中的设备编号（device_id）", db := db }
        else
          let perm : Permission :=
            { ID := nextPermissionID db, UserID := req.UserID, DeviceType := deviceType,
              DeviceID := req.DeviceID, GrantedBy := operatorID, ValidFrom := req.ValidFrom,
              ValidUntil := req.ValidUntil, Status := 1 }
          if w.createFails then
            { code := CodeInternalError, msg := utf8 "创建授权失败", db := db }
          else
            let db1 := { db with permissions := db.permissions ++ [perm] }
            let db2 := s.logOperation db1 w.opLogFails operatorID (utf8 "grant_permission")
              (utf8 "permission") perm.ID
            { code := 0, msg := [], db := db2 }

/-- Method `AdminService.BatchGrantPermissions`: the grants one after the other, up
to the first that does not return code 0. Each grant has its own surroundings. -/
def AdminService.BatchGrantPermissions (s : AdminService) (db : DB) :
    List (AdminWorld × GrantPermissionRequest) → Int → AdminResult
  | [], _ => { code := 0, msg := [], db := db }
  | (w, p) :: rest, operatorID =>
    let r := s.GrantPermission db w p operatorID
    if r.code ≠ 0 then r else s.BatchGrantPermissions r.db rest operatorID

/-- Method `AdminService.RevokePermission`. The error of the update is not looked
at: a failed update affects no row. -/
def AdminService.RevokePermission (s : AdminService) (db : DB) (w : AdminWorld) (permID : Int)
    (operatorID : Int) : AdminResult :=
  let hit : Permission → Bool := fun p => p.ID = permID && p.Status = 1
  let rowsAffected : Int := if w.updateFails then 0 else (db.permissions.filter hit).length
  if rowsAffected = 0 then
    { code := CodeParamError, msg := utf8 "permission not found or already revoked", db := db }
  else
    let db1 := { db with permissions := db.permissions.map (fun p =>
      if hit p then { p with Status := 0, RevokedBy := some operatorID, RevokedAt := some w.now }
      else p) }
    let db2 := s.logOperation db1 w.opLogFails operatorID (utf8 "revoke_permission")
      (utf8 "permission") permID
    { code := 0, msg := [], db := db2 }

structure HandleAlertRequest where
  HandleNote : Bytes
  UnlockDevice : Bool := false
deriving DecidableEq, Repr

/-- Method `AdminService.HandleAlert`. A failed lookup of any kind answers "not
found". The transaction marks the alert row handled and, when asked to unlock for a
`consecutive_fail` alert of a lock, sets to 1 the status of the device rows with
`device_id = ? AND status = 2` under the scope `deleted_at IS NULL` of the model; a
failed transaction leaves the database as it was. -/
def AdminService.HandleAlert (s : AdminService) (db : DB) (w : AdminWorld) (alertID : Int)
    (req : HandleAlertRequest) (operatorID : Int) : AdminResult :=
  match (if w.lookupFails then none
         else db.alerts.find? (fun a => a.ID = alertID && a.Status = 0)) with
  | none => { code := CodeParamError, msg := utf8 "alert not found or already handled", db := db }
  | some alert =>
    if w.txFails then
      { code := CodeInternalError, msg := utf8 "failed to handle alert", db := db }
    else
      let alerts := db.alerts.map (fun a =>
        if a.ID = alert.ID then
          { a with Status := 1, HandledBy := some operatorID,
                   HandleNote := some req.HandleNote, HandledAt := some w.now }
        else a)
      let devices :=
        if req.UnlockDevice ∧ alert.AlertType = utf8 "consecutive_fail"
            ∧ alert.DeviceType = DeviceTypeLock then
          db.devices.map (fun d =>
            if d.DeviceID = alert.DeviceID ∧ d.Status = 2 ∧ d.DeletedAt.isNone then
              { d with Status := 1 }
            else d)
        else db.devices
      let db1 := { db with alerts := alerts, devices := devices }
      let db2 := s.logOperation db1 w.opLogFails operatorID (utf8 "handle_alert") (utf8 "alert")
        alertID
      { code := 0, msg := [], db := db2 }

/-! ## middleware: the auth gateway (`middleware/auth.go`) -/

/-- What the surroundings give to one pass through `Auth`: the reading `time.Now()`
of the session query, and which of the statements fail: the session query, the user
query, the deletion of the sessions. -/
structure AuthWorld where
  now : Int := 0
  sessionQueryFails : Bool := false
  userQueryFails : Bool := false
  sessionDeleteFails : Bool := false
deriving DecidableEq, Repr

/-- The keys that `Auth` sets in the context of the request: "user_id", "user_uuid"
and "role". -/
structure AuthKeys where
  user_id : Int
  user_uuid : Bytes
  role : Bytes
deriving DecidableEq, Repr

/-- What a pass through `Auth` leaves: whether the chain goes on, the keys set in the
context when it does, and the database. -/
structure AuthResult where
  outcome : Outcome
  keys : Option AuthKeys := none
  db : DB
deriving DecidableEq, Repr

/-- Function `Auth`: the handler it returns, applied to a request with this
`Authorization` header (the empty string when the header is absent). The error of
the deletion of the sessions is not looked at. -/
def Auth (tokenSecret : Bytes) (db : DB) (w : AuthWorld) (header : Bytes) : AuthResult :=
  if header = [] ∨ ¬ (utf8 "Bearer ").isPrefixOf header then
    { outcome := .abort (modelFail 401 CodeSessionExpired
        (utf8 "missing or invalid authorization header")), db := db }
  else
    let tokenStr := header.drop (utf8 "Bearer ").length
    match ParseToken tokenSecret tokenStr with
    | .error _ =>
      { outcome := .abort (modelFail 401 CodeSessionExpired (utf8 "invalid token")), db := db }
    | .ok claims =>
      match (if w.sessionQueryFails then none
             else db.sessions.find? (fun x => x.JTI = claims.JTI && decide (x.ExpiresAt > w.now)))
        with
      | none =>
        { outcome := .abort (modelFail 401 CodeSessionExpired
            (utf8 "session expired, please login again")), db := db }
      | some session =>
        let user : Option User :=
          if w.userQueryFails then none
          else db.users.find? (fun u => u.ID = session.UserID && u.DeletedAt.isNone)
        if user.isNone ∨ user.any (fun u => u.Status = 0) then
          { outcome := .abort (modelFail 401 CodeAccountDisabled
              (utf8 "account has been disabled")),
            db := (PostgresSessionStore.DeleteByUserID db w.sessionDeleteFails session.UserID).1 }
        else
          { outcome := .next,
            keys := some { user_id := session.UserID, user_uuid := claims.UserUUID,
                           role := session.Role },
            db := db }

/-- Function `RBAC`: the handler it returns, applied to a request whose context has
this value under the key "role", if any. -/
def RBAC (allowedRoles : List Bytes) (role : Option Bytes) : Outcome :=
  match role with
  | none => .abort (modelFail 403 CodeForbidden (utf8 "access denied"))
  | some roleStr =>
    if allowedRoles.any (fun allowed => roleStr = allowed) then .next
    else .abort (modelFail 403 CodeForbidden (utf8 "insufficient permissions"))

/-! ## handler: the admin handlers for users (`handler/admin_handler.go`) -/

/-- Function `failWithLog`: the response it writes. -/
def failWithLog (code : Int) (msg : Bytes) : HTTPResponse :=
  modelFail (httpStatusFromBizCode code) code msg

/-- Function `failWithLogStatus`: the response it writes. -/
def failWithLogStatus (status code : Int) (msg : Bytes) : HTTPResponse :=
  modelFail status code msg

/-- Method `AdminHandler.CreateUser`, with the database it leaves. The argument
`bound` is what `ShouldBindJSON` gives and `operatorID` is `c.GetInt64("user_id")`.
The second result of the service, the password, is assigned to the blank
identifier. -/
def AdminHandler.CreateUser (svc : AdminService) (db : DB) (w : AdminWorld)
    (bound : Result Bytes CreateUserRequest) (operatorID : Int) : HTTPResponse × DB :=
  match bound with
  | .error err => (modelFail 400 CodeParamError (utf8 "invalid request: " ++ err), db)
  | .ok req =>
    let r := svc.CreateUser db w req operatorID
    if r.code ≠ 0 then (failWithLogStatus 500 r.code r.msg, r.db)
    else
      match r.user with
      | some user => (modelOK (.user (userJSON user)), r.db)
      | none => (modelOK .null, r.db)

/-- Method `AdminHandler.ResetPassword`, with the database it leaves; `userUUID` is
`c.Param("uuid")`. -/
def AdminHandler.ResetPassword (svc : AdminService) (db : DB) (w : AdminWorld)
    (userUUID : Bytes) (operatorID : Int) : HTTPResponse × DB :=
  let r := svc.ResetPassword db w userUUID operatorID
  if r.code ≠ 0 then (failWithLog r.code r.msg, r.db)
  else (modelOK (.newPassword r.password), r.db)

/-! ## Notions of the specification used to state the properties -/

/-- The byte string `t` with bit `k` of its byte `i` flipped: a string that differs
from `t` in exactly one bit. -/
def flipBit (t : Bytes) (i k : Nat) : Bytes := t.set i (t.getD i 0 ^^^ 2 ^ k)

/-- A hexadecimal character, of either case. -/
def IsHexChar (c : Nat) : Prop :=
  (48 ≤ c ∧ c ≤ 57) ∨ (97 ≤ c ∧ c ≤ 102) ∨ (65 ≤ c ∧ c ≤ 70)

instance (c : Nat) : Decidable (IsHexChar c) := by
  unfold IsHexChar; infer_instance

/-- A lowercase hexadecimal character. -/
def IsLowerHexChar (c : Nat) : Prop := (48 ≤ c ∧ c ≤ 57) ∨ (97 ≤ c ∧ c ≤ 102)

instance (c : Nat) : Decidable (IsLowerHexChar c) := by
  unfold IsLowerHexChar; infer_instance

/-- The words of the specification for `challenge_c`: exactly 16 hexadecimal
characters. -/
def IsHex16 (c : Bytes) : Prop := c.length = 16 ∧ ∀ b ∈ c, IsHexChar b

instance (c : Bytes) : Decidable (IsHex16 c) := by
  unfold IsHex16; infer_instance

/-- The value of an `int64`: an integer in `[-2^63, 2^63)`. -/
def IsInt64 (x : Int) : Prop := -9223372036854775808 ≤ x ∧ x < 9223372036854775808

instance (x : Int) : Decidable (IsInt64 x) := by
  unfold IsInt64; infer_instance

/-- The 64-bit two's complement pattern of an integer, in the words of the
specification: the integer itself when it is not negative, `2^64` plus it when it
is. -/
def twosComplement64 (x : Int) : Nat :=
  if 0 ≤ x then x.toNat else (18446744073709551616 + x).toNat

/-- The number written by a byte string read big-endian. -/
def beValue (bs : Bytes) : Nat := bs.foldl (fun acc b => acc * 256 + b) 0

/-- A permission is effective at time `t`, in the words of the specification:
`status = 1`, `valid_from <= t`, and `valid_until` is null or later than `t`. -/
def Permission.EffectiveAt (p : Permission) (t : Int) : Prop :=
  p.Status = 1 ∧ p.ValidFrom ≤ t ∧ (p.ValidUntil = none ∨ ∃ u, p.ValidUntil = some u ∧ t < u)

instance (p : Permission) (t : Int) : Decidable (p.EffectiveAt t) := by
  unfold Permission.EffectiveAt
  cases p.ValidUntil with
  | none => exact decidable_of_iff (p.Status = 1 ∧ p.ValidFrom ≤ t) (by simp)
  | some u => exact decidable_of_iff (p.Status = 1 ∧ p.ValidFrom ≤ t ∧ t < u) (by simp)

/-- A permission covers the stretch from `t1` to `t2`: `status = 1`, `valid_from <=
t1`, and `valid_until` is null or later than `t2`. With `t1 = t2` this is the
effectiveness of the specification. -/
def Permission.EffectiveBetween (p : Permission) (t1 t2 : Int) : Prop :=
  p.Status = 1 ∧ p.ValidFrom ≤ t1 ∧ (p.ValidUntil = none ∨ ∃ u, p.ValidUntil = some u ∧ t2 < u)

/-- Some permission row of the user for the lock with this device id covers the
stretch from `t1` to `t2`. -/
def HasPermission (db : DB) (userID : Int) (deviceID : Bytes) (t1 t2 : Int) : Prop :=
  ∃ p ∈ db.permissions, p.UserID = userID ∧ p.DeviceType = DeviceTypeLock
    ∧ p.DeviceID = deviceID ∧ p.EffectiveBetween t1 t2

/-- A toy AEAD to instantiate the theorems with: the plaintext followed by a tag of
sixteen zero bytes. -/
def toyGCM : AEAD :=
  { Seal := fun _ _ plaintext => plaintext ++ List.replicate 16 0
    Open := fun _ _ ciphertext =>
      if ciphertext.length < 16 then none
      else if ciphertext.drop (ciphertext.length - 16) = List.replicate 16 0 then
        some (ciphertext.take (ciphertext.length - 16))
      else none }

/-- A key manager over the toy AEAD, with a master key of 32 bytes. -/
def toyKMS : LocalKMS := { masterKey := List.replicate 32 7, gcm := toyGCM }

/-- The device key 0123456789abcdef0123456789abcdef of the happy-unlock scenario. -/
def scenarioKey : Bytes := [1, 35, 69, 103, 137, 171, 205, 239, 1, 35, 69, 103, 137, 171, 205, 239]

/-- The device of the happy-unlock scenario: the active device D1, its key sealed by
`toyKMS` under the nonce 0, 1, ..., 11. -/
def scenarioDevice : Device :=
  { ID := 1, DeviceID := utf8 "D1",
    KeyEncrypted := List.range 12 ++ toyGCM.Seal toyKMS.masterKey (List.range 12) scenarioKey }

/-- The database of the happy-unlock scenario: the device D1 and a permission of
user 7 on it from instant 100 on. -/
def scenarioDB : DB :=
  { devices := [scenarioDevice],
    permissions := [{ ID := 1, UserID := 7, DeviceType := utf8 "lock", DeviceID := utf8 "D1",
                      ValidFrom := 100 }] }

/-- A challenge of the scenario: device D1, challenge 0011223344556677, timestamp
1000. -/
def scenarioRequest : ChallengeRequest :=
  { DeviceID := utf8 "D1", ChallengeC := utf8 "0011223344556677", Timestamp := 1000 }

/-- Clock readings of the scenario: every reading is 1000. -/
def scenarioWorld : ChallengeWorld :=
  { serverTime := 1000, permNowFrom := 1000, permNowUntil := 1000 }

/-! ### The step relation of the service operations -/

/-- The services of one server and the key manager they share. -/
structure Services where
  auth : AuthService
  lock : LockService
  admin : AdminService
  kms : LocalKMS

/-- One call of a service operation, with its arguments and with what the
surroundings give to it. The listing operations of the admin service (`ListUsers`,
`ListAlerts`, `GetDashboard`, `ListAuditLogs`, `ListPermissions`) and of the lock
service (`GetAuthorizedDevices`, `GetDeviceList`) issue queries only. For `challenge`, `touchNow` and
`touchFails` are the clock reading and the outcome of the update that the call
leaves to a goroutine. -/
inductive Op where
  | login (w : LoginWorld) (req : LoginRequest) (userAgent ipAddress : Bytes)
  | logout (fails : Bool) (jti : Bytes)
  | challenge (w : ChallengeWorld) (req : ChallengeRequest) (userID : Int) (clientIP : Bytes)
      (touchNow : Int) (touchFails : Bool)
  | report (w : ReportWorld) (req : ReportRequest) (userID : Int) (clientIP : Bytes)
  | getAuthorizedDevices (now : Int) (fails : Bool) (userID : Int)
  | getDeviceList
  | createUser (w : AdminWorld) (req : CreateUserRequest) (operatorID : Int)
  | updateUser (w : AdminWorld) (userUUID : Bytes) (req : UpdateUserRequest) (operatorID : Int)
  | resetPassword (w : AdminWorld) (userUUID : Bytes) (operatorID : Int)
  | listUsers
  | createDevice (w : AdminWorld) (req : CreateDeviceRequest) (operatorID : Int)
  | grantPermission (w : AdminWorld) (req : GrantPermissionRequest) (operatorID : Int)
  | batchGrantPermissions (reqs : List (AdminWorld × GrantPermissionRequest)) (operatorID : Int)
  | revokePermission (w : AdminWorld) (permID : Int) (operatorID : Int)
  | handleAlert (w : AdminWorld) (alertID : Int) (req : HandleAlertRequest) (operatorID : Int)
  | listAlerts
  | getDashboard
  | listAuditLogs
  | listPermissions

/-- The effect on the database of a statement left to a goroutine. -/
def runStmt (now : Int) (fails : Bool) (db : DB) : Stmt → DB
  | .touchDevice deviceID =>
    if fails then db
    else
      { db with devices := db.devices.map (fun d =>
          if deviceWhere deviceID d then { d with LastActiveAt := some now } else d) }
  | _ => db

/-- The database after a call of a service operation. -/
def Op.run (sv : Services) (db : DB) : Op → DB
  | .login w req userAgent ipAddress => (sv.auth.Login db w req userAgent ipAddress).db
  | .logout fails jti => (sv.auth.Logout db fails jti).1
  | .challenge w req userID clientIP touchNow touchFails =>
    (sv.lock.Challenge sv.kms db w req userID clientIP).spawned.foldl
      (runStmt touchNow touchFails) db
  | .report w req userID clientIP => (sv.lock.Report db w req userID clientIP).db
  | .getAuthorizedDevices _ _ _ => db
  | .getDeviceList => db
  | .createUser w req operatorID => (sv.admin.CreateUser db w req operatorID).db
  | .updateUser w userUUID req operatorID => (sv.admin.UpdateUser db w userUUID req operatorID).db
  | .resetPassword w userUUID operatorID => (sv.admin.ResetPassword db w userUUID operatorID).db
  | .listUsers => db
  | .createDevice w req operatorID => (sv.admin.CreateDevice sv.kms db w req operatorID).db
  | .grantPermission w req operatorID => (sv.admin.GrantPermission db w req operatorID).db
  | .batchGrantPermissions reqs operatorID =>
    (sv.admin.BatchGrantPermissions db reqs operatorID).db
  | .revokePermission w permID operatorID => (sv.admin.RevokePermission db w permID operatorID).db
  | .handleAlert w alertID req operatorID => (sv.admin.HandleAlert db w alertID req operatorID).db
  | .listAlerts => db
  | .getDashboard => db
  | .listAuditLogs => db
  | .listPermissions => db

/-- The step relation of the service operations. -/
def Step (sv : Services) (db db' : DB) : Prop := ∃ op : Op, op.run sv db = db'

/-- The run in which `Report` reaches `triggerAlertLock`: a report of a failure whose
increment brings the count to three or more. -/
def ReachesAlertLock (db : DB) (w : ReportWorld) (req : ReportRequest) : Prop :=
  req.Result = utf8 "fail" ∧
    (PostgresDeviceFailStore.Increment db w.now w.incrementFails DeviceTypeLock
      req.DeviceID).2.1 ≥ 3

/-! ### The rate gate -/

/-- The upsert rule of the specification for the rate counter, on the row found for
the key at instant `t` with a window of `w` seconds: when the row is absent or
`t - window_start ≥ w` the count becomes 1 and the window starts at `t`, otherwise
the count grows by one and the window start stays. -/
def specUpsert (row : Option RateLimit) (key : Bytes) (t w : Int) : RateLimit :=
  match row with
  | none => { Key := key, Count := 1, WindowStart := t }
  | some r =>
    if t - r.WindowStart ≥ w * ticksPerSecond then { r with Count := 1, WindowStart := t }
    else { r with Count := r.Count + 1 }

/-- The row of the rate counter stored for a key. -/
def rateRow (db : DB) (key : Bytes) : Option RateLimit :=
  db.rateLimits.find? (fun r => r.Key = key)

/-- The outcomes of a sequence of requests with the same context through a rate gate,
one for each request, in order; each request has its own surroundings. -/
def runGate (cfg : RateLimitConfig) (c : RequestCtx) : DB → List GateWorld → List Outcome
  | _, [] => []
  | db, w :: ws => (RateLimiter cfg db w c).1 :: runGate cfg c (RateLimiter cfg db w c).2 ws

/-- The response is a denial with the business code `TooManyRequests`. -/
def Outcome.Denied : Outcome → Prop
  | .next => False
  | .abort resp => resp.code = CodeTooManyRequests

instance (o : Outcome) : Decidable o.Denied := by
  cases o <;> unfold Outcome.Denied <;> infer_instance

/-- The status table of the specification: 1xxx gives 401, but 403 for
`AccountDisabled`; 2xxx gives 403; `TooManyRequests` gives 429; other 3xxx and 4xxx
give 400; 5xxx gives 500. -/
def specStatus (code : Int) : Int :=
  if code = CodeAccountDisabled then 403
  else if 1000 ≤ code ∧ code < 2000 then 401
  else if 2000 ≤ code ∧ code < 3000 then 403
  else if code = CodeTooManyRequests then 429
  else if 3000 ≤ code ∧ code < 5000 then 400
  else 500

/-! ### Scenario data for the rate gate and the login -/

/-- A request from one address, with a JSON body. -/
def scenarioCtx : RequestCtx := { ClientIP := utf8 "10.0.0.7" }

/-- Eleven passes through a gate within one second, `k` ticks after instant 5000000
for the `k`-th. -/
def scenarioGateWorlds : List GateWorld :=
  (List.range 11).map (fun k => { now := 5000000 + k, dbNow := 5000000 + k })

/-- A toy password scheme: the hash is the password reversed after a marker byte;
a stored hash without the marker cannot be parsed. -/
def toyCrypto : PasswordCrypto :=
  { GenerateRandomPassword := fun n rand =>
      if rand.length < n then .error () else .ok (rand.take n),
    HashPassword := fun password _ => .ok (36 :: password.reverse),
    VerifyPassword := fun password hash =>
      match hash with
      | 36 :: rest => .ok (decide (rest = password.reverse))
      | _ => .error () }

def toyAuth : AuthService :=
  { SessionTTL := 3600000000, crypto := toyCrypto, tokenSecret := utf8 "secret" }

/-- A user whose password is "pw". -/
def scenarioUser : User :=
  { ID := 1, UUID := List.replicate 16 17, Phone := utf8 "13800000000",
    PasswordHash := 36 :: (utf8 "pw").reverse, Name := utf8 "u", Role := utf8 "user" }

def scenarioLoginWorld : LoginWorld := { now := 1000, jti := List.replicate 16 34 }

/-- A database with two block rows for the address of `scenarioCtx`, expiring at
instants 40 and 100, and a login counter row. -/
def scenarioBlockDB : DB :=
  { ipBlocks := [{ IP := utf8 "10.0.0.7", ExpiresAt := 40 },
                 { IP := utf8 "10.0.0.7", ExpiresAt := 100 }],
    rateLimits := [{ Key := utf8 "login:ip:10.0.0.7", Count := 2, WindowStart := 0 }] }

/-! ### Scenario data for the alert flow -/

/-- The services of the scenarios. -/
def toyServices : Services :=
  { auth := toyAuth, lock := { hasPublisher := true }, admin := { crypto := toyCrypto },
    kms := toyKMS }

/-- A database with a quarantined lock "L1" and a disabled lock "L2": the open
`consecutive_fail` alert of "L1", and a fail count of 2 for "L1" from the reports
that came after the alert. -/
def scenarioAlertDB : DB :=
  { devices := [{ ID := 1, DeviceID := utf8 "L1", Status := 2 },
                { ID := 2, DeviceID := utf8 "L2", Status := 0 }],
    alerts := [{ ID := 1, AlertType := utf8 "consecutive_fail", DeviceType := DeviceTypeLock,
                 DeviceID := utf8 "L1", UserID := some 7, Severity := 3, FailCount := 3 }],
    failCounts := [{ DeviceType := DeviceTypeLock, DeviceID := utf8 "L1", Count := 2,
                     LastFailAt := 10 }] }

/-! ### Rows of the device table across a step -/

/-- The device table `ds2` holds the rows of `ds1` in their places, each with the
status, primary key and device id it had, followed by new rows of status 1. -/
def StatusFrame (ds1 ds2 : List Device) : Prop :=
  ∃ (f : Device → Device) (extra : List Device), ds2 = ds1.map f ++ extra
    ∧ (∀ d, (f d).Status = d.Status ∧ (f d).ID = d.ID ∧ (f d).DeviceID = d.DeviceID)
    ∧ ∀ e ∈ extra, e.Status = 1

/-! ### Scenario data for the auth gateway -/

/-- The user of the scenarios with the role admin. -/
def scenarioAdmin : User := { scenarioUser with Role := utf8 "admin" }

/-- The login of `scenarioAdmin` at instant 1000 with the right password. -/
def scenarioLogin : LoginResult :=
  toyAuth.Login { users := [scenarioAdmin] } scenarioLoginWorld
    { Phone := utf8 "13800000000", Password := utf8 "pw" } [] []

/-- The database after `scenarioLogin`: the user and the session of the login. -/
def scenarioSessionDB : DB := scenarioLogin.db

/-- The `Authorization` header that carries the token of `scenarioLogin`. -/
def scenarioHeader : Bytes :=
  utf8 "Bearer " ++
    match scenarioLogin.resp with
    | some resp => resp.Token
    | none => []

/-! ### Permissions -/

/-- Two permission rows are both active (status 1) for the same user, device type
and device id. -/
def Permission.ActiveTwin (p q : Permission) : Prop :=
  p.Status = 1 ∧ q.Status = 1 ∧ p.UserID = q.UserID ∧ p.DeviceType = q.DeviceType
    ∧ p.DeviceID = q.DeviceID

instance (p q : Permission) : Decidable (p.ActiveTwin q) := by
  unfold Permission.ActiveTwin; infer_instance

/-- The invariant of the specification on the permission table: at most one row
with status 1 for each user, device type and device id. -/
def ActiveUnique (ps : List Permission) : Prop :=
  ps.Pairwise (fun p q => ¬ p.ActiveTwin q)

instance (ps : List Permission) : Decidable (ActiveUnique ps) := by
  unfold ActiveUnique; infer_instance

/-- A permission table with the active permission of user 7 on the lock "L1",
granted by user 9 from instant 10 to instant 20. -/
def scenarioPermDB : DB :=
  { permissions := [{ ID := 1, UserID := 7, DeviceType := DeviceTypeLock, DeviceID := utf8 "L1",
                      GrantedBy := 9, ValidFrom := 10, ValidUntil := some 20, Status := 1 }] }

/-- The device type under which `GrantPermission` files a request: "lock" when the
request names none. -/
def GrantPermissionRequest.deviceType (req : GrantPermissionRequest) : Bytes :=
  if req.DeviceType = [] then DeviceTypeLock else req.DeviceType

/-! ### Sequences of reports -/

/-- One `Report` call: what the surroundings give to it, the request, the user id and
the client address. -/
abbrev ReportCall : Type := ReportWorld × ReportRequest × Int × Bytes

/-- The database after a sequence of `Report` calls, one after the other. -/
def runReports (s : LockService) : DB → List ReportCall → DB
  | db, [] => db
  | db, c :: rest => runReports s (s.Report db c.1 c.2.1 c.2.2.1 c.2.2.2).db rest

end Arus

/-! # Theorems -/

namespace Arus

/-! ## Lemmas on the encodings -/

theorem b64Char_decode : ∀ v, v < 64 → decodeMap (b64Char v) = some v := by decide

theorem b64Char_ne_sep : ∀ v, v < 64 → b64Char v ≠ 46 := by decide

theorem b64Values_map_char (vs : List Nat) (h : ∀ v ∈ vs, v < 64) :
    b64Values (vs.map b64Char) = some vs := by
  induction vs with
  | nil => rfl
  | cons v t ih =>
    have hv : v < 64 := h v (List.mem_cons_self _ _)
    have ht : ∀ w ∈ t, w < 64 := fun w hw => h w (List.mem_cons_of_mem _ hw)
    simp [b64Values, b64Char_decode v hv, ih ht]

theorem b64Groups_lt (bs : Bytes) : ∀ v ∈ b64Groups bs, v < 64 := by
  induction bs using b64Groups.induct with
  | case1 x y z rest ih =>
    intro v hv
    simp only [b64Groups, List.mem_cons] at hv
    rcases hv with h | h | h | h | h
    · omega
    · omega
    · omega
    · omega
    · exact ih v h
  | case2 x y =>
    intro v hv
    simp only [b64Groups, List.mem_cons, List.mem_singleton] at hv
    rcases hv with h | h | h | h <;> first | omega | simp at h
  | case3 x =>
    intro v hv
    simp only [b64Groups, List.mem_cons, List.mem_singleton] at hv
    rcases hv with h | h | h <;> first | omega | simp at h
  | case4 => intro v hv; simp [b64Groups] at hv

theorem b64Quanta_groups (bs : Bytes) (h : IsBytes bs) : b64Quanta (b64Groups bs) = some bs := by
  induction bs using b64Groups.induct with
  | case1 x y z rest ih =>
    have hx : x < 256 := h x (by simp)
    have hy : y < 256 := h y (by simp)
    have hz : z < 256 := h z (by simp)
    have hr : IsBytes rest := fun b hb => h b (by simp [hb])
    simp only [b64Groups, b64Quanta, ih hr, Option.map_some', Option.some.injEq, List.cons.injEq, and_true]
    refine ⟨?_, ?_, ?_⟩ <;> omega
  | case2 x y =>
    have hx : x < 256 := h x (by simp)
    have hy : y < 256 := h y (by simp)
    simp only [b64Groups, b64Quanta, Option.some.injEq, List.cons.injEq, and_true]
    refine ⟨?_, ?_⟩ <;> omega
  | case3 x =>
    have hx : x < 256 := h x (by simp)
    simp only [b64Groups, b64Quanta, Option.some.injEq, List.cons.injEq, and_true]
    omega
  | case4 => rfl

theorem b64_roundtrip (bs : Bytes) (h : IsBytes bs) :
    b64DecodeString (b64EncodeToString bs) = some bs := by
  simp [b64DecodeString, b64EncodeToString, b64Values_map_char _ (b64Groups_lt bs), b64Quanta_groups bs h]

theorem b64Encode_no_sep (bs : Bytes) : 46 ∉ b64EncodeToString bs := by
  intro hmem
  simp only [b64EncodeToString, List.mem_map] at hmem
  obtain ⟨v, hv, hc⟩ := hmem
  exact b64Char_ne_sep v (b64Groups_lt bs v hv) hc

theorem splitN2_append (a b : Bytes) (sep : Nat) (h : sep ∉ a) :
    splitN2 (a ++ sep :: b) sep = [a, b] := by
  have hall : ∀ x ∈ a, (fun c => c != sep) x = true := by
    intro x hx
    have : x ≠ sep := fun e => h (e ▸ hx)
    simpa using this
  have hd : (a ++ sep :: b).dropWhile (fun c => c != sep) = sep :: b := by
    rw [List.dropWhile_append_of_pos hall]; simp [List.dropWhile]
  have ht : (a ++ sep :: b).takeWhile (fun c => c != sep) = a := by
    rw [List.takeWhile_append_of_pos hall]; simp [List.takeWhile]
  simp [splitN2, hd, ht]


set_option maxRecDepth 100000 in
theorem xtob_hextable : ∀ b, b < 256 →
    xtob (hextable.getD (b / 16) 0) (hextable.getD (b % 16) 0) = some b := by decide

theorem hextable_getD_small : ∀ n, n < 16 → hextable.getD n 0 < 128 ∧ hextable.getD n 0 ≠ 58 := by
  decide

theorem hextable_getD (n : Nat) : hextable.getD n 0 < 128 ∧ hextable.getD n 0 ≠ 58 := by
  by_cases h : n < 16
  · exact hextable_getD_small n h
  · have hl : hextable.length ≤ n := by
      have : hextable.length = 16 := by decide
      omega
    rw [List.getD_eq_default _ _ hl]; decide

theorem hexEncode_chars (bs : Bytes) : ∀ c ∈ hexEncodeToString bs, c < 128 ∧ c ≠ 58 := by
  induction bs with
  | nil => intro c hc; simp [hexEncodeToString] at hc
  | cons b t ih =>
    intro c hc
    simp only [hexEncodeToString, List.mem_cons] at hc
    rcases hc with h | h | h
    · rw [h]; exact hextable_getD _
    · rw [h]; exact hextable_getD _
    · exact ih c h

theorem uuidString_chars (u : Bytes) : ∀ c ∈ uuidString u, c < 128 ∧ c ≠ 58 := by
  intro c hc
  simp only [uuidString, List.mem_append, List.mem_singleton] at hc
  rcases hc with (((((((h | h) | h) | h) | h) | h) | h) | h) | h
  all_goals first
    | exact hexEncode_chars _ c h
    | (rw [h]; decide)

theorem uuidParse_canonical_form (c0 c1 c2 c3 c4 c5 c6 c7 c8 c9 c10 c11 c12 c13 c14 c15 c16 c17 c18 c19 c20 c21 c22 c23 c24 c25 c26 c27 c28 c29 c30 c31 b0 b1 b2 b3 b4 b5 b6 b7 b8 b9 b10 b11 b12 b13 b14 b15 : Nat)
    (h0 : xtob c0 c1 = some b0) (h1 : xtob c2 c3 = some b1) (h2 : xtob c4 c5 = some b2) (h3 : xtob c6 c7 = some b3) (h4 : xtob c8 c9 = some b4) (h5 : xtob c10 c11 = some b5) (h6 : xtob c12 c13 = some b6) (h7 : xtob c14 c15 = some b7) (h8 : xtob c16 c17 = some b8) (h9 : xtob c18 c19 = some b9) (h10 : xtob c20 c21 = some b10) (h11 : xtob c22 c23 = some b11) (h12 : xtob c24 c25 = some b12) (h13 : xtob c26 c27 = some b13) (h14 : xtob c28 c29 = some b14) (h15 : xtob c30 c31 = some b15) :
    uuidParse [c0, c1, c2, c3, c4, c5, c6, c7, 45, c8, c9, c10, c11, 45, c12, c13, c14, c15, 45, c16, c17, c18, c19, 45, c20, c21, c22, c23, c24, c25, c26, c27, c28, c29, c30, c31] = some [b0, b1, b2, b3, b4, b5, b6, b7, b8, b9, b10, b11, b12, b13, b14, b15] := by
  simp [uuidParse, uuidParseCanonical, uuidBytesAt, h0, h1, h2, h3, h4, h5, h6, h7, h8, h9, h10, h11, h12, h13, h14, h15]

theorem uuidParse_string (u : Bytes) (hu : IsUUID u) : uuidParse (uuidString u) = some u := by
  obtain ⟨hlen, hb⟩ := hu
  match u, hlen, hb with
  | [b0, b1, b2, b3, b4, b5, b6, b7, b8, b9, b10, b11, b12, b13, b14, b15], _, hb =>
    exact uuidParse_canonical_form _ _ _ _ _ _ _ _ _ _ _ _ _ _ _ _ _ _ _ _ _ _ _ _ _ _ _ _ _ _ _ _
      _ _ _ _ _ _ _ _ _ _ _ _ _ _ _ _
      (xtob_hextable b0 (hb b0 (by simp)))
      (xtob_hextable b1 (hb b1 (by simp)))
      (xtob_hextable b2 (hb b2 (by simp)))
      (xtob_hextable b3 (hb b3 (by simp)))
      (xtob_hextable b4 (hb b4 (by simp)))
      (xtob_hextable b5 (hb b5 (by simp)))
      (xtob_hextable b6 (hb b6 (by simp)))
      (xtob_hextable b7 (hb b7 (by simp)))
      (xtob_hextable b8 (hb b8 (by simp)))
      (xtob_hextable b9 (hb b9 (by simp)))
      (xtob_hextable b10 (hb b10 (by simp)))
      (xtob_hextable b11 (hb b11 (by simp)))
      (xtob_hextable b12 (hb b12 (by simp)))
      (xtob_hextable b13 (hb b13 (by simp)))
      (xtob_hextable b14 (hb b14 (by simp)))
      (xtob_hextable b15 (hb b15 (by simp)))


theorem isBytes_append (a b : Bytes) (ha : IsBytes a) (hb : IsBytes b) : IsBytes (a ++ b) := by
  intro x hx
  rcases List.mem_append.mp hx with h | h
  · exact ha x h
  · exact hb x h

theorem be32Bytes_isBytes (w : Nat) : IsBytes (be32Bytes w) := by
  intro x hx
  simp only [be32Bytes, List.mem_cons, List.mem_singleton] at hx
  rcases hx with h | h | h | h | h
  · omega
  · omega
  · omega
  · omega
  · simp at h

theorem sha256_isBytes (msg : Bytes) : IsBytes (sha256 msg) := by
  unfold sha256
  repeat first
    | apply be32Bytes_isBytes
    | apply isBytes_append

theorem sha256_length (msg : Bytes) : (sha256 msg).length = 32 := by
  simp [sha256, be32Bytes]

theorem hmacSHA256_isBytes (key data : Bytes) : IsBytes (hmacSHA256 key data) :=
  sha256_isBytes _

theorem hmacSHA256_length (key data : Bytes) : (hmacSHA256 key data).length = 32 :=
  sha256_length _

theorem token_payload_isBytes (u s : Bytes) : IsBytes (uuidString u ++ [58] ++ uuidString s) := by
  intro c hc
  simp only [List.mem_append, List.mem_singleton] at hc
  rcases hc with (h | h) | h
  · have := (uuidString_chars u c h).1; omega
  · omega
  · have := (uuidString_chars s c h).1; omega

/-! ## C1 -/

/-- C1. For all UUIDs `u` and `s` (arrays of sixteen bytes) and every token secret,
`GenerateToken` returns a token and `ParseToken` of that token succeeds with claims
`UserUUID = u` and `JTI = s`. -/
theorem token_roundtrip (tokenSecret u s : Bytes) (hu : IsUUID u) (hs : IsUUID s) :
    ∃ t, GenerateToken tokenSecret u s = .ok t ∧
      ParseToken tokenSecret t = .ok { UserUUID := u, JTI := s } := by
  refine ⟨_, rfl, ?_⟩
  have hsplit := splitN2_append (b64EncodeToString (uuidString u ++ [58] ++ uuidString s))
    (b64EncodeToString (hmacSHA256 tokenSecret (uuidString u ++ [58] ++ uuidString s))) 46
    (b64Encode_no_sep _)
  have hp := b64_roundtrip _ (token_payload_isBytes u s)
  have hg := b64_roundtrip _ (hmacSHA256_isBytes tokenSecret (uuidString u ++ [58] ++ uuidString s))
  have hcolon : splitN2 (uuidString u ++ [58] ++ uuidString s) 58 = [uuidString u, uuidString s] := by
    have := splitN2_append (uuidString u) (uuidString s) 58
      (fun hm => (uuidString_chars u 58 hm).2 rfl)
    simpa using this
  simp only [List.append_assoc, List.singleton_append] at hsplit hp hg hcolon ⊢
  simp [ParseToken, verifyHMAC, hsplit, hp, hg, hmacEqual, hcolon,
    uuidParse_string u hu, uuidParse_string s hs]

/-- Witness of `token_roundtrip`: the nil user UUID and a session UUID of sixteen distinct bytes,
under the secret "secret". -/
theorem token_roundtrip_witness :
    ∃ t, GenerateToken (utf8 "secret") (List.replicate 16 0) (List.range 16) = .ok t ∧
      ParseToken (utf8 "secret") t
        = .ok { UserUUID := List.replicate 16 0, JTI := List.range 16 } :=
  token_roundtrip (utf8 "secret") (List.replicate 16 0) (List.range 16) (by decide) (by decide)

/-! ## Lemmas on malleability of the base64url halves -/

theorem encodeURL_length : encodeURL.length = 64 := by decide

theorem decodeMap_some (c v : Nat) (h : decodeMap c = some v) : v < 64 ∧ b64Char v = c := by
  unfold decodeMap at h
  split at h
  · rename_i hlt
    have hv : encodeURL.indexOf c = v := by simpa using h
    subst hv
    refine ⟨hlt, ?_⟩
    have hl : encodeURL.indexOf c < encodeURL.length := by rw [encodeURL_length]; exact hlt
    have := List.indexOf_get hl
    simp only [b64Char]
    rw [List.getD_eq_getElem _ _ hl]
    simp
  · simp at h

theorem decodeMap_sep : decodeMap 46 = none := by decide

theorem b64Values_append (a b : Bytes) :
    b64Values (a ++ b) = (b64Values a).bind (fun x => (b64Values b).map (fun y => x ++ y)) := by
  induction a with
  | nil => simp [b64Values]
  | cons c t ih =>
    cases hd : decodeMap c with
    | some v =>
      simp only [List.cons_append, b64Values, hd, List.append_eq]
      rw [ih]
      cases b64Values t <;> cases b64Values b <;> simp
    | none =>
      simp only [List.cons_append, b64Values, hd, List.append_eq]
      split
      · exact ih
      · rfl

theorem b64Values_sep (a b : Bytes) : b64Values (a ++ 46 :: b) = none := by
  rw [b64Values_append]
  cases b64Values a with
  | none => rfl
  | some x => simp [b64Values, decodeMap_sep]

theorem b64Values_lt (s : Bytes) (vs : List Nat) (h : b64Values s = some vs) : ∀ v ∈ vs, v < 64 := by
  induction s generalizing vs with
  | nil => simp [b64Values] at h; subst h; simp
  | cons c t ih =>
    simp only [b64Values] at h
    cases hd : decodeMap c with
    | some v =>
      rw [hd] at h
      cases ht : b64Values t with
      | none => rw [ht] at h; simp at h
      | some ws =>
        rw [ht] at h
        simp at h
        subst h
        intro x hx
        rcases List.mem_cons.mp hx with hx | hx
        · rw [hx]; exact (decodeMap_some c v hd).1
        · exact ih ws ht x hx
    | none =>
      rw [hd] at h
      simp only at h
      split at h
      · exact ih vs h
      · simp at h

theorem b64Quanta_length (vs : List Nat) (x : Bytes) (h : b64Quanta vs = some x) :
    vs.length % 4 ≠ 1 ∧ x.length = vs.length * 3 / 4 := by
  induction vs using b64Quanta.induct generalizing x with
  | case1 a b c d rest ih =>
    simp only [b64Quanta] at h
    cases hr : b64Quanta rest with
    | none => rw [hr] at h; simp at h
    | some y =>
      rw [hr] at h
      simp at h
      subst h
      have := ih y hr
      simp only [List.length_cons]
      omega
  | case2 a b c => simp [b64Quanta] at h; subst h; simp
  | case3 a b => simp [b64Quanta] at h; subst h; simp
  | case4 a => simp [b64Quanta] at h
  | case5 => simp [b64Quanta] at h; subst h; simp

theorem b64Quanta_inj (vs : List Nat) : ∀ (ws : List Nat) (x : Bytes),
    (∀ v ∈ vs, v < 64) → (∀ w ∈ ws, w < 64) → vs.length = ws.length →
    b64Quanta vs = some x → b64Quanta ws = some x →
    ∀ j, j + 1 < vs.length → vs[j]? = ws[j]? := by
  induction vs using b64Quanta.induct with
  | case1 a b c d rest ih =>
    intro ws x hv hw hlen h1 h2 j hj
    match ws, hlen with
    | a1 :: b1 :: c1 :: d1 :: rest1, hlen =>
      simp only [b64Quanta] at h1 h2
      cases hr : b64Quanta rest with
      | none => rw [hr] at h1; simp at h1
      | some y =>
        cases hr1 : b64Quanta rest1 with
        | none => rw [hr1] at h2; simp at h2
        | some y1 =>
          rw [hr] at h1; rw [hr1] at h2
          simp only [Option.map_some', Option.some.injEq] at h1 h2
          rw [← h1] at h2
          simp only [List.cons.injEq] at h2
          obtain ⟨e0, e1, e2, e3⟩ := h2
          have ha := hv a (by simp)
          have hb := hv b (by simp)
          have hc := hv c (by simp)
          have hd := hv d (by simp)
          have ha1 := hw a1 (by simp)
          have hb1 := hw b1 (by simp)
          have hc1 := hw c1 (by simp)
          have hd1 := hw d1 (by simp)
          have ea : a = a1 := by omega
          have eb : b = b1 := by omega
          have ec : c = c1 := by omega
          have ed : d = d1 := by omega
          subst ea eb ec ed e3
          match j with
          | 0 => simp
          | 1 => simp
          | 2 => simp
          | 3 => simp
          | j + 4 =>
            simp only [List.getElem?_cons_succ]
            apply ih rest1 y1 (fun v h => hv v (by simp [h])) (fun w h => hw w (by simp [h]))
              (by simpa using hlen) hr hr1
            simp only [List.length_cons] at hj
            omega
  | case2 a b c =>
    intro ws x hv hw hlen h1 h2 j hj
    match ws, hlen with
    | [a1, b1, c1], _ =>
      simp only [b64Quanta, Option.some.injEq] at h1 h2
      rw [← h1] at h2
      simp only [List.cons.injEq, and_true] at h2
      obtain ⟨e0, e1⟩ := h2
      have ha := hv a (by simp)
      have hb := hv b (by simp)
      have hc := hv c (by simp)
      have ha1 := hw a1 (by simp)
      have hb1 := hw b1 (by simp)
      have hc1 := hw c1 (by simp)
      have ea : a = a1 := by omega
      have eb : b = b1 := by omega
      subst ea eb
      match j with
      | 0 => simp
      | 1 => simp
      | j + 2 => simp only [List.length_cons, List.length_nil] at hj; omega
  | case3 a b =>
    intro ws x hv hw hlen h1 h2 j hj
    match ws, hlen with
    | [a1, b1], _ =>
      simp only [b64Quanta, Option.some.injEq] at h1 h2
      rw [← h1] at h2
      simp only [List.cons.injEq, and_true] at h2
      have ha := hv a (by simp)
      have hb := hv b (by simp)
      have ha1 := hw a1 (by simp)
      have hb1 := hw b1 (by simp)
      have ea : a = a1 := by omega
      subst ea
      match j with
      | 0 => simp
      | j + 1 => simp only [List.length_cons, List.length_nil] at hj; omega
  | case4 a => intro ws x _ _ _ h1; simp [b64Quanta] at h1
  | case5 => intro ws x _ _ _ _ _ j hj; simp at hj

theorem b64Decode_set_ne (vs : List Nat) (hvs : ∀ v ∈ vs, v < 64) (j : Nat)
    (hj : j + 1 < vs.length) (c1 : Nat) (hc : c1 ≠ b64Char (vs.getD j 0)) (x : Bytes)
    (hx : b64Quanta vs = some x) :
    b64DecodeString ((vs.map b64Char).set j c1) ≠ some x := by
  intro hdec
  have hjl : j < vs.length := by omega
  have hset : (vs.map b64Char).set j c1
      = (vs.take j).map b64Char ++ c1 :: (vs.drop (j + 1)).map b64Char := by
    rw [List.set_eq_take_append_cons_drop, if_pos (by simpa using hjl), List.map_take,
      List.map_drop]
  have htake : ∀ v ∈ vs.take j, v < 64 := fun v h => hvs v (List.mem_of_mem_take h)
  have hdrop : ∀ v ∈ vs.drop (j + 1), v < 64 := fun v h => hvs v (List.mem_of_mem_drop h)
  rw [hset] at hdec
  unfold b64DecodeString at hdec
  rw [b64Values_append, b64Values_map_char _ htake] at hdec
  simp only [Option.some_bind, b64Values, b64Values_map_char _ hdrop] at hdec
  have hlt : (vs.take j).length = j := by simp; omega
  have hld : (vs.drop (j + 1)).length = vs.length - (j + 1) := by simp
  cases hd : decodeMap c1 with
  | some v1 =>
    rw [hd] at hdec
    simp only [Option.map_some', Option.some_bind] at hdec
    obtain ⟨hv1, hchar⟩ := decodeMap_some c1 v1 hd
    have hws : ∀ w ∈ vs.take j ++ v1 :: vs.drop (j + 1), w < 64 := by
      intro w hw
      rcases List.mem_append.mp hw with h | h
      · exact htake w h
      · rcases List.mem_cons.mp h with h | h
        · rw [h]; exact hv1
        · exact hdrop w h
    have hlen : vs.length = (vs.take j ++ v1 :: vs.drop (j + 1)).length := by
      simp only [List.length_append, List.length_cons, hlt, hld]; omega
    have hget := b64Quanta_inj vs _ x hvs hws hlen hx hdec j hj
    rw [List.getElem?_append_right (by omega), hlt] at hget
    simp only [Nat.sub_self, List.getElem?_cons_zero] at hget
    apply hc
    rw [← hchar]
    congr 1
    rw [List.getD_eq_getElem?_getD, hget]
    rfl
  | none =>
    rw [hd] at hdec
    simp only at hdec
    split at hdec
    · simp only [Option.map_some', Option.some_bind] at hdec
      have h1 := b64Quanta_length _ _ hx
      have h2 := b64Quanta_length _ _ hdec
      simp only [List.length_append, hlt, hld] at h2
      omega
    · simp at hdec

theorem splitN2_absent (s : Bytes) (sep : Nat) (h : sep ∉ s) : splitN2 s sep = [s] := by
  have hall : ∀ x ∈ s, (fun c => c != sep) x = true := by
    intro x hx
    have : x ≠ sep := fun e => h (e ▸ hx)
    simpa using this
  simp [splitN2, List.dropWhile_eq_nil_iff.mpr hall]

theorem verifyHMAC_halves (A B secret : Bytes) (hA : 46 ∉ A) :
    verifyHMAC (A ++ 46 :: B) secret =
      match b64DecodeString A with
      | none => .error .ErrInvalidToken
      | some payloadBytes =>
        match b64DecodeString B with
        | none => .error .ErrInvalidToken
        | some sigBytes =>
          if sigBytes = hmacSHA256 secret payloadBytes then .ok payloadBytes
          else .error .ErrInvalidToken := by
  simp only [verifyHMAC, splitN2_append A B 46 hA, hmacEqual]
  cases b64DecodeString A with
  | none => rfl
  | some p =>
    cases b64DecodeString B with
    | none => rfl
    | some g => by_cases h : g = hmacSHA256 secret p <;> simp [h]

theorem parseToken_of_verify_error (secret t : Bytes) (e : TokenError)
    (h : verifyHMAC t secret = .error e) : ParseToken secret t = .error .ErrInvalidToken := by
  cases e
  simp [ParseToken, h]

theorem parseToken_of_verify_ok (secret t u s : Bytes) (hu : IsUUID u) (hs : IsUUID s)
    (h : verifyHMAC t secret = .ok (uuidString u ++ [58] ++ uuidString s)) :
    ParseToken secret t = .ok { UserUUID := u, JTI := s } := by
  have hcolon : splitN2 (uuidString u ++ [58] ++ uuidString s) 58
      = [uuidString u, uuidString s] := by
    have := splitN2_append (uuidString u) (uuidString s) 58
      (fun hm => (uuidString_chars u 58 hm).2 rfl)
    simpa using this
  simp only [List.append_assoc, List.singleton_append] at hcolon h
  simp [ParseToken, h, hcolon, uuidParse_string u hu, uuidParse_string s hs]

theorem xor_pow_ne (x k : Nat) : x ^^^ 2 ^ k ≠ x := by
  intro h
  have h0 : x ^^^ 2 ^ k = x ^^^ 0 := by simpa using h
  have := Nat.xor_right_inj.mp h0
  have hp : 0 < 2 ^ k := Nat.two_pow_pos k
  omega

theorem hexEncode_length (bs : Bytes) : (hexEncodeToString bs).length = 2 * bs.length := by
  induction bs with
  | nil => rfl
  | cons b t ih => simp only [hexEncodeToString, List.length_cons, ih]; omega

theorem uuidString_length (u : Bytes) (h : u.length = 16) : (uuidString u).length = 36 := by
  simp [uuidString, hexEncode_length, h]

theorem b64Groups_length (bs : Bytes) : (b64Groups bs).length = (bs.length * 4 + 2) / 3 := by
  induction bs using b64Groups.induct with
  | case1 x y z rest ih => simp only [b64Groups, List.length_cons, ih]; omega
  | case2 x y => simp [b64Groups]
  | case3 x => simp [b64Groups]
  | case4 => simp [b64Groups]

theorem b64Encode_length (bs : Bytes) :
    (b64EncodeToString bs).length = (bs.length * 4 + 2) / 3 := by
  simp [b64EncodeToString, b64Groups_length]

theorem flipBit_append_left (a b : Bytes) (i k : Nat) (h : i < a.length) :
    flipBit (a ++ b) i k = flipBit a i k ++ b := by
  unfold flipBit
  rw [List.set_append_left _ _ h, List.getD_append _ _ _ _ h]

theorem flipBit_append_right (a b : Bytes) (i k : Nat) (h : a.length ≤ i) :
    flipBit (a ++ b) i k = a ++ flipBit b (i - a.length) k := by
  unfold flipBit
  rw [List.set_append_right _ _ h, List.getD_append_right _ _ _ _ h]

theorem b64Encode_getD (bs : Bytes) (j : Nat) (h : j < (b64Groups bs).length) :
    (b64EncodeToString bs).getD j 0 = b64Char ((b64Groups bs).getD j 0) := by
  unfold b64EncodeToString
  rw [List.getD_eq_getElem _ _ (by simpa using h), List.getD_eq_getElem _ _ h]
  simp

/-- A flipped byte of one half of a token, when it is not the last byte of the
half, changes what the half decodes to or makes it undecodable. -/
theorem b64Decode_flip_ne (bs : Bytes) (hbs : IsBytes bs) (j k : Nat)
    (hj : j + 1 < (b64EncodeToString bs).length) :
    b64DecodeString (flipBit (b64EncodeToString bs) j k) ≠ some bs := by
  have hl : (b64EncodeToString bs).length = (b64Groups bs).length := by
    simp [b64EncodeToString]
  have hj2 : j + 1 < (b64Groups bs).length := by omega
  unfold flipBit
  rw [b64Encode_getD bs j (by omega)]
  exact b64Decode_set_ne (b64Groups bs) (b64Groups_lt bs) j hj2 _ (xor_pow_ne _ _) bs
    (b64Quanta_groups bs hbs)

/-! ## C2 -/

/-- C2, as amended. For every token `t` produced by `GenerateToken` (142 bytes: a
98-byte payload half, the separator, a 43-byte signature half) and every string that
differs from `t` in one bit (bit `k` of byte `i`), `ParseToken` fails with
`ErrInvalidToken`, except that (a) a flip in the last character of a half (byte 97 or
byte 141) may be accepted, then with the claims of `t`, and (b) a flip in the payload
half is accepted if that half decodes to another payload with the same HMAC-SHA-256
under the secret. -/
theorem token_bit_flip (tokenSecret u s : Bytes) (hu : IsUUID u) (hs : IsUUID s) (t : Bytes)
    (ht : GenerateToken tokenSecret u s = .ok t) (i k : Nat) (hi : i < t.length) :
    t.length = 142 ∧
    (ParseToken tokenSecret (flipBit t i k) = .error .ErrInvalidToken
      ∨ ((i = 97 ∨ i = 141)
          ∧ ParseToken tokenSecret (flipBit t i k) = .ok { UserUUID := u, JTI := s })
      ∨ (i < 98 ∧ ∃ p, b64DecodeString ((flipBit t i k).take 98) = some p
          ∧ p ≠ uuidString u ++ [58] ++ uuidString s
          ∧ hmacSHA256 tokenSecret p
              = hmacSHA256 tokenSecret (uuidString u ++ [58] ++ uuidString s))) := by
  have hpl : (uuidString u ++ [58] ++ uuidString s).length = 73 := by
    simp [uuidString_length u hu.1, uuidString_length s hs.1]
  have hpb := token_payload_isBytes u s
  generalize hpay : uuidString u ++ [58] ++ uuidString s = payload at hpl hpb ⊢
  have hmb := hmacSHA256_isBytes tokenSecret payload
  have hml := hmacSHA256_length tokenSecret payload
  have hPl : (b64EncodeToString payload).length = 98 := by rw [b64Encode_length, hpl]
  have hGl : (b64EncodeToString (hmacSHA256 tokenSecret payload)).length = 43 := by
    rw [b64Encode_length, hml]
  have hPdec := b64_roundtrip payload hpb
  have hGdec := b64_roundtrip _ hmb
  have hPsep := b64Encode_no_sep payload
  have hGsep := b64Encode_no_sep (hmacSHA256 tokenSecret payload)
  have htok : t = b64EncodeToString payload ++ 46 :: b64EncodeToString (hmacSHA256 tokenSecret payload) := by
    simp only [GenerateToken, signHMAC, hpay, Result.ok.injEq] at ht
    rw [← ht]; simp
  have hok : ∀ t1, verifyHMAC t1 tokenSecret = .ok payload →
      ParseToken tokenSecret t1 = .ok { UserUUID := u, JTI := s } := by
    intro t1 h1
    rw [← hpay] at h1
    exact parseToken_of_verify_ok tokenSecret t1 u s hu hs h1
  generalize hP : b64EncodeToString payload = P at *
  generalize hG : b64EncodeToString (hmacSHA256 tokenSecret payload) = G at *
  subst htok
  have htl : (P ++ 46 :: G).length = 142 := by simp [hPl, hGl]
  refine ⟨htl, ?_⟩
  rw [htl] at hi
  by_cases h1 : i < 98
  · -- the payload half
    rw [flipBit_append_left P _ i k (by omega)]
    by_cases h46 : 46 ∈ flipBit P i k
    · left
      have hc : P.getD i 0 ^^^ 2 ^ k = 46 := by
        rcases List.mem_or_eq_of_mem_set h46 with h | h
        · exact absurd h hPsep
        · exact h.symm
      have hset : flipBit P i k = P.take i ++ 46 :: P.drop (i + 1) := by
        unfold flipBit
        rw [List.set_eq_take_append_cons_drop, if_pos (by omega), hc]
      rw [hset, List.append_assoc, List.cons_append]
      apply parseToken_of_verify_error _ _ .ErrInvalidToken
      rw [verifyHMAC_halves _ _ _ (fun h => hPsep (List.mem_of_mem_take h))]
      have hnone : b64DecodeString (P.drop (i + 1) ++ 46 :: G) = none := by
        simp [b64DecodeString, b64Values_sep]
      rw [hnone]
      cases b64DecodeString (P.take i) <;> rfl
    · have hv := verifyHMAC_halves (flipBit P i k) G tokenSecret h46
      rw [hGdec] at hv
      cases hdec : b64DecodeString (flipBit P i k) with
      | none =>
        left
        rw [hdec] at hv
        exact parseToken_of_verify_error _ _ _ hv
      | some p =>
        rw [hdec] at hv
        simp only at hv
        by_cases hmac : hmacSHA256 tokenSecret payload = hmacSHA256 tokenSecret p
        · rw [if_pos hmac] at hv
          by_cases hp : p = payload
          · right; left
            subst hp
            refine ⟨Or.inl ?_, hok _ hv⟩
            by_contra hne
            have := b64Decode_flip_ne p hpb i k (by rw [hP, hPl]; omega)
            rw [hP] at this
            exact this hdec
          · right; right
            refine ⟨h1, p, ?_, hp, hmac.symm⟩
            have hfl : (flipBit P i k).length = 98 := by simp [flipBit, hPl]
            rw [List.take_append_of_le_length (by omega), List.take_of_length_le (by omega)]
            exact hdec
        · left
          rw [if_neg hmac] at hv
          exact parseToken_of_verify_error _ _ _ hv
  · by_cases h2 : i = 98
    · -- the separator
      left
      subst h2
      rw [flipBit_append_right P _ 98 k (by omega), hPl]
      have hne := xor_pow_ne 46 k
      rw [Nat.sub_self]
      have habs : 46 ∉ P ++ flipBit (46 :: G) 0 k := by
        simp only [flipBit, List.set_cons_zero, List.getD_cons_zero,
          List.mem_append, List.mem_cons]
        rintro (h | h | h)
        · exact hPsep h
        · exact hne h.symm
        · exact hGsep h
      apply parseToken_of_verify_error _ _ .ErrInvalidToken
      simp only [verifyHMAC, splitN2_absent _ 46 habs]
    · -- the signature half
      have h3 : 99 ≤ i := by omega
      rw [flipBit_append_right P _ i k (by omega), hPl]
      have hcons : flipBit (46 :: G) (i - 98) k = 46 :: flipBit G (i - 99) k := by
        have : i - 98 = (i - 99) + 1 := by omega
        rw [this]
        simp [flipBit]
      rw [hcons]
      have hv := verifyHMAC_halves P (flipBit G (i - 99) k) tokenSecret hPsep
      rw [hPdec] at hv
      simp only at hv
      cases hdec : b64DecodeString (flipBit G (i - 99) k) with
      | none =>
        left
        rw [hdec] at hv
        exact parseToken_of_verify_error _ _ _ hv
      | some g =>
        rw [hdec] at hv
        simp only at hv
        by_cases hg : g = hmacSHA256 tokenSecret payload
        · right; left
          rw [if_pos hg] at hv
          refine ⟨Or.inr ?_, hok _ hv⟩
          by_contra hne
          have := b64Decode_flip_ne _ hmb (i - 99) k (by rw [hG, hGl]; omega)
          rw [hG, ← hg] at this
          exact this hdec
        · left
          rw [if_neg hg] at hv
          exact parseToken_of_verify_error _ _ _ hv

/-- C2, counterexample. Under the secret "secret", the token of the nil user UUID and the nil
session UUID ends its payload half in the character A (byte 97), which carries two
payload bits and four unused bits; flipping bit 1 of that byte gives the character
C, and `ParseToken` accepts the mutated token with the same claims. -/
theorem token_bit_flip_accepted :
    GenerateToken (utf8 "secret") (List.replicate 16 0) (List.replicate 16 0)
        = .ok (utf8 "MDAwMDAwMDAtMDAwMC0wMDAwLTAwMDAtMDAwMDAwMDAwMDAwOjAwMDAwMDAwLTAwMDAtMDAwMC0wMDAwLTAwMDAwMDAwMDAwMA.wFz_NGynF0CYLIS6jzMR_6Tt8ET0aH9UDSTPE9RjEog")
      ∧ flipBit (utf8 "MDAwMDAwMDAtMDAwMC0wMDAwLTAwMDAtMDAwMDAwMDAwMDAwOjAwMDAwMDAwLTAwMDAtMDAwMC0wMDAwLTAwMDAwMDAwMDAwMA.wFz_NGynF0CYLIS6jzMR_6Tt8ET0aH9UDSTPE9RjEog") 97 1
        = utf8 "MDAwMDAwMDAtMDAwMC0wMDAwLTAwMDAtMDAwMDAwMDAwMDAwOjAwMDAwMDAwLTAwMDAtMDAwMC0wMDAwLTAwMDAwMDAwMDAwMC.wFz_NGynF0CYLIS6jzMR_6Tt8ET0aH9UDSTPE9RjEog"
      ∧ ParseToken (utf8 "secret") (utf8 "MDAwMDAwMDAtMDAwMC0wMDAwLTAwMDAtMDAwMDAwMDAwMDAwOjAwMDAwMDAwLTAwMDAtMDAwMC0wMDAwLTAwMDAwMDAwMDAwMC.wFz_NGynF0CYLIS6jzMR_6Tt8ET0aH9UDSTPE9RjEog")
        = .ok { UserUUID := List.replicate 16 0, JTI := List.replicate 16 0 } := by
  have hpay : uuidString (List.replicate 16 0) ++ [58] ++ uuidString (List.replicate 16 0)
      = utf8 "00000000-0000-0000-0000-000000000000:00000000-0000-0000-0000-000000000000" := by decide
  have hmac : hmacSHA256 (utf8 "secret") (utf8 "00000000-0000-0000-0000-000000000000:00000000-0000-0000-0000-000000000000")
      = [192, 92, 255, 52, 108, 167, 23, 64, 152, 44, 132, 186, 143, 51, 17, 255, 164, 237, 240, 68, 244, 104, 127, 84, 13, 36, 207, 19, 212, 99, 18, 136] := by
    decide!
  refine ⟨?_, by decide, ?_⟩
  · simp only [GenerateToken, signHMAC, hpay, hmac]
    decide
  · have hsplit : utf8 "MDAwMDAwMDAtMDAwMC0wMDAwLTAwMDAtMDAwMDAwMDAwMDAwOjAwMDAwMDAwLTAwMDAtMDAwMC0wMDAwLTAwMDAwMDAwMDAwMC.wFz_NGynF0CYLIS6jzMR_6Tt8ET0aH9UDSTPE9RjEog"
        = utf8 "MDAwMDAwMDAtMDAwMC0wMDAwLTAwMDAtMDAwMDAwMDAwMDAwOjAwMDAwMDAwLTAwMDAtMDAwMC0wMDAwLTAwMDAwMDAwMDAwMC" ++ 46 :: utf8 "wFz_NGynF0CYLIS6jzMR_6Tt8ET0aH9UDSTPE9RjEog" := by decide
    rw [hsplit]
    apply parseToken_of_verify_ok _ _ _ _ (by decide) (by decide)
    rw [verifyHMAC_halves _ _ _ (by decide), hpay]
    have hA : b64DecodeString (utf8 "MDAwMDAwMDAtMDAwMC0wMDAwLTAwMDAtMDAwMDAwMDAwMDAwOjAwMDAwMDAwLTAwMDAtMDAwMC0wMDAwLTAwMDAwMDAwMDAwMC")
        = some (utf8 "00000000-0000-0000-0000-000000000000:00000000-0000-0000-0000-000000000000") := by decide
    have hB : b64DecodeString (utf8 "wFz_NGynF0CYLIS6jzMR_6Tt8ET0aH9UDSTPE9RjEog")
        = some [192, 92, 255, 52, 108, 167, 23, 64, 152, 44, 132, 186, 143, 51, 17, 255, 164, 237, 240, 68, 244, 104, 127, 84, 13, 36, 207, 19, 212, 99, 18, 136] := by decide
    rw [hA, hB]
    simp only [hmac, if_true]

/-- Witness of `token_bit_flip`: bit 0 of byte 0 of the token of the nil UUIDs under the secret
"secret". -/
theorem token_bit_flip_witness :
    ∃ t, GenerateToken (utf8 "secret") (List.replicate 16 0) (List.replicate 16 0) = .ok t ∧
      t.length = 142 ∧
      (ParseToken (utf8 "secret") (flipBit t 0 0) = .error .ErrInvalidToken
        ∨ (((0 : Nat) = 97 ∨ (0 : Nat) = 141)
            ∧ ParseToken (utf8 "secret") (flipBit t 0 0)
              = .ok { UserUUID := List.replicate 16 0, JTI := List.replicate 16 0 })
        ∨ ((0 : Nat) < 98 ∧ ∃ p, b64DecodeString ((flipBit t 0 0).take 98) = some p
            ∧ p ≠ uuidString (List.replicate 16 0) ++ [58] ++ uuidString (List.replicate 16 0)
            ∧ hmacSHA256 (utf8 "secret") p
                = hmacSHA256 (utf8 "secret")
                    (uuidString (List.replicate 16 0) ++ [58] ++ uuidString (List.replicate 16 0)))) :=
  ⟨_, rfl, token_bit_flip (utf8 "secret") (List.replicate 16 0) (List.replicate 16 0)
    (by decide) (by decide) _ rfl 0 0 (by simp [GenerateToken, signHMAC, b64Encode_length, hmacSHA256_length, uuidString_length])⟩

/-! ## Lemmas on `hex.DecodeString` and on the freshness test -/

theorem fromHexChar_isSome (c : Nat) : (fromHexChar c).isSome ↔ IsHexChar c := by
  unfold fromHexChar IsHexChar
  split
  · simp; omega
  · split
    · simp; omega
    · split
      · simp; omega
      · simp; omega

theorem hexDecodeString_isSome : ∀ c : Bytes,
    ((hexDecodeString c).isSome ↔ c.length % 2 = 0 ∧ ∀ b ∈ c, IsHexChar b)
  | [] => by simp [hexDecodeString]
  | [_] => by simp [hexDecodeString]
  | p :: q :: rest => by
    have ih := hexDecodeString_isSome rest
    have hp := fromHexChar_isSome p
    have hq := fromHexChar_isSome q
    simp only [hexDecodeString]
    cases h1 : fromHexChar p with
    | none =>
      rw [h1] at hp
      simp only [Option.isSome_none, Bool.false_eq_true, false_iff] at hp
      simp [hp]
    | some a =>
      rw [h1] at hp
      cases h2 : fromHexChar q with
      | none =>
        rw [h2] at hq
        simp only [Option.isSome_none, Bool.false_eq_true, false_iff] at hq
        simp [hq]
      | some b =>
        rw [h2] at hq
        simp only [Option.isSome_some, true_iff] at hp hq
        simp only [Option.isSome_map', ih, List.length_cons, List.mem_cons, forall_eq_or_imp, hp,
          hq, true_and]
        constructor
        · rintro ⟨h, hall⟩; exact ⟨by omega, hall⟩
        · rintro ⟨h, hall⟩; exact ⟨by omega, hall⟩

theorem hexDecodeString_length : ∀ (c bs : Bytes), hexDecodeString c = some bs →
    bs.length * 2 = c.length
  | [], bs, h => by simp [hexDecodeString] at h; subst h; rfl
  | [_], bs, h => by simp [hexDecodeString] at h
  | p :: q :: rest, bs, h => by
    simp only [hexDecodeString] at h
    cases h1 : fromHexChar p with
    | none => rw [h1] at h; simp at h
    | some a =>
      cases h2 : fromHexChar q with
      | none => rw [h1, h2] at h; simp at h
      | some b =>
        rw [h1, h2] at h
        cases h3 : hexDecodeString rest with
        | none => rw [h3] at h; simp at h
        | some t =>
          rw [h3] at h
          simp at h
          subst h
          have := hexDecodeString_length rest t h3
          simp only [List.length_cons]
          omega

/-- The test at the head of `Challenge` passes exactly on 16 hexadecimal characters. -/
theorem challengeC_ok_iff (c : Bytes) :
    ¬((hexDecodeString c).isNone ∨ c.length ≠ 16) ↔ IsHex16 c := by
  have h := hexDecodeString_isSome c
  unfold IsHex16
  constructor
  · intro hn
    have h1 : (hexDecodeString c).isSome := by
      cases hd : hexDecodeString c with
      | none => simp [hd] at hn
      | some x => rfl
    have h2 : c.length = 16 := by
      by_contra hne; exact hn (Or.inr hne)
    exact ⟨h2, (h.mp h1).2⟩
  · rintro ⟨h2, hall⟩ hn
    have h1 : (hexDecodeString c).isSome := h.mpr ⟨by omega, hall⟩
    rcases hn with hn | hn
    · cases hd : hexDecodeString c with
      | none => simp [hd] at h1
      | some x => simp [hd] at hn
    · exact hn h2

theorem float64OfInt64_natAbs (x : Int) :
    30 < (float64OfInt64 x).natAbs ↔ 30 < x.natAbs := by
  unfold float64OfInt64
  simp only
  split
  · rfl
  · rename_i hbig
    have ha : 9007199254740992 ≤ x.natAbs := by omega
    have hne : x.natAbs ≠ 0 := by omega
    have hlog : 53 ≤ Nat.log2 x.natAbs := (Nat.le_log2 hne).mpr (by norm_num; exact ha)
    have hself := Nat.log2_self_le hne
    generalize Nat.log2 x.natAbs = L at hlog hself
    have hsplit : 2 ^ L = 2 ^ (L - 52) * 2 ^ 52 := by
      rw [← Nat.pow_add]; congr 1; omega
    have hpos : 0 < 2 ^ (L - 52) := Nat.two_pow_pos _
    have hq : 2 ^ 52 ≤ x.natAbs / 2 ^ (L - 52) := by
      rw [Nat.le_div_iff_mul_le hpos]
      rw [hsplit] at hself
      rw [Nat.mul_comm]; exact hself
    have hq1 : ∀ q1, x.natAbs / 2 ^ (L - 52) ≤ q1 → 30 < q1 * 2 ^ (L - 52) := by
      intro q1 hle
      have : 2 ^ 52 * 1 ≤ q1 * 2 ^ (L - 52) := Nat.mul_le_mul (Nat.le_trans hq hle) hpos
      have h52 : (2 : Nat) ^ 52 = 4503599627370496 := by norm_num
      omega
    constructor
    · intro _; omega
    · intro _
      split <;> split <;>
        simp only [Int.natAbs_neg, Int.natAbs_ofNat] <;> apply hq1 <;> omega

/-- For a server time in `[0, 2^62]` and a request timestamp that is an `int64`, the
staleness test of `Challenge` (wrapping subtraction, conversion to `float64`,
`math.Abs`, comparison with 30) holds exactly when the two instants are more than
30 seconds apart. -/
theorem stale_iff (now ts : Int) (h0 : 0 ≤ now) (h1 : now ≤ 4611686018427387904)
    (hts : IsInt64 ts) :
    30 < (float64OfInt64 (wrapInt64 (now - ts))).natAbs ↔ 30 < |now - ts| := by
  rw [float64OfInt64_natAbs, Int.abs_eq_natAbs]
  obtain ⟨h2, h3⟩ := hts
  unfold wrapInt64
  constructor
  · intro h; omega
  · intro h; omega

/-! ## C6 -/

/-- C6. `Challenge` returns `ParamError` if and only if `challenge_c` is not exactly 16
hexadecimal characters, that is if and only if it does not decode as exactly 8 bytes
of hex; it then has issued no database statement. In particular the 20-character
value "00112233445566778899" is rejected with `ParamError` and "0011223344556677"
is not. -/
theorem challenge_param_error_iff (s : LockService) (kms : LocalKMS) (db : DB)
    (w : ChallengeWorld) (req : ChallengeRequest) (userID : Int) (clientIP : Bytes) :
    ((s.Challenge kms db w req userID clientIP).code = CodeParamError
        ↔ ¬IsHex16 req.ChallengeC)
      ∧ (IsHex16 req.ChallengeC
        ↔ ∃ bs, hexDecodeString req.ChallengeC = some bs ∧ bs.length = 8)
      ∧ ((s.Challenge kms db w req userID clientIP).code = CodeParamError
        → (s.Challenge kms db w req userID clientIP).resp = none
          ∧ (s.Challenge kms db w req userID clientIP).stmts = [])
      ∧ (s.Challenge kms db w { req with ChallengeC := utf8 "00112233445566778899" }
          userID clientIP).code = CodeParamError
      ∧ (s.Challenge kms db w { req with ChallengeC := utf8 "0011223344556677" }
          userID clientIP).code ≠ CodeParamError := by
  have key : ∀ r : ChallengeRequest,
      ((s.Challenge kms db w r userID clientIP).code = CodeParamError ↔ ¬IsHex16 r.ChallengeC)
      ∧ ((s.Challenge kms db w r userID clientIP).code = CodeParamError
        → (s.Challenge kms db w r userID clientIP).resp = none
          ∧ (s.Challenge kms db w r userID clientIP).stmts = []) := by
    intro r
    rw [← challengeC_ok_iff]
    unfold LockService.Challenge
    by_cases hwf : (hexDecodeString r.ChallengeC).isNone ∨ r.ChallengeC.length ≠ 16
    · rw [if_pos hwf]
      exact ⟨⟨fun _ => not_not.mpr hwf, fun _ => rfl⟩, fun _ => ⟨rfl, rfl⟩⟩
    · rw [if_neg hwf]
      simp only [hwf, not_false_eq_true, not_true_eq_false, iff_false]
      constructor
      · (repeat' split) <;> simp [CodeParamError, CodeRequestExpired, CodeInternalError,
          CodeDeviceNotFound, CodeDeviceUnavailable, CodeNoPermission]
      · (repeat' split) <;> simp [CodeParamError, CodeRequestExpired, CodeInternalError,
          CodeDeviceNotFound, CodeDeviceUnavailable, CodeNoPermission]
  refine ⟨(key req).1, ?_, (key req).2, ?_, ?_⟩
  · constructor
    · intro h
      have h1 := (hexDecodeString_isSome req.ChallengeC).mpr ⟨by rw [h.1], h.2⟩
      cases hd : hexDecodeString req.ChallengeC with
      | none => simp [hd] at h1
      | some bs =>
        have := hexDecodeString_length _ _ hd
        exact ⟨bs, rfl, by rw [h.1] at this; omega⟩
    · rintro ⟨bs, hd, hl⟩
      have := hexDecodeString_length _ _ hd
      have h1 := (hexDecodeString_isSome req.ChallengeC).mp (by simp [hd])
      exact ⟨by omega, h1.2⟩
  · have h20 : ¬IsHex16 (utf8 "00112233445566778899") := by decide
    exact (key _).1.mpr h20
  · intro h
    have h16 : IsHex16 (utf8 "0011223344556677") := by decide
    exact (key _).1.mp h h16

/-! ## Lemmas on the steps of `Challenge` -/

theorem challenge_param (s : LockService) (kms : LocalKMS) (db : DB) (w : ChallengeWorld)
    (req : ChallengeRequest) (userID : Int) (clientIP : Bytes) (h : ¬IsHex16 req.ChallengeC) :
    s.Challenge kms db w req userID clientIP =
      { code := CodeParamError, msg := utf8 "challenge_c must be 16 hex characters (8 bytes)" } := by
  have hwf : (hexDecodeString req.ChallengeC).isNone ∨ req.ChallengeC.length ≠ 16 := by
    by_contra hn; exact h ((challengeC_ok_iff _).mp hn)
  unfold LockService.Challenge
  rw [if_pos hwf]

theorem challenge_stale (s : LockService) (kms : LocalKMS) (db : DB) (w : ChallengeWorld)
    (req : ChallengeRequest) (userID : Int) (clientIP : Bytes) (h : IsHex16 req.ChallengeC)
    (hs : 30 < (float64OfInt64 (wrapInt64 (w.serverTime - req.Timestamp))).natAbs) :
    s.Challenge kms db w req userID clientIP =
      { code := CodeRequestExpired, msg := utf8 "request expired" } := by
  have hwf := (challengeC_ok_iff _).mpr h
  unfold LockService.Challenge
  rw [if_neg hwf]
  simp only [gt_iff_lt]
  rw [if_pos hs]

theorem challenge_query_fails (s : LockService) (kms : LocalKMS) (db : DB) (w : ChallengeWorld)
    (req : ChallengeRequest) (userID : Int) (clientIP : Bytes) (h : IsHex16 req.ChallengeC)
    (hs : ¬30 < (float64OfInt64 (wrapInt64 (w.serverTime - req.Timestamp))).natAbs)
    (hq : w.deviceQueryFails = true) :
    s.Challenge kms db w req userID clientIP =
      { code := CodeInternalError, msg := utf8 "internal error",
        stmts := [.firstDevice req.DeviceID] } := by
  have hwf := (challengeC_ok_iff _).mpr h
  unfold LockService.Challenge
  rw [if_neg hwf]
  simp only [gt_iff_lt]
  rw [if_neg hs, if_pos hq]

theorem challenge_not_found (s : LockService) (kms : LocalKMS) (db : DB) (w : ChallengeWorld)
    (req : ChallengeRequest) (userID : Int) (clientIP : Bytes) (h : IsHex16 req.ChallengeC)
    (hs : ¬30 < (float64OfInt64 (wrapInt64 (w.serverTime - req.Timestamp))).natAbs)
    (hq : w.deviceQueryFails = false)
    (hf : db.devices.find? (deviceWhere req.DeviceID) = none) :
    s.Challenge kms db w req userID clientIP =
      { code := CodeDeviceNotFound, msg := utf8 "device not found",
        stmts := [.firstDevice req.DeviceID] } := by
  have hwf := (challengeC_ok_iff _).mpr h
  unfold LockService.Challenge
  rw [if_neg hwf]
  simp only [gt_iff_lt]
  rw [if_neg hs, if_neg (by simp [hq])]
  simp only [hf]

theorem challenge_unavailable (s : LockService) (kms : LocalKMS) (db : DB) (w : ChallengeWorld)
    (req : ChallengeRequest) (userID : Int) (clientIP : Bytes) (h : IsHex16 req.ChallengeC)
    (hs : ¬30 < (float64OfInt64 (wrapInt64 (w.serverTime - req.Timestamp))).natAbs)
    (hq : w.deviceQueryFails = false) (device : Device)
    (hf : db.devices.find? (deviceWhere req.DeviceID) = some device)
    (hst : device.Status ≠ 1) :
    s.Challenge kms db w req userID clientIP =
      { code := CodeDeviceUnavailable,
        msg := if device.Status = 2 then utf8 "device locked due to security alert"
          else utf8 "device unavailable",
        stmts := [.firstDevice req.DeviceID] } := by
  have hwf := (challengeC_ok_iff _).mpr h
  unfold LockService.Challenge
  rw [if_neg hwf]
  simp only [gt_iff_lt]
  rw [if_neg hs, if_neg (by simp [hq])]
  simp only [hf]
  rw [if_pos hst]

/-- The count of the permission query of `Challenge` is positive exactly when a
permission row of the user for this lock covers the two clock readings. -/
theorem permCount_ne_zero_iff (db : DB) (userID : Int) (deviceID : Bytes) (t1 t2 : Int) :
    (db.permissions.filter (challengePermWhere userID DeviceTypeLock deviceID t1 t2)).length ≠ 0
      ↔ HasPermission db userID deviceID t1 t2 := by
  rw [Nat.ne_zero_iff_zero_lt, List.length_pos_iff_exists_mem]
  unfold HasPermission Permission.EffectiveBetween
  constructor
  · rintro ⟨p, hp⟩
    rw [List.mem_filter] at hp
    obtain ⟨hmem, hw⟩ := hp
    refine ⟨p, hmem, ?_⟩
    simp only [challengePermWhere, Bool.and_eq_true, Bool.or_eq_true, decide_eq_true_eq] at hw
    obtain ⟨⟨⟨⟨⟨h1, h2⟩, h3⟩, h4⟩, h5⟩, h6⟩ := hw
    refine ⟨h1, h2, h3, h4, h5, ?_⟩
    cases hv : p.ValidUntil with
    | none => left; rfl
    | some u =>
      right
      rw [hv] at h6
      simp at h6
      exact ⟨u, rfl, h6⟩
  · rintro ⟨p, hmem, h1, h2, h3, h4, h5, h6⟩
    refine ⟨p, ?_⟩
    rw [List.mem_filter]
    refine ⟨hmem, ?_⟩
    simp only [challengePermWhere, Bool.and_eq_true, Bool.or_eq_true, decide_eq_true_eq]
    refine ⟨⟨⟨⟨⟨h1, h2⟩, h3⟩, h4⟩, h5⟩, ?_⟩
    rcases h6 with h6 | ⟨u, hu, hlt⟩
    · left; simp [h6]
    · right; simp [hu, hlt]

theorem challenge_no_permission (s : LockService) (kms : LocalKMS) (db : DB)
    (w : ChallengeWorld) (req : ChallengeRequest) (userID : Int) (clientIP : Bytes)
    (h : IsHex16 req.ChallengeC)
    (hs : ¬30 < (float64OfInt64 (wrapInt64 (w.serverTime - req.Timestamp))).natAbs)
    (hq : w.deviceQueryFails = false) (device : Device)
    (hf : db.devices.find? (deviceWhere req.DeviceID) = some device)
    (hst : device.Status = 1)
    (hp : w.permQueryFails = true
      ∨ ¬HasPermission db userID device.DeviceID w.permNowFrom w.permNowUntil) :
    s.Challenge kms db w req userID clientIP =
      { code := CodeNoPermission, msg := utf8 "no permission for this device",
        stmts := [.firstDevice req.DeviceID, .countPermissions userID device.DeviceID] } := by
  have hwf := (challengeC_ok_iff _).mpr h
  have hcount : (if w.permQueryFails then 0
      else (db.permissions.filter (challengePermWhere userID DeviceTypeLock device.DeviceID
        w.permNowFrom w.permNowUntil)).length) = 0 := by
    rcases hp with hp | hp
    · rw [if_pos hp]
    · split
      · rfl
      · by_contra hne
        exact hp ((permCount_ne_zero_iff _ _ _ _ _).mp hne)
  unfold LockService.Challenge
  rw [if_neg hwf]
  simp only [gt_iff_lt]
  rw [if_neg hs, if_neg (by simp [hq])]
  simp only [hf]
  rw [if_neg (by simp [hst]), if_pos hcount]

theorem challenge_permitted (s : LockService) (kms : LocalKMS) (db : DB)
    (w : ChallengeWorld) (req : ChallengeRequest) (userID : Int) (clientIP : Bytes)
    (h : IsHex16 req.ChallengeC)
    (hs : ¬30 < (float64OfInt64 (wrapInt64 (w.serverTime - req.Timestamp))).natAbs)
    (hq : w.deviceQueryFails = false) (device : Device)
    (hf : db.devices.find? (deviceWhere req.DeviceID) = some device)
    (hst : device.Status = 1)
    (hpq : w.permQueryFails = false)
    (hp : HasPermission db userID device.DeviceID w.permNowFrom w.permNowUntil) :
    s.Challenge kms db w req userID clientIP =
      match kms.DecryptDeviceKey device.KeyEncrypted with
      | .error _ =>
        { code := CodeInternalError, msg := utf8 "internal error",
          stmts := [.firstDevice req.DeviceID, .countPermissions userID device.DeviceID] }
      | .ok kd =>
        match kms.ComputeCMAC kd (challengeData ((hexDecodeString req.ChallengeC).getD [])
          req.DeviceID userID req.Timestamp) with
        | .error _ =>
          { code := CodeInternalError, msg := utf8 "internal error",
            stmts := [.firstDevice req.DeviceID, .countPermissions userID device.DeviceID] }
        | .ok cmacResult =>
          { resp := some { Response := hexEncodeToString cmacResult },
            code := 0, msg := [],
            stmts := [.firstDevice req.DeviceID, .countPermissions userID device.DeviceID],
            spawned := [.touchDevice req.DeviceID],
            audits := if s.hasPublisher then
              [{ UserID := userID, DeviceID := req.DeviceID, DeviceType := DeviceTypeLock,
                 Action := utf8 "challenge_request", ClientIP := clientIP }]
              else [] } := by
  have hwf := (challengeC_ok_iff _).mpr h
  have hcount : ¬(if w.permQueryFails then 0
      else (db.permissions.filter (challengePermWhere userID DeviceTypeLock device.DeviceID
        w.permNowFrom w.permNowUntil)).length) = 0 := by
    rw [if_neg (by simp [hpq])]
    exact (permCount_ne_zero_iff _ _ _ _ _).mpr hp
  unfold LockService.Challenge
  rw [if_neg hwf]
  simp only [gt_iff_lt]
  rw [if_neg hs, if_neg (by simp [hq])]
  simp only [hf]
  rw [if_neg (by simp [hst]), if_neg hcount]

theorem find_deviceWhere (db : DB) (deviceID : Bytes) (device : Device)
    (hf : db.devices.find? (deviceWhere deviceID) = some device) :
    device ∈ db.devices ∧ device.DeviceID = deviceID ∧ device.DeletedAt = none := by
  have h1 := List.find?_some hf
  have h2 := List.mem_of_find?_eq_some hf
  simp only [deviceWhere, Bool.and_eq_true, decide_eq_true_eq, Option.isNone_iff_eq_none] at h1
  exact ⟨h2, h1.1, h1.2⟩

/-- What a successful `Challenge`, or one that returns a response, has gone
through. -/
theorem challenge_success_inv (s : LockService) (kms : LocalKMS) (db : DB)
    (w : ChallengeWorld) (req : ChallengeRequest) (userID : Int) (clientIP : Bytes)
    (h : (s.Challenge kms db w req userID clientIP).code = 0
      ∨ (s.Challenge kms db w req userID clientIP).resp ≠ none) :
    IsHex16 req.ChallengeC
      ∧ ¬30 < (float64OfInt64 (wrapInt64 (w.serverTime - req.Timestamp))).natAbs
      ∧ w.deviceQueryFails = false
      ∧ ∃ device, db.devices.find? (deviceWhere req.DeviceID) = some device
        ∧ device.Status = 1
        ∧ w.permQueryFails = false
        ∧ HasPermission db userID device.DeviceID w.permNowFrom w.permNowUntil
        ∧ ∃ kd, kms.DecryptDeviceKey device.KeyEncrypted = .ok kd
          ∧ ∃ m, kms.ComputeCMAC kd (challengeData ((hexDecodeString req.ChallengeC).getD [])
              req.DeviceID userID req.Timestamp) = .ok m
            ∧ (s.Challenge kms db w req userID clientIP).resp
                = some { Response := hexEncodeToString m }
            ∧ (s.Challenge kms db w req userID clientIP).code = 0 := by
  by_cases hwf : IsHex16 req.ChallengeC
  swap
  · rw [challenge_param _ _ _ _ _ _ _ hwf] at h
    simp [CodeParamError] at h
  by_cases hs : 30 < (float64OfInt64 (wrapInt64 (w.serverTime - req.Timestamp))).natAbs
  · rw [challenge_stale _ _ _ _ _ _ _ hwf hs] at h
    simp [CodeRequestExpired] at h
  cases hq : w.deviceQueryFails with
  | true =>
    rw [challenge_query_fails _ _ _ _ _ _ _ hwf hs hq] at h
    simp [CodeInternalError] at h
  | false =>
    cases hf : db.devices.find? (deviceWhere req.DeviceID) with
    | none =>
      rw [challenge_not_found _ _ _ _ _ _ _ hwf hs hq hf] at h
      simp [CodeDeviceNotFound] at h
    | some device =>
      by_cases hst : device.Status = 1
      swap
      · rw [challenge_unavailable _ _ _ _ _ _ _ hwf hs hq device hf hst] at h
        simp [CodeDeviceUnavailable] at h
      by_cases hp : w.permQueryFails = true
          ∨ ¬HasPermission db userID device.DeviceID w.permNowFrom w.permNowUntil
      · rw [challenge_no_permission _ _ _ _ _ _ _ hwf hs hq device hf hst hp] at h
        simp [CodeNoPermission] at h
      have hpq : w.permQueryFails = false := by
        cases hpf : w.permQueryFails with
        | true => exact absurd (Or.inl hpf) hp
        | false => rfl
      have hhp : HasPermission db userID device.DeviceID w.permNowFrom w.permNowUntil := by
        by_contra hn; exact hp (Or.inr hn)
      have hR := challenge_permitted s kms db w req userID clientIP hwf hs hq device hf hst hpq hhp
      refine ⟨hwf, hs, rfl, device, rfl, hst, hpq, hhp, ?_⟩
      rw [hR] at h ⊢
      cases hd : kms.DecryptDeviceKey device.KeyEncrypted with
      | error e =>
        rw [hd] at h
        simp [CodeInternalError] at h
      | ok kd =>
        rw [hd] at h
        refine ⟨kd, rfl, ?_⟩
        simp only at h ⊢
        cases hm : kms.ComputeCMAC kd (challengeData ((hexDecodeString req.ChallengeC).getD [])
            req.DeviceID userID req.Timestamp) with
        | error e =>
          rw [hm] at h
          simp [CodeInternalError] at h
        | ok m => exact ⟨m, rfl, rfl, rfl⟩

theorem hextable_lower : ∀ n, n < 16 → IsLowerHexChar (hextable.getD n 0) := by decide

theorem hexEncode_lower (bs : Bytes) (h : IsBytes bs) :
    ∀ c ∈ hexEncodeToString bs, IsLowerHexChar c := by
  induction bs with
  | nil => intro c hc; simp [hexEncodeToString] at hc
  | cons b t ih =>
    intro c hc
    have hb : b < 256 := h b (by simp)
    simp only [hexEncodeToString, List.mem_cons] at hc
    rcases hc with hc | hc | hc
    · rw [hc]; exact hextable_lower _ (by omega)
    · rw [hc]; exact hextable_lower _ (by omega)
    · exact ih (fun x hx => h x (by simp [hx])) c hc

theorem be64Bytes_spec (x : Int) (h : IsInt64 x) :
    (be64Bytes (uint64OfInt64 x)).length = 8 ∧ IsBytes (be64Bytes (uint64OfInt64 x))
      ∧ beValue (be64Bytes (uint64OfInt64 x)) = twosComplement64 x := by
  obtain ⟨h1, h2⟩ := h
  have hu : uint64OfInt64 x = twosComplement64 x := by
    unfold uint64OfInt64 twosComplement64
    split <;> omega
  have hlt : twosComplement64 x < 18446744073709551616 := by
    unfold twosComplement64
    split <;> omega
  rw [hu]
  generalize twosComplement64 x = n at hlt
  refine ⟨rfl, ?_, ?_⟩
  · intro b hb
    simp only [be64Bytes, List.mem_cons, List.mem_singleton] at hb
    rcases hb with hb | hb | hb | hb | hb | hb | hb | hb | hb <;> first | omega | simp at hb
  · simp only [beValue, be64Bytes, List.foldl_cons, List.foldl_nil]
    omega

/-! ## C3 -/

/-- C3. When `Challenge` returns a response, the response is the lowercase hexadecimal
writing (32 characters) of the first 16 bytes of HMAC-SHA-256 under the unwrapped
device key of `data`, where `data` is the 8 bytes decoded from `challenge_c`,
followed by the bytes of `device_id`, followed by 8 bytes that write the two's
complement of `user_id` big-endian, followed by 8 bytes that write the two's
complement of `timestamp` big-endian; `data` has `24 + len(device_id)` bytes. -/
theorem challenge_response (s : LockService) (kms : LocalKMS) (db : DB)
    (w : ChallengeWorld) (req : ChallengeRequest) (userID : Int) (clientIP : Bytes)
    (r : ChallengeResponse) (huid : IsInt64 userID) (hts : IsInt64 req.Timestamp)
    (h : (s.Challenge kms db w req userID clientIP).resp = some r) :
    ∃ device kd cb uidBytes tsBytes,
      db.devices.find? (deviceWhere req.DeviceID) = some device
      ∧ kms.DecryptDeviceKey device.KeyEncrypted = .ok kd
      ∧ hexDecodeString req.ChallengeC = some cb ∧ cb.length = 8
      ∧ uidBytes.length = 8 ∧ IsBytes uidBytes ∧ beValue uidBytes = twosComplement64 userID
      ∧ tsBytes.length = 8 ∧ IsBytes tsBytes
      ∧ beValue tsBytes = twosComplement64 req.Timestamp
      ∧ (cb ++ req.DeviceID ++ uidBytes ++ tsBytes).length = 24 + req.DeviceID.length
      ∧ r.Response
          = hexEncodeToString ((hmacSHA256 kd (cb ++ req.DeviceID ++ uidBytes ++ tsBytes)).take 16)
      ∧ r.Response.length = 32
      ∧ (∀ c ∈ r.Response, IsLowerHexChar c)
      ∧ (s.Challenge kms db w req userID clientIP).code = 0 := by
  obtain ⟨hwf, _, _, device, hf, _, _, _, kd, hkd, m, hm, hresp, hcode⟩ :=
    challenge_success_inv s kms db w req userID clientIP (Or.inr (by rw [h]; simp))
  have hsome := (hexDecodeString_isSome req.ChallengeC).mpr ⟨by rw [hwf.1], hwf.2⟩
  cases hcb : hexDecodeString req.ChallengeC with
  | none => rw [hcb] at hsome; simp at hsome
  | some cb =>
    have hcl : cb.length = 8 := by
      have := hexDecodeString_length _ _ hcb
      rw [hwf.1] at this; omega
    obtain ⟨hu1, hu2, hu3⟩ := be64Bytes_spec userID huid
    obtain ⟨ht1, ht2, ht3⟩ := be64Bytes_spec req.Timestamp hts
    have hm2 : m = (hmacSHA256 kd (cb ++ req.DeviceID ++ be64Bytes (uint64OfInt64 userID)
        ++ be64Bytes (uint64OfInt64 req.Timestamp))).take 16 := by
      rw [hcb] at hm
      simp only [LocalKMS.ComputeCMAC, challengeData, Option.getD_some, hmacSHA256_length] at hm
      simp at hm
      rw [← hm]
      simp only [List.append_assoc]
    have hr : r.Response = hexEncodeToString m := by
      rw [hresp] at h
      simp only [Option.some.injEq] at h
      rw [← h]
    have hml : m.length = 16 := by
      rw [hm2, List.length_take, hmacSHA256_length]; rfl
    have hmb : IsBytes m := by
      intro b hb
      rw [hm2] at hb
      exact hmacSHA256_isBytes _ _ b (List.mem_of_mem_take hb)
    refine ⟨device, kd, cb, be64Bytes (uint64OfInt64 userID),
      be64Bytes (uint64OfInt64 req.Timestamp), hf, hkd, rfl, hcl, hu1, hu2, hu3, ht1, ht2, ht3,
      ?_, ?_, ?_, ?_, hcode⟩
    · simp only [List.length_append, hcl, hu1, ht1]; omega
    · rw [hr, hm2]
    · rw [hr, hexEncode_length, hml]
    · rw [hr]; exact hexEncode_lower m hmb

/-- Witness of `challenge_response`: the happy-unlock scenario, a challenge 0011223344556677 for
device D1 by user 7 at timestamp 1000, answered with 43ec5fa6831120cfbcd9a9f764895854. -/
theorem challenge_response_witness :
    IsInt64 7 ∧ IsInt64 scenarioRequest.Timestamp
    ∧ (LockService.Challenge {} toyKMS scenarioDB scenarioWorld scenarioRequest 7 []).resp
        = some (ChallengeResponse.mk (utf8 "43ec5fa6831120cfbcd9a9f764895854"))
    ∧ ∃ device kd cb uidBytes tsBytes,
      scenarioDB.devices.find? (deviceWhere scenarioRequest.DeviceID) = some device
      ∧ toyKMS.DecryptDeviceKey device.KeyEncrypted = .ok kd
      ∧ hexDecodeString scenarioRequest.ChallengeC = some cb ∧ cb.length = 8
      ∧ uidBytes.length = 8 ∧ IsBytes uidBytes ∧ beValue uidBytes = twosComplement64 7
      ∧ tsBytes.length = 8 ∧ IsBytes tsBytes
      ∧ beValue tsBytes = twosComplement64 scenarioRequest.Timestamp
      ∧ (cb ++ scenarioRequest.DeviceID ++ uidBytes ++ tsBytes).length = 24 + scenarioRequest.DeviceID.length
      ∧ (ChallengeResponse.mk (utf8 "43ec5fa6831120cfbcd9a9f764895854")).Response
          = hexEncodeToString ((hmacSHA256 kd (cb ++ scenarioRequest.DeviceID ++ uidBytes ++ tsBytes)).take 16)
      ∧ (ChallengeResponse.mk (utf8 "43ec5fa6831120cfbcd9a9f764895854")).Response.length = 32
      ∧ (∀ c ∈ (ChallengeResponse.mk (utf8 "43ec5fa6831120cfbcd9a9f764895854")).Response, IsLowerHexChar c)
      ∧ (LockService.Challenge {} toyKMS scenarioDB scenarioWorld scenarioRequest 7 []).code = 0 :=
  ⟨by decide, by decide, by decide!,
    challenge_response {} toyKMS scenarioDB scenarioWorld scenarioRequest 7 [] _ (by decide)
      (by decide) (by decide!)⟩

theorem challenge_code_expired_iff (s : LockService) (kms : LocalKMS) (db : DB)
    (w : ChallengeWorld) (req : ChallengeRequest) (userID : Int) (clientIP : Bytes) :
    (s.Challenge kms db w req userID clientIP).code = CodeRequestExpired
      ↔ IsHex16 req.ChallengeC
        ∧ 30 < (float64OfInt64 (wrapInt64 (w.serverTime - req.Timestamp))).natAbs := by
  by_cases hwf : IsHex16 req.ChallengeC
  swap
  · rw [challenge_param _ _ _ _ _ _ _ hwf]
    simp [hwf, CodeParamError, CodeRequestExpired]
  by_cases hs : 30 < (float64OfInt64 (wrapInt64 (w.serverTime - req.Timestamp))).natAbs
  · rw [challenge_stale _ _ _ _ _ _ _ hwf hs]
    simp [hwf, hs]
  · have hwf2 := (challengeC_ok_iff _).mpr hwf
    simp only [hwf, hs, and_false, iff_false]
    unfold LockService.Challenge
    rw [if_neg hwf2]
    simp only [gt_iff_lt]
    rw [if_neg hs]
    (repeat' split) <;> simp [CodeRequestExpired, CodeInternalError,
      CodeDeviceNotFound, CodeDeviceUnavailable, CodeNoPermission]

/-! ## C4 -/

/-- C4. For a well-formed `challenge_c`, a server time in `[0, 2^62]` and a request
timestamp that is an `int64`, `Challenge` returns `RequestExpired` if and only if the
integer `|now - ts|` exceeds 30: a difference of exactly 30 passes the freshness
check and a difference of 31 is rejected, whatever the wrapping subtraction and the
conversion to `float64` do. -/
theorem challenge_fresh_iff (s : LockService) (kms : LocalKMS) (db : DB)
    (w : ChallengeWorld) (req : ChallengeRequest) (userID : Int) (clientIP : Bytes)
    (hc : IsHex16 req.ChallengeC) (h0 : 0 ≤ w.serverTime)
    (h1 : w.serverTime ≤ 4611686018427387904) (hts : IsInt64 req.Timestamp) :
    ((s.Challenge kms db w req userID clientIP).code = CodeRequestExpired
        ↔ 30 < |w.serverTime - req.Timestamp|)
      ∧ (|w.serverTime - req.Timestamp| = 30
        → (s.Challenge kms db w req userID clientIP).code ≠ CodeRequestExpired)
      ∧ (|w.serverTime - req.Timestamp| = 31
        → (s.Challenge kms db w req userID clientIP).code = CodeRequestExpired
          ∧ (s.Challenge kms db w req userID clientIP).resp = none) := by
  have hst := stale_iff w.serverTime req.Timestamp h0 h1 hts
  have key : (s.Challenge kms db w req userID clientIP).code = CodeRequestExpired
      ↔ 30 < |w.serverTime - req.Timestamp| := by
    rw [challenge_code_expired_iff, hst]
    simp [hc]
  refine ⟨key, ?_, ?_⟩
  · intro h30 hcode
    have := key.mp hcode
    omega
  · intro h31
    have hs : 30 < |w.serverTime - req.Timestamp| := by omega
    refine ⟨key.mpr hs, ?_⟩
    rw [challenge_stale _ _ _ _ _ _ _ hc (hst.mpr hs)]

/-- Witness of `challenge_fresh_iff`: the scenario request with timestamp 1030 at server time
1000. -/
theorem challenge_fresh_witness :
    IsHex16 scenarioRequest.ChallengeC ∧ (0 : Int) ≤ scenarioWorld.serverTime
    ∧ scenarioWorld.serverTime ≤ 4611686018427387904 ∧ IsInt64 1030
    ∧ ((LockService.Challenge {} toyKMS scenarioDB scenarioWorld
          { scenarioRequest with Timestamp := 1030 } 7 []).code = CodeRequestExpired
        ↔ 30 < |scenarioWorld.serverTime - 1030|)
    ∧ (|scenarioWorld.serverTime - 1030| = 30
        → (LockService.Challenge {} toyKMS scenarioDB scenarioWorld
          { scenarioRequest with Timestamp := 1030 } 7 []).code ≠ CodeRequestExpired)
    ∧ (|scenarioWorld.serverTime - 1030| = 31
        → (LockService.Challenge {} toyKMS scenarioDB scenarioWorld
            { scenarioRequest with Timestamp := 1030 } 7 []).code = CodeRequestExpired
          ∧ (LockService.Challenge {} toyKMS scenarioDB scenarioWorld
            { scenarioRequest with Timestamp := 1030 } 7 []).resp = none) :=
  ⟨by decide, by decide, by decide, by decide,
    challenge_fresh_iff {} toyKMS scenarioDB scenarioWorld
      { scenarioRequest with Timestamp := 1030 } 7 [] (by decide) (by decide) (by decide)
      (by decide)⟩

theorem find_deviceWhere_none (db : DB) (deviceID : Bytes) :
    db.devices.find? (deviceWhere deviceID) = none
      ↔ ¬∃ d ∈ db.devices, d.DeviceID = deviceID ∧ d.DeletedAt = none := by
  rw [List.find?_eq_none]
  simp only [deviceWhere, Bool.and_eq_true, decide_eq_true_eq, Option.isNone_iff_eq_none,
    not_exists, not_and]

/-! ## C5 -/

/-- C5. `Challenge` applies its checks in the order format of `challenge_c`,
freshness, device exists and is not deleted, device status active, effective
permission, and returns the code of the first check that fails: `ParamError`,
`RequestExpired`, `DeviceNotFound`, `DeviceUnavailable`, `NoPermission`, five
pairwise distinct codes, none of them 0. A stale request with a well-formed
`challenge_c` gets `RequestExpired` whatever the database holds, and no statement
has been issued. A `Challenge` that returns code 0 has found a non-deleted device
row with the requested id whose status is 1, and a permission row that covers the
clock readings of the permission query. -/
theorem challenge_check_order (s : LockService) (kms : LocalKMS) (db : DB)
    (w : ChallengeWorld) (req : ChallengeRequest) (userID : Int) (clientIP : Bytes)
    (h0 : 0 ≤ w.serverTime) (h1 : w.serverTime ≤ 4611686018427387904)
    (hts : IsInt64 req.Timestamp) :
    [CodeParamError, CodeRequestExpired, CodeDeviceNotFound, CodeDeviceUnavailable,
        CodeNoPermission, 0].Nodup
      ∧ (¬IsHex16 req.ChallengeC
        → (s.Challenge kms db w req userID clientIP).code = CodeParamError)
      ∧ (IsHex16 req.ChallengeC → 30 < |w.serverTime - req.Timestamp|
        → (s.Challenge kms db w req userID clientIP).code = CodeRequestExpired
          ∧ (s.Challenge kms db w req userID clientIP).stmts = []
          ∧ ∀ db2 : DB, s.Challenge kms db2 w req userID clientIP
              = s.Challenge kms db w req userID clientIP)
      ∧ (IsHex16 req.ChallengeC → |w.serverTime - req.Timestamp| ≤ 30
        → w.deviceQueryFails = false
        → ((¬∃ d ∈ db.devices, d.DeviceID = req.DeviceID ∧ d.DeletedAt = none)
            → (s.Challenge kms db w req userID clientIP).code = CodeDeviceNotFound)
          ∧ ∀ device, db.devices.find? (deviceWhere req.DeviceID) = some device
            → (device.Status ≠ 1
                → (s.Challenge kms db w req userID clientIP).code = CodeDeviceUnavailable)
              ∧ (device.Status = 1
                → ¬HasPermission db userID req.DeviceID w.permNowFrom w.permNowUntil
                → (s.Challenge kms db w req userID clientIP).code = CodeNoPermission))
      ∧ ((s.Challenge kms db w req userID clientIP).code = 0
        → ∃ device ∈ db.devices, device.DeviceID = req.DeviceID ∧ device.DeletedAt = none
          ∧ device.Status = 1
          ∧ HasPermission db userID req.DeviceID w.permNowFrom w.permNowUntil) := by
  have hst := stale_iff w.serverTime req.Timestamp h0 h1 hts
  refine ⟨by decide, ?_, ?_, ?_, ?_⟩
  · intro hwf
    rw [challenge_param _ _ _ _ _ _ _ hwf]
  · intro hwf hs
    have hs2 := hst.mpr hs
    refine ⟨?_, ?_, ?_⟩
    · rw [challenge_stale _ _ _ _ _ _ _ hwf hs2]
    · rw [challenge_stale _ _ _ _ _ _ _ hwf hs2]
    · intro db2
      rw [challenge_stale _ _ _ _ _ _ _ hwf hs2, challenge_stale _ _ _ _ _ _ _ hwf hs2]
  · intro hwf hfresh hq
    have hs2 : ¬30 < (float64OfInt64 (wrapInt64 (w.serverTime - req.Timestamp))).natAbs := by
      rw [hst]; omega
    refine ⟨?_, ?_⟩
    · intro hnone
      rw [challenge_not_found _ _ _ _ _ _ _ hwf hs2 hq ((find_deviceWhere_none _ _).mpr hnone)]
    · intro device hf
      have hid := (find_deviceWhere db req.DeviceID device hf).2.1
      refine ⟨?_, ?_⟩
      · intro hne
        rw [challenge_unavailable _ _ _ _ _ _ _ hwf hs2 hq device hf hne]
      · intro heq hnp
        rw [← hid] at hnp
        rw [challenge_no_permission _ _ _ _ _ _ _ hwf hs2 hq device hf heq (Or.inr hnp)]
  · intro hcode
    obtain ⟨_, _, _, device, hf, hstat, _, hp, _⟩ :=
      challenge_success_inv s kms db w req userID clientIP (Or.inl hcode)
    obtain ⟨hmem, hid, hdel⟩ := find_deviceWhere db req.DeviceID device hf
    rw [hid] at hp
    exact ⟨device, hmem, hid, hdel, hstat, hp⟩

/-- Witness of `challenge_check_order`: the scenario request made stale, with timestamp 1120 at
server time 1000. -/
theorem challenge_check_order_witness :
    ((0 : Int) ≤ scenarioWorld.serverTime ∧ scenarioWorld.serverTime ≤ 4611686018427387904
      ∧ IsInt64 1120)
    ∧ (LockService.Challenge {} toyKMS scenarioDB scenarioWorld
        { scenarioRequest with Timestamp := 1120 } 7 []).code = CodeRequestExpired
    ∧ (LockService.Challenge {} toyKMS scenarioDB scenarioWorld
        { scenarioRequest with Timestamp := 1120 } 7 []).stmts = [] :=
  ⟨by decide,
    ((challenge_check_order {} toyKMS scenarioDB scenarioWorld
      { scenarioRequest with Timestamp := 1120 } 7 [] (by decide) (by decide)
      (by decide)).2.2.1 (by decide) (by decide)).1,
    ((challenge_check_order {} toyKMS scenarioDB scenarioWorld
      { scenarioRequest with Timestamp := 1120 } 7 [] (by decide) (by decide)
      (by decide)).2.2.1 (by decide) (by decide)).2.1⟩

/-! ## C7 -/

theorem effectiveBetween_self (p : Permission) (t : Int) :
    p.EffectiveBetween t t ↔ p.EffectiveAt t := Iff.rfl

theorem authorizedJoinOn_iff (userID : Int) (now : Int) (d : Device) (p : Permission) :
    authorizedJoinOn DeviceTypeLock userID now now d p = true
      ↔ p.UserID = userID ∧ p.DeviceType = DeviceTypeLock ∧ p.DeviceID = d.DeviceID
        ∧ p.EffectiveAt now := by
  simp only [authorizedJoinOn, Bool.and_eq_true, Bool.or_eq_true, decide_eq_true_eq,
    Permission.EffectiveAt]
  constructor
  · rintro ⟨⟨⟨⟨⟨h1, h2⟩, h3⟩, h4⟩, h5⟩, h6⟩
    refine ⟨h3, h1, h2, h4, h5, ?_⟩
    cases hv : p.ValidUntil with
    | none => left; rfl
    | some u =>
      right
      rw [hv] at h6
      simp at h6
      exact ⟨u, rfl, h6⟩
  · rintro ⟨h3, h1, h2, h4, h5, h6⟩
    refine ⟨⟨⟨⟨⟨h1, h2⟩, h3⟩, h4⟩, h5⟩, ?_⟩
    rcases h6 with h6 | ⟨u, hu, hlt⟩
    · left; simp [h6]
    · right; simp [hu, hlt]

/-- C7. For a request that reaches the permission step (well-formed, fresh, device
found and active, no store fault), `Challenge` passes that step, that is it does not
return `NoPermission`, if and only if some permission row of the user for the lock
with this device id has `status = 1`, `valid_from` not later than the first clock
reading of the query and `valid_until` null or later than the second; when the two
readings are one instant `t` this is effectiveness at `t`. A row with `valid_from`
equal to the instant passes, rows with `valid_until` equal to the instant do not.
`GetAuthorizedDevices` returns the non-deleted, non-disabled devices for which a row
of the user is effective at its clock reading. -/
theorem challenge_permission_iff (s : LockService) (kms : LocalKMS) (db : DB)
    (w : ChallengeWorld) (req : ChallengeRequest) (userID : Int) (clientIP : Bytes)
    (device : Device) (hc : IsHex16 req.ChallengeC) (h0 : 0 ≤ w.serverTime)
    (h1 : w.serverTime ≤ 4611686018427387904) (hts : IsInt64 req.Timestamp)
    (hfresh : |w.serverTime - req.Timestamp| ≤ 30)
    (hq : w.deviceQueryFails = false) (hpq : w.permQueryFails = false)
    (hf : db.devices.find? (deviceWhere req.DeviceID) = some device)
    (hst : device.Status = 1) :
    ((s.Challenge kms db w req userID clientIP).code ≠ CodeNoPermission
        ↔ ∃ p ∈ db.permissions, p.UserID = userID ∧ p.DeviceType = utf8 "lock"
          ∧ p.DeviceID = req.DeviceID ∧ p.Status = 1 ∧ p.ValidFrom ≤ w.permNowFrom
          ∧ (p.ValidUntil = none ∨ ∃ u, p.ValidUntil = some u ∧ w.permNowUntil < u))
      ∧ (∀ t, w.permNowFrom = t → w.permNowUntil = t
        → ((s.Challenge kms db w req userID clientIP).code ≠ CodeNoPermission
          ↔ ∃ p ∈ db.permissions, p.UserID = userID ∧ p.DeviceType = utf8 "lock"
            ∧ p.DeviceID = req.DeviceID ∧ p.EffectiveAt t))
      ∧ (∀ t, w.permNowFrom = t → w.permNowUntil = t
        → (∃ p ∈ db.permissions, p.UserID = userID ∧ p.DeviceType = utf8 "lock"
            ∧ p.DeviceID = req.DeviceID ∧ p.Status = 1 ∧ p.ValidFrom = t
            ∧ (p.ValidUntil = none ∨ ∃ u, p.ValidUntil = some u ∧ t < u))
        → (s.Challenge kms db w req userID clientIP).code ≠ CodeNoPermission)
      ∧ (∀ t, w.permNowFrom = t → w.permNowUntil = t
        → (∀ p ∈ db.permissions, p.UserID = userID → p.DeviceType = utf8 "lock"
            → p.DeviceID = req.DeviceID → p.ValidUntil = some t)
        → (s.Challenge kms db w req userID clientIP).code = CodeNoPermission)
      ∧ (∀ now, ∃ ds, s.GetAuthorizedDevices db now false userID = .ok ds
        ∧ ∀ d, d ∈ ds ↔ d ∈ db.devices ∧ d.DeletedAt = none ∧ d.Status ≠ 0
          ∧ ∃ p ∈ db.permissions, p.UserID = userID ∧ p.DeviceType = utf8 "lock"
            ∧ p.DeviceID = d.DeviceID ∧ p.EffectiveAt now) := by
  have hstale := stale_iff w.serverTime req.Timestamp h0 h1 hts
  have hs2 : ¬30 < (float64OfInt64 (wrapInt64 (w.serverTime - req.Timestamp))).natAbs := by
    rw [hstale]; omega
  have hid := (find_deviceWhere db req.DeviceID device hf).2.1
  have hlock : utf8 "lock" = DeviceTypeLock := rfl
  have key : (s.Challenge kms db w req userID clientIP).code ≠ CodeNoPermission
      ↔ HasPermission db userID req.DeviceID w.permNowFrom w.permNowUntil := by
    by_cases hp : HasPermission db userID req.DeviceID w.permNowFrom w.permNowUntil
    · simp only [hp, iff_true]
      have hp2 := hp
      rw [← hid] at hp2
      rw [challenge_permitted _ _ _ _ _ _ _ hc hs2 hq device hf hst hpq hp2]
      (repeat' split) <;> simp [CodeInternalError, CodeNoPermission]
    · simp only [hp, iff_false, not_not]
      have hp2 := hp
      rw [← hid] at hp2
      rw [challenge_no_permission _ _ _ _ _ _ _ hc hs2 hq device hf hst (Or.inr hp2)]
  refine ⟨key, ?_, ?_, ?_, ?_⟩
  · intro t ht1 ht2
    rw [key, ht1, ht2]
    rfl
  · rintro t ht1 ht2 ⟨p, hmem, hu, hty, hdev, hstat, hvf, hvu⟩
    rw [key, ht1, ht2]
    exact ⟨p, hmem, hu, hty, hdev, hstat, by omega, hvu⟩
  · intro t ht1 ht2 hall
    by_contra hne
    obtain ⟨p, hmem, hu, hty, hdev, _, _, hvu⟩ := key.mp hne
    have hv := hall p hmem hu hty hdev
    rw [ht2] at hvu
    rcases hvu with hvu | ⟨u, hu2, hlt⟩
    · rw [hv] at hvu; simp at hvu
    · rw [hv] at hu2
      simp only [Option.some.injEq] at hu2
      omega
  · intro now
    refine ⟨_, rfl, ?_⟩
    intro d
    simp only [List.mem_flatMap, List.mem_filter, List.mem_map, Bool.and_eq_true,
      Option.isNone_iff_eq_none, decide_eq_true_eq, authorizedJoinOn_iff, hlock]
    constructor
    · rintro ⟨a, ⟨ha, hdel, hne⟩, p, ⟨hp, hon⟩, rfl⟩
      exact ⟨ha, hdel, hne, p, hp, hon⟩
    · rintro ⟨ha, hdel, hne, p, hp, hon⟩
      exact ⟨d, ⟨ha, hdel, hne⟩, p, ⟨hp, hon⟩, rfl⟩

/-- Witness of `challenge_permission_iff`: the happy-unlock scenario, where user 7 holds a
permission on D1 from instant 100 on and the clock reads 1000. -/
theorem challenge_permission_witness :
    (IsHex16 scenarioRequest.ChallengeC ∧ (0 : Int) ≤ scenarioWorld.serverTime
      ∧ scenarioWorld.serverTime ≤ 4611686018427387904 ∧ IsInt64 scenarioRequest.Timestamp
      ∧ |scenarioWorld.serverTime - scenarioRequest.Timestamp| ≤ 30
      ∧ scenarioWorld.deviceQueryFails = false ∧ scenarioWorld.permQueryFails = false
      ∧ scenarioDB.devices.find? (deviceWhere scenarioRequest.DeviceID) = some scenarioDevice
      ∧ scenarioDevice.Status = 1)
    ∧ ((LockService.Challenge {} toyKMS scenarioDB scenarioWorld scenarioRequest 7 []).code
          ≠ CodeNoPermission
        ↔ ∃ p ∈ scenarioDB.permissions, p.UserID = 7 ∧ p.DeviceType = utf8 "lock"
          ∧ p.DeviceID = scenarioRequest.DeviceID ∧ p.Status = 1
          ∧ p.ValidFrom ≤ scenarioWorld.permNowFrom
          ∧ (p.ValidUntil = none ∨ ∃ u, p.ValidUntil = some u ∧ scenarioWorld.permNowUntil < u)) :=
  ⟨by decide,
    (challenge_permission_iff {} toyKMS scenarioDB scenarioWorld scenarioRequest 7 []
      scenarioDevice (by decide) (by decide) (by decide) (by decide) (by decide) (by decide) (by decide)
      (by decide) (by decide)).1⟩

/-! ## C8 -/

/-- C8. For every key and every data, the empty ones included, `ComputeCMAC` returns no
error and exactly 16 bytes: the leading 16 of the 32 bytes of HMAC-SHA-256 of the
data under the key. -/
theorem computeCMAC_spec (k : LocalKMS) (key data : Bytes) :
    ∃ mac, k.ComputeCMAC key data = .ok mac ∧ mac.length = 16
      ∧ (hmacSHA256 key data).length = 32
      ∧ mac = (hmacSHA256 key data).take 16
      ∧ mac <+: hmacSHA256 key data
      ∧ ∃ mac0, k.ComputeCMAC [] [] = .ok mac0 ∧ mac0.length = 16 := by
  have h : ∀ a b : Bytes, k.ComputeCMAC a b = .ok ((hmacSHA256 a b).take 16) := by
    intro a b
    simp [LocalKMS.ComputeCMAC, hmacSHA256_length]
  have hl : ∀ a b : Bytes, ((hmacSHA256 a b).take 16).length = 16 := by
    intro a b
    rw [List.length_take, hmacSHA256_length]; rfl
  exact ⟨_, h key data, hl key data, hmacSHA256_length key data, rfl, List.take_prefix _ _,
    _, h [] [], hl [] []⟩

/-! ## C9 -/

/-- C9. For every plaintext key, every master key of 32 bytes and every nonce drawn
(twelve bytes read from the random source), provided the AEAD opens what it seals
and its tag is sixteen bytes: `EncryptDeviceKey` returns the nonce followed by the
sealed key, `len(k) + 28` bytes in all; `DecryptDeviceKey` of a blob of at least
twelve bytes opens what follows byte 12 under the nonce that precedes it; and
`DecryptDeviceKey` of the wrapped key is the plaintext key. -/
theorem deviceKey_roundtrip (k : LocalKMS) (rand plainKey : Bytes)
    (hmk : k.masterKey.length = 32) (hrand : 12 ≤ rand.length)
    (hopen : ∀ key nonce pt, k.gcm.Open key nonce (k.gcm.Seal key nonce pt) = some pt)
    (htag : ∀ key nonce pt, (k.gcm.Seal key nonce pt).length = pt.length + 16) :
    ∃ blob, k.EncryptDeviceKey rand plainKey = .ok blob
      ∧ blob = rand.take 12 ++ k.gcm.Seal k.masterKey (rand.take 12) plainKey
      ∧ blob.length = plainKey.length + 28
      ∧ (∀ b : Bytes, 12 ≤ b.length → k.DecryptDeviceKey b =
          match k.gcm.Open k.masterKey (b.take 12) (b.drop 12) with
          | some plain => .ok plain
          | none => .error .openFailed)
      ∧ k.DecryptDeviceKey blob = .ok plainKey := by
  have hks : aesKeySizeOK k.masterKey = true := by simp [aesKeySizeOK, hmk]
  have hnl : (rand.take 12).length = 12 := by
    rw [List.length_take]; omega
  have hdec : ∀ b : Bytes, 12 ≤ b.length → k.DecryptDeviceKey b =
      match k.gcm.Open k.masterKey (b.take 12) (b.drop 12) with
      | some plain => .ok plain
      | none => .error .openFailed := by
    intro b hb
    simp only [LocalKMS.DecryptDeviceKey, hks, gcmNonceSize, Bool.not_true, Bool.false_eq_true,
      if_false]
    rw [if_neg (by omega)]
  refine ⟨_, ?_, rfl, ?_, hdec, ?_⟩
  · simp only [LocalKMS.EncryptDeviceKey, hks, gcmNonceSize, Bool.not_true, Bool.false_eq_true,
      if_false]
    rw [if_neg (by omega)]
  · rw [List.length_append, hnl, htag]; omega
  · rw [hdec _ (by rw [List.length_append, hnl]; omega)]
    rw [List.take_append_of_le_length (by omega), List.take_of_length_le (by omega),
      List.drop_append_of_le_length (by omega), List.drop_of_length_le (by omega),
      List.nil_append, hopen]

theorem toyGCM_open_seal (key nonce pt : Bytes) :
    toyGCM.Open key nonce (toyGCM.Seal key nonce pt) = some pt := by
  simp [toyGCM]

/-- Witness of `deviceKey_roundtrip`: the key of the scenario wrapped by `toyKMS` under the nonce
0, 1, ..., 11. -/
theorem deviceKey_roundtrip_witness :
    (toyKMS.masterKey.length = 32 ∧ 12 ≤ (List.range 12).length)
    ∧ ∃ blob, toyKMS.EncryptDeviceKey (List.range 12) scenarioKey = .ok blob
      ∧ blob = (List.range 12).take 12
          ++ toyKMS.gcm.Seal toyKMS.masterKey ((List.range 12).take 12) scenarioKey
      ∧ blob.length = scenarioKey.length + 28
      ∧ (∀ b : Bytes, 12 ≤ b.length → toyKMS.DecryptDeviceKey b =
          match toyKMS.gcm.Open toyKMS.masterKey (b.take 12) (b.drop 12) with
          | some plain => .ok plain
          | none => .error .openFailed)
      ∧ toyKMS.DecryptDeviceKey blob = .ok scenarioKey :=
  ⟨by decide,
    deviceKey_roundtrip toyKMS (List.range 12) scenarioKey (by decide) (by decide)
      toyGCM_open_seal (fun _ _ pt => by simp [toyKMS, toyGCM])⟩

/-! ## Lemmas on the fail-count store and on `Report` -/

theorem find_map_hasKey (rows : List DeviceFailCount) (deviceType deviceID : Bytes)
    (f : DeviceFailCount → DeviceFailCount)
    (hf : ∀ r, (f r).hasKey deviceType deviceID = r.hasKey deviceType deviceID) :
    (rows.map f).find? (fun r => r.hasKey deviceType deviceID)
      = (rows.find? (fun r => r.hasKey deviceType deviceID)).map f := by
  induction rows with
  | nil => rfl
  | cons r t ih =>
    simp only [List.map_cons, List.find?_cons, hf]
    cases r.hasKey deviceType deviceID with
    | true => rfl
    | false => exact ih

/-- Without a fault `Increment` returns the count read by `Get` plus one, leaves
that count stored, and touches no other table. -/
theorem increment_spec (db : DB) (now : Int) (deviceType deviceID : Bytes) :
    (PostgresDeviceFailStore.Increment db now false deviceType deviceID).2.1
        = PostgresDeviceFailStore.Get db deviceType deviceID + 1
      ∧ PostgresDeviceFailStore.Get
          (PostgresDeviceFailStore.Increment db now false deviceType deviceID).1
          deviceType deviceID
        = PostgresDeviceFailStore.Get db deviceType deviceID + 1
      ∧ (PostgresDeviceFailStore.Increment db now false deviceType deviceID).1.devices
        = db.devices
      ∧ (PostgresDeviceFailStore.Increment db now false deviceType deviceID).1.alerts
        = db.alerts := by
  unfold PostgresDeviceFailStore.Increment PostgresDeviceFailStore.Get
  simp only [Bool.false_eq_true, if_false]
  cases hfind : db.failCounts.find? (fun r => r.hasKey deviceType deviceID) with
  | some row =>
    refine ⟨rfl, ?_, rfl, rfl⟩
    simp only
    rw [find_map_hasKey _ _ _ _ (by
      intro r
      by_cases hk : r.hasKey deviceType deviceID = true
      · simp only [hk, if_true]
        simpa [DeviceFailCount.hasKey] using hk
      · simp [hk]), hfind]
    have hk := List.find?_some hfind
    simp only at hk
    simp [hk]
  | none =>
    refine ⟨by simp, ?_, rfl, rfl⟩
    simp only
    rw [List.find?_append, hfind]
    simp [DeviceFailCount.hasKey]

/-- Without a fault `triggerAlertLock` sets the status of every non-deleted row of
the device to 2 and leaves the other device rows alone, appends an open alert of
type consecutive_fail and severity 3, and leaves a fail count of zero. -/
theorem triggerAlertLock_spec (s : LockService) (db : DB) (deviceID : Bytes) (userID : Int)
    (failCount : Int) :
    (s.triggerAlertLock db false deviceID userID failCount).1.devices
        = db.devices.map (fun d => if deviceWhere deviceID d then { d with Status := 2 } else d)
      ∧ (s.triggerAlertLock db false deviceID userID failCount).1.alerts
        = db.alerts ++
          [{ ID := nextAlertID db, AlertType := utf8 "consecutive_fail",
             DeviceType := DeviceTypeLock, DeviceID := deviceID, UserID := some userID,
             Severity := 3, Status := 0, FailCount := failCount }]
      ∧ PostgresDeviceFailStore.Get (s.triggerAlertLock db false deviceID userID failCount).1
          DeviceTypeLock deviceID = 0 := by
  refine ⟨rfl, rfl, ?_⟩
  simp only [LockService.triggerAlertLock, Bool.false_eq_true, if_false,
    PostgresDeviceFailStore.Get]
  rw [find_map_hasKey _ _ _ _ (by
    intro r
    by_cases hk : r.hasKey DeviceTypeLock deviceID = true
    · simp only [hk, if_true]
      simpa [DeviceFailCount.hasKey] using hk
    · simp [hk])]
  cases hfind : db.failCounts.find? (fun r => r.hasKey DeviceTypeLock deviceID) with
  | none => rfl
  | some row =>
    have hk := List.find?_some hfind
    simp only at hk
    simp [hk]

/-- The database left by a fail report when no store operation fails. -/
theorem report_fail_db (s : LockService) (db : DB) (w : ReportWorld) (req : ReportRequest)
    (userID : Int) (clientIP : Bytes) (hres : req.Result = utf8 "fail")
    (hinc : w.incrementFails = false) (htx : w.alertTxFails = false) :
    (s.Report db w req userID clientIP).db =
      if PostgresDeviceFailStore.Get db DeviceTypeLock req.DeviceID + 1 ≥ 3 then
        (s.triggerAlertLock
          (PostgresDeviceFailStore.Increment db w.now false DeviceTypeLock req.DeviceID).1 false
          req.DeviceID userID
          (PostgresDeviceFailStore.Get db DeviceTypeLock req.DeviceID + 1)).1
      else (PostgresDeviceFailStore.Increment db w.now false DeviceTypeLock req.DeviceID).1 := by
  have hsp := (increment_spec db w.now DeviceTypeLock req.DeviceID).1
  simp only [LockService.Report, hres, hinc, htx, decide_True, if_true, hsp]
  split <;> rfl

/-! ## C10 -/

/-- C10. For every device row that exists, is not deleted and is active, and whose fail
count is 0, after three consecutive `Report` calls with result "fail" for that
device, no store operation failing: the device row has status 2, as has every
non-deleted row with its device id; an alert row for the device exists with type
consecutive_fail, device type lock, severity 3 and status 0; and the fail count of
the device is 0. -/
theorem three_fails_quarantine (s : LockService) (db : DB) (d : Device)
    (w1 w2 w3 : ReportWorld) (r1 r2 r3 : ReportRequest) (u1 u2 u3 : Int)
    (ip1 ip2 ip3 : Bytes)
    (hd : d ∈ db.devices) (hdel : d.DeletedAt = none) (_hact : d.Status = 1)
    (hcount : PostgresDeviceFailStore.Get db DeviceTypeLock d.DeviceID = 0)
    (hr1 : r1.DeviceID = d.DeviceID ∧ r1.Result = utf8 "fail")
    (hr2 : r2.DeviceID = d.DeviceID ∧ r2.Result = utf8 "fail")
    (hr3 : r3.DeviceID = d.DeviceID ∧ r3.Result = utf8 "fail")
    (hw1 : w1.incrementFails = false ∧ w1.alertTxFails = false)
    (hw2 : w2.incrementFails = false ∧ w2.alertTxFails = false)
    (hw3 : w3.incrementFails = false ∧ w3.alertTxFails = false) :
    { d with Status := 2 } ∈
        (s.Report (s.Report (s.Report db w1 r1 u1 ip1).db w2 r2 u2 ip2).db w3 r3 u3 ip3).db.devices
      ∧ (∀ x ∈
          (s.Report (s.Report (s.Report db w1 r1 u1 ip1).db w2 r2 u2 ip2).db w3 r3 u3 ip3).db.devices,
          x.DeviceID = d.DeviceID → x.DeletedAt = none → x.Status = 2)
      ∧ (∃ a ∈
          (s.Report (s.Report (s.Report db w1 r1 u1 ip1).db w2 r2 u2 ip2).db w3 r3 u3 ip3).db.alerts,
          a.AlertType = utf8 "consecutive_fail" ∧ a.DeviceType = utf8 "lock"
            ∧ a.DeviceID = d.DeviceID ∧ a.Severity = 3 ∧ a.Status = 0)
      ∧ PostgresDeviceFailStore.Get
          (s.Report (s.Report (s.Report db w1 r1 u1 ip1).db w2 r2 u2 ip2).db w3 r3 u3 ip3).db
          DeviceTypeLock d.DeviceID = 0 := by
  -- first report: the count goes from 0 to 1
  have e1 := report_fail_db s db w1 r1 u1 ip1 hr1.2 hw1.1 hw1.2
  rw [hr1.1, hcount, if_neg (by decide)] at e1
  obtain ⟨_, g1, dv1, _⟩ := increment_spec db w1.now DeviceTypeLock d.DeviceID
  rw [hcount] at g1
  rw [← e1] at g1 dv1
  generalize (s.Report db w1 r1 u1 ip1).db = db1 at g1 dv1 ⊢
  -- second report: from 1 to 2
  have e2 := report_fail_db s db1 w2 r2 u2 ip2 hr2.2 hw2.1 hw2.2
  rw [hr2.1, g1, if_neg (by decide)] at e2
  obtain ⟨_, g2, dv2, _⟩ := increment_spec db1 w2.now DeviceTypeLock d.DeviceID
  rw [g1] at g2
  rw [← e2] at g2 dv2
  generalize (s.Report db1 w2 r2 u2 ip2).db = db2 at g2 dv2 ⊢
  -- third report: the count reaches 3 and the alert lock is triggered
  have e3 := report_fail_db s db2 w3 r3 u3 ip3 hr3.2 hw3.1 hw3.2
  rw [hr3.1, g2, if_pos (by decide)] at e3
  obtain ⟨_, _, dv3, _⟩ := increment_spec db2 w3.now DeviceTypeLock d.DeviceID
  obtain ⟨t1, t2, t3⟩ := triggerAlertLock_spec s
    (PostgresDeviceFailStore.Increment db2 w3.now false DeviceTypeLock d.DeviceID).1
    d.DeviceID u3 (0 + 1 + 1 + 1)
  rw [← e3] at t1 t2 t3
  rw [dv3, dv2, dv1] at t1
  generalize (s.Report db2 w3 r3 u3 ip3).db = db3 at t1 t2 t3 ⊢
  have hwhere : deviceWhere d.DeviceID d = true := by simp [deviceWhere, hdel]
  refine ⟨?_, ?_, ?_, t3⟩
  · rw [t1, List.mem_map]
    exact ⟨d, hd, by rw [if_pos hwhere]⟩
  · intro x hx hid hxdel
    rw [t1, List.mem_map] at hx
    obtain ⟨y, _, hy⟩ := hx
    by_cases hwy : deviceWhere d.DeviceID y = true
    · rw [if_pos hwy] at hy
      rw [← hy]
    · rw [if_neg hwy] at hy
      subst hy
      exact absurd (by simp [deviceWhere, hid, hxdel]) hwy
  · rw [t2]
    exact ⟨_, List.mem_append_right _ (List.mem_singleton.mpr rfl), rfl, rfl, rfl, rfl, rfl⟩

/-- Witness of `three_fails_quarantine`: three fail reports on device D1 of the scenario, which
has no fail-count row yet, by users 7, 7 and 9. -/
theorem three_fails_quarantine_witness :
    (scenarioDevice ∈ scenarioDB.devices ∧ scenarioDevice.DeletedAt = none
      ∧ scenarioDevice.Status = 1
      ∧ PostgresDeviceFailStore.Get scenarioDB DeviceTypeLock scenarioDevice.DeviceID = 0)
    ∧ { scenarioDevice with Status := 2 } ∈
        (LockService.Report {} (LockService.Report {} (LockService.Report {} scenarioDB {}
          { DeviceID := utf8 "D1", Result := utf8 "fail" } 7 []).db {}
          { DeviceID := utf8 "D1", Result := utf8 "fail" } 7 []).db {}
          { DeviceID := utf8 "D1", Result := utf8 "fail" } 9 []).db.devices
    ∧ (∀ x ∈
        (LockService.Report {} (LockService.Report {} (LockService.Report {} scenarioDB {}
          { DeviceID := utf8 "D1", Result := utf8 "fail" } 7 []).db {}
          { DeviceID := utf8 "D1", Result := utf8 "fail" } 7 []).db {}
          { DeviceID := utf8 "D1", Result := utf8 "fail" } 9 []).db.devices,
        x.DeviceID = scenarioDevice.DeviceID → x.DeletedAt = none → x.Status = 2)
    ∧ (∃ a ∈
        (LockService.Report {} (LockService.Report {} (LockService.Report {} scenarioDB {}
          { DeviceID := utf8 "D1", Result := utf8 "fail" } 7 []).db {}
          { DeviceID := utf8 "D1", Result := utf8 "fail" } 7 []).db {}
          { DeviceID := utf8 "D1", Result := utf8 "fail" } 9 []).db.alerts,
        a.AlertType = utf8 "consecutive_fail" ∧ a.DeviceType = utf8 "lock"
          ∧ a.DeviceID = scenarioDevice.DeviceID ∧ a.Severity = 3 ∧ a.Status = 0)
    ∧ PostgresDeviceFailStore.Get
        (LockService.Report {} (LockService.Report {} (LockService.Report {} scenarioDB {}
          { DeviceID := utf8 "D1", Result := utf8 "fail" } 7 []).db {}
          { DeviceID := utf8 "D1", Result := utf8 "fail" } 7 []).db {}
          { DeviceID := utf8 "D1", Result := utf8 "fail" } 9 []).db
        DeviceTypeLock scenarioDevice.DeviceID = 0 :=
  ⟨by decide,
    three_fails_quarantine {} scenarioDB scenarioDevice {} {} {}
      { DeviceID := utf8 "D1", Result := utf8 "fail" }
      { DeviceID := utf8 "D1", Result := utf8 "fail" }
      { DeviceID := utf8 "D1", Result := utf8 "fail" } 7 7 9 [] [] []
      (by decide) (by decide) (by decide) (by decide) (by decide) (by decide) (by decide)
      (by decide) (by decide) (by decide)⟩

/-! ## C11 -/

theorem get_of_failCounts (db1 db2 : DB) (deviceType deviceID : Bytes)
    (h : db1.failCounts = db2.failCounts) :
    PostgresDeviceFailStore.Get db1 deviceType deviceID
      = PostgresDeviceFailStore.Get db2 deviceType deviceID := by
  simp only [PostgresDeviceFailStore.Get, h]

theorem hasKey_other (r : DeviceFailCount) (k1 k2 deviceType deviceID : Bytes)
    (hne : ¬ (deviceType = k1 ∧ deviceID = k2)) (h : r.hasKey deviceType deviceID = true) :
    r.hasKey k1 k2 = false := by
  simp only [DeviceFailCount.hasKey, Bool.and_eq_true, decide_eq_true_eq] at h
  simp only [DeviceFailCount.hasKey, Bool.and_eq_false_imp, decide_eq_true_eq,
    decide_eq_false_iff_not]
  intro h1 h2
  exact hne ⟨by rw [← h.1, h1], by rw [← h.2, h2]⟩

/-- A rewriting of the rows with one key leaves the count stored under any other
key as it was. -/
theorem get_map_other (db1 db : DB) (k1 k2 deviceType deviceID : Bytes)
    (g : DeviceFailCount → DeviceFailCount)
    (hg : ∀ r, (g r).DeviceType = r.DeviceType ∧ (g r).DeviceID = r.DeviceID)
    (h1 : db1.failCounts
      = db.failCounts.map (fun r => if r.hasKey k1 k2 then g r else r))
    (hne : ¬ (deviceType = k1 ∧ deviceID = k2)) :
    PostgresDeviceFailStore.Get db1 deviceType deviceID
      = PostgresDeviceFailStore.Get db deviceType deviceID := by
  simp only [PostgresDeviceFailStore.Get, h1]
  rw [find_map_hasKey _ _ _ _ (by
    intro r
    by_cases hk : r.hasKey k1 k2 = true
    · rw [if_pos hk]
      simp only [DeviceFailCount.hasKey, (hg r).1, (hg r).2]
    · rw [if_neg hk])]
  cases hfind : db.failCounts.find? (fun r => r.hasKey deviceType deviceID) with
  | none => rfl
  | some row =>
    have hk := List.find?_some hfind
    simp only at hk
    have := hasKey_other row k1 k2 deviceType deviceID hne hk
    simp [this]

theorem increment_other (db : DB) (now : Int) (fails : Bool) (k1 k2 deviceType deviceID : Bytes)
    (hne : ¬ (deviceType = k1 ∧ deviceID = k2)) :
    PostgresDeviceFailStore.Get (PostgresDeviceFailStore.Increment db now fails k1 k2).1
        deviceType deviceID
      = PostgresDeviceFailStore.Get db deviceType deviceID := by
  unfold PostgresDeviceFailStore.Increment
  split
  · rfl
  · split
    · exact get_map_other _ db k1 k2 deviceType deviceID
        (fun r => { r with Count := r.Count + 1, LastFailAt := now }) (fun _ => ⟨rfl, rfl⟩) rfl hne
    · simp only [PostgresDeviceFailStore.Get, List.find?_append]
      have hn : [({ DeviceType := k1, DeviceID := k2, Count := 1, LastFailAt := now } :
          DeviceFailCount)].find? (fun r => r.hasKey deviceType deviceID) = none := by
        rw [List.find?_eq_none]
        intro r hr
        rw [List.mem_singleton] at hr
        rw [hr]
        simp only [DeviceFailCount.hasKey, Bool.and_eq_true, decide_eq_true_eq]
        intro hx
        exact hne ⟨hx.1.symm, hx.2.symm⟩
      rw [hn, Option.or_none]

theorem increment_fails (db : DB) (now : Int) (k1 k2 : Bytes) :
    PostgresDeviceFailStore.Increment db now true k1 k2 = (db, 0, true) := by
  simp only [PostgresDeviceFailStore.Increment, if_true]

/-- The fail counts that `Report` leaves: those of the increment, with the count of
the device set to zero when the report reaches AlertLock and its transaction does
not fail, or those of the reset. -/
theorem report_failCounts (s : LockService) (db : DB) (w : ReportWorld) (req : ReportRequest)
    (userID : Int) (clientIP : Bytes) :
    (s.Report db w req userID clientIP).db.failCounts
      = if req.Result = utf8 "fail" then
          (if (PostgresDeviceFailStore.Increment db w.now w.incrementFails DeviceTypeLock
                  req.DeviceID).2.1 ≥ 3 ∧ w.alertTxFails = false then
            (PostgresDeviceFailStore.Increment db w.now w.incrementFails DeviceTypeLock
              req.DeviceID).1.failCounts.map (fun r =>
                if r.hasKey DeviceTypeLock req.DeviceID then { r with Count := 0 } else r)
           else
            (PostgresDeviceFailStore.Increment db w.now w.incrementFails DeviceTypeLock
              req.DeviceID).1.failCounts)
        else
          (PostgresDeviceFailStore.Reset db w.resetFails DeviceTypeLock req.DeviceID).1.failCounts
            := by
  by_cases hres : req.Result = utf8 "fail"
  · rw [if_pos hres]
    by_cases hc : (PostgresDeviceFailStore.Increment db w.now w.incrementFails DeviceTypeLock
        req.DeviceID).2.1 ≥ 3
    · cases htx : w.alertTxFails with
      | false =>
        rw [if_pos ⟨hc, rfl⟩]
        simp only [LockService.Report, hres, decide_True, if_true, hc, htx,
          LockService.triggerAlertLock, Bool.false_eq_true, if_false]
      | true =>
        rw [if_neg (by simp)]
        simp only [LockService.Report, hres, decide_True, if_true, hc, htx,
          LockService.triggerAlertLock]
    · rw [if_neg (fun h => hc h.1)]
      simp only [LockService.Report, hres, decide_True, if_true, hc, if_false]
  · rw [if_neg hres]
    simp only [LockService.Report, hres, decide_False, Bool.false_eq_true, if_false]
    split <;> rfl

theorem reset_failCounts (db : DB) (fails : Bool) (k1 k2 : Bytes) :
    (PostgresDeviceFailStore.Reset db fails k1 k2).1.failCounts
      = if fails then db.failCounts
        else db.failCounts.map (fun r => if r.hasKey k1 k2 then { r with Count := 0 } else r) := by
  unfold PostgresDeviceFailStore.Reset
  split <;> rfl

/-- A positive fail count that is zero after a `Report` is the count of the lock of
the report, and the report either has a result other than "fail" and its reset does
not fail, or reaches AlertLock and the transaction does not fail. -/
theorem report_zero_paths (s : LockService) (db : DB) (w : ReportWorld) (req : ReportRequest)
    (userID : Int) (clientIP : Bytes) (deviceType deviceID : Bytes)
    (hpos : 0 < PostgresDeviceFailStore.Get db deviceType deviceID)
    (hz : PostgresDeviceFailStore.Get (s.Report db w req userID clientIP).db deviceType
      deviceID = 0) :
    deviceType = DeviceTypeLock ∧ deviceID = req.DeviceID
      ∧ ((req.Result ≠ utf8 "fail" ∧ w.resetFails = false)
        ∨ (ReachesAlertLock db w req ∧ w.alertTxFails = false)) := by
  have hfc := report_failCounts s db w req userID clientIP
  by_cases hk : deviceType = DeviceTypeLock ∧ deviceID = req.DeviceID
  · refine ⟨hk.1, hk.2, ?_⟩
    rw [hk.1, hk.2] at hpos hz
    by_cases hres : req.Result = utf8 "fail"
    · right
      rw [if_pos hres] at hfc
      by_cases hc : (PostgresDeviceFailStore.Increment db w.now w.incrementFails DeviceTypeLock
          req.DeviceID).2.1 ≥ 3 ∧ w.alertTxFails = false
      · exact ⟨⟨hres, hc.1⟩, hc.2⟩
      · exfalso
        rw [if_neg hc] at hfc
        rw [get_of_failCounts _ _ _ _ hfc] at hz
        cases hif : w.incrementFails with
        | true =>
          simp only [hif, increment_fails] at hz
          omega
        | false =>
          rw [hif, (increment_spec db w.now DeviceTypeLock req.DeviceID).2.1] at hz
          omega
    · left
      refine ⟨hres, ?_⟩
      rw [if_neg hres, reset_failCounts] at hfc
      cases hrf : w.resetFails with
      | false => rfl
      | true =>
        exfalso
        rw [hrf, if_pos rfl] at hfc
        rw [get_of_failCounts _ _ _ _ hfc] at hz
        omega
  · exfalso
    have hsame : PostgresDeviceFailStore.Get (s.Report db w req userID clientIP).db deviceType
        deviceID = PostgresDeviceFailStore.Get db deviceType deviceID := by
      by_cases hres : req.Result = utf8 "fail"
      · rw [if_pos hres] at hfc
        split at hfc
        · rw [get_map_other _ _ DeviceTypeLock req.DeviceID deviceType deviceID
            (fun r => { r with Count := 0 }) (fun _ => ⟨rfl, rfl⟩) hfc hk]
          exact increment_other db w.now w.incrementFails _ _ _ _ hk
        · rw [get_of_failCounts _ _ _ _ hfc]
          exact increment_other db w.now w.incrementFails _ _ _ _ hk
      · rw [if_neg hres, reset_failCounts] at hfc
        split at hfc
        · exact get_of_failCounts _ _ _ _ hfc
        · exact get_map_other _ db DeviceTypeLock req.DeviceID deviceType deviceID
            (fun r => { r with Count := 0 }) (fun _ => ⟨rfl, rfl⟩) hfc hk
    omega

theorem logOperation_failCounts (s : AdminService) (db : DB) (fails : Bool) (operatorID : Int)
    (action targetType : Bytes) (targetID : Int) :
    (s.logOperation db fails operatorID action targetType targetID).failCounts
      = db.failCounts := by
  unfold AdminService.logOperation
  split <;> rfl

theorem deleteByUserID_failCounts (db : DB) (fails : Bool) (userID : Int) :
    (PostgresSessionStore.DeleteByUserID db fails userID).1.failCounts = db.failCounts := by
  unfold PostgresSessionStore.DeleteByUserID
  split <;> rfl

theorem login_failCounts (s : AuthService) (db : DB) (w : LoginWorld) (req : LoginRequest)
    (userAgent ipAddress : Bytes) :
    (s.Login db w req userAgent ipAddress).db.failCounts = db.failCounts := by
  have hc : ∀ (fails : Bool) (x : Session),
      (PostgresSessionStore.Create db fails x).1.failCounts = db.failCounts := by
    intro fails x
    unfold PostgresSessionStore.Create
    split <;> rfl
  unfold AuthService.Login
  simp only []
  repeat' split
  all_goals first | rfl | exact hc _ _

theorem logout_failCounts (s : AuthService) (db : DB) (fails : Bool) (jti : Bytes) :
    (s.Logout db fails jti).1.failCounts = db.failCounts := by
  unfold AuthService.Logout PostgresSessionStore.DeleteByJTI
  split <;> rfl

theorem challenge_failCounts (sv : Services) (db : DB) (w : ChallengeWorld)
    (req : ChallengeRequest) (userID : Int) (clientIP : Bytes) (touchNow : Int)
    (touchFails : Bool) :
    ((sv.lock.Challenge sv.kms db w req userID clientIP).spawned.foldl
      (runStmt touchNow touchFails) db).failCounts = db.failCounts := by
  have hs : (sv.lock.Challenge sv.kms db w req userID clientIP).spawned = []
      ∨ (sv.lock.Challenge sv.kms db w req userID clientIP).spawned
        = [.touchDevice req.DeviceID] := by
    unfold LockService.Challenge
    simp only []
    repeat' split
    all_goals simp
  rcases hs with hs | hs
  · rw [hs]
    rfl
  · rw [hs]
    simp only [List.foldl, runStmt]
    split <;> rfl

theorem createUser_failCounts (s : AdminService) (db : DB) (w : AdminWorld)
    (req : CreateUserRequest) (operatorID : Int) :
    (s.CreateUser db w req operatorID).db.failCounts = db.failCounts := by
  unfold AdminService.CreateUser
  simp only []
  repeat' split
  all_goals first | rfl | (simp only [logOperation_failCounts])

theorem updateUser_failCounts (s : AdminService) (db : DB) (w : AdminWorld) (userUUID : Bytes)
    (req : UpdateUserRequest) (operatorID : Int) :
    (s.UpdateUser db w userUUID req operatorID).db.failCounts = db.failCounts := by
  unfold AdminService.UpdateUser
  simp only []
  repeat' split
  all_goals first | rfl | (simp only [logOperation_failCounts, deleteByUserID_failCounts])

theorem resetPassword_failCounts (s : AdminService) (db : DB) (w : AdminWorld)
    (userUUID : Bytes) (operatorID : Int) :
    (s.ResetPassword db w userUUID operatorID).db.failCounts = db.failCounts := by
  unfold AdminService.ResetPassword
  simp only []
  repeat' split
  all_goals first | rfl | (simp only [logOperation_failCounts, deleteByUserID_failCounts])

theorem createDevice_failCounts (s : AdminService) (kms : LocalKMS) (db : DB) (w : AdminWorld)
    (req : CreateDeviceRequest) (operatorID : Int) :
    (s.CreateDevice kms db w req operatorID).db.failCounts = db.failCounts := by
  unfold AdminService.CreateDevice
  simp only []
  repeat' split
  all_goals first | rfl | (simp only [logOperation_failCounts])

theorem grantPermission_failCounts (s : AdminService) (db : DB) (w : AdminWorld)
    (req : GrantPermissionRequest) (operatorID : Int) :
    (s.GrantPermission db w req operatorID).db.failCounts = db.failCounts := by
  unfold AdminService.GrantPermission
  simp only []
  repeat' split
  all_goals first | rfl | (simp only [logOperation_failCounts])

theorem batchGrantPermissions_failCounts (s : AdminService) :
    ∀ (reqs : List (AdminWorld × GrantPermissionRequest)) (db : DB) (operatorID : Int),
      (s.BatchGrantPermissions db reqs operatorID).db.failCounts = db.failCounts := by
  intro reqs
  induction reqs with
  | nil => intro db operatorID; rfl
  | cons a rest ih =>
    intro db operatorID
    obtain ⟨w, p⟩ := a
    unfold AdminService.BatchGrantPermissions
    simp only []
    split
    · exact grantPermission_failCounts s db w p operatorID
    · rw [ih, grantPermission_failCounts]

theorem revokePermission_failCounts (s : AdminService) (db : DB) (w : AdminWorld)
    (permID : Int) (operatorID : Int) :
    (s.RevokePermission db w permID operatorID).db.failCounts = db.failCounts := by
  unfold AdminService.RevokePermission
  simp only []
  repeat' split
  all_goals first | rfl | (simp only [logOperation_failCounts])

theorem handleAlert_keeps_failCounts (s : AdminService) (db : DB) (w : AdminWorld)
    (alertID : Int) (req : HandleAlertRequest) (operatorID : Int) :
    (s.HandleAlert db w alertID req operatorID).db.failCounts = db.failCounts := by
  unfold AdminService.HandleAlert AdminService.logOperation
  split
  · rfl
  · simp only []
    split_ifs <;> rfl

theorem auth_failCounts (secret : Bytes) (db : DB) (w : AuthWorld) (header : Bytes) :
    (Auth secret db w header).db.failCounts = db.failCounts := by
  unfold Auth
  simp only []
  repeat' split
  all_goals first | rfl | (simp only [deleteByUserID_failCounts])

theorem rateLimiter_failCounts (cfg : RateLimitConfig) (db : DB) (w : GateWorld)
    (c : RequestCtx) :
    (RateLimiter cfg db w c).2.failCounts = db.failCounts := by
  have hi : ∀ (key : Bytes),
      (incrementRateLimit db w.dbNow w.upsertFails key cfg.WindowSecs).1.failCounts
        = db.failCounts := by
    intro key
    unfold incrementRateLimit
    repeat' split
    all_goals rfl
  unfold RateLimiter
  simp only []
  repeat' split
  all_goals first | rfl | exact hi _

/-- C12 (amended). `HandleAlert` writes no fail count: after `HandleAlert`, with or
without `unlock_device`, whether it succeeds or not, the rows of the fail counts are
as before, and so is the fail count of every device. More: every service operation
other than `Report` (`Login`, `Logout`, `Challenge`, `GetAuthorizedDevices`,
`GetDeviceList` and the operations of the admin service) leaves the rows of the fail
counts as they were, and so do the `Auth` gateway and the rate gate. And a positive
fail count that is zero after a `Report` is the count of the lock of that report,
and the report either has a result other than "fail", with a reset that does not
fail, or is a report of a failure that reaches `triggerAlertLock`, with a
transaction that does not fail. -/
theorem fail_count_reset_paths :
    (∀ (s : AdminService) (db : DB) (w : AdminWorld) (alertID : Int)
        (req : HandleAlertRequest) (operatorID : Int),
        (s.HandleAlert db w alertID req operatorID).db.failCounts = db.failCounts
          ∧ ∀ deviceType deviceID : Bytes,
              PostgresDeviceFailStore.Get (s.HandleAlert db w alertID req operatorID).db
                deviceType deviceID
              = PostgresDeviceFailStore.Get db deviceType deviceID)
      ∧ (∀ (sv : Services) (db : DB) (op : Op),
          (∀ w req userID clientIP, op ≠ .report w req userID clientIP) →
          (op.run sv db).failCounts = db.failCounts
            ∧ ∀ deviceType deviceID : Bytes,
                PostgresDeviceFailStore.Get (op.run sv db) deviceType deviceID
                  = PostgresDeviceFailStore.Get db deviceType deviceID)
      ∧ (∀ (sv : Services) (db : DB) (w : ReportWorld) (req : ReportRequest) (userID : Int)
          (clientIP : Bytes) (deviceType deviceID : Bytes),
          0 < PostgresDeviceFailStore.Get db deviceType deviceID →
          PostgresDeviceFailStore.Get (Op.run sv db (.report w req userID clientIP)) deviceType
            deviceID = 0 →
          deviceType = DeviceTypeLock ∧ deviceID = req.DeviceID
            ∧ ((req.Result ≠ utf8 "fail" ∧ w.resetFails = false)
              ∨ (ReachesAlertLock db w req ∧ w.alertTxFails = false)))
      ∧ (∀ (secret : Bytes) (db : DB) (w : AuthWorld) (header : Bytes),
          (Auth secret db w header).db.failCounts = db.failCounts)
      ∧ (∀ (cfg : RateLimitConfig) (db : DB) (w : GateWorld) (c : RequestCtx),
          (RateLimiter cfg db w c).2.failCounts = db.failCounts) := by
  refine ⟨?_, ?_, ?_, auth_failCounts, rateLimiter_failCounts⟩
  · intro s db w alertID req operatorID
    have h := handleAlert_keeps_failCounts s db w alertID req operatorID
    exact ⟨h, fun deviceType deviceID => get_of_failCounts _ _ _ _ h⟩
  · intro sv db op hop
    have h : (op.run sv db).failCounts = db.failCounts := by
      cases op with
      | login w req userAgent ipAddress => exact login_failCounts _ _ _ _ _ _
      | logout fails jti => exact logout_failCounts _ _ _ _
      | challenge w req userID clientIP touchNow touchFails =>
        exact challenge_failCounts sv db w req userID clientIP touchNow touchFails
      | report w req userID clientIP => exact absurd rfl (hop w req userID clientIP)
      | getAuthorizedDevices now fails userID => rfl
      | getDeviceList => rfl
      | createUser w req operatorID => exact createUser_failCounts _ _ _ _ _
      | updateUser w userUUID req operatorID => exact updateUser_failCounts _ _ _ _ _ _
      | resetPassword w userUUID operatorID => exact resetPassword_failCounts _ _ _ _ _
      | listUsers => rfl
      | createDevice w req operatorID => exact createDevice_failCounts _ _ _ _ _ _
      | grantPermission w req operatorID => exact grantPermission_failCounts _ _ _ _ _
      | batchGrantPermissions reqs operatorID =>
        exact batchGrantPermissions_failCounts _ _ _ _
      | revokePermission w permID operatorID => exact revokePermission_failCounts _ _ _ _ _
      | handleAlert w alertID req operatorID => exact handleAlert_keeps_failCounts _ _ _ _ _ _
      | listAlerts => rfl
      | getDashboard => rfl
      | listAuditLogs => rfl
      | listPermissions => rfl
    exact ⟨h, fun deviceType deviceID => get_of_failCounts _ _ _ _ h⟩
  · intro sv db w req userID clientIP deviceType deviceID hpos hz
    exact report_zero_paths sv.lock db w req userID clientIP deviceType deviceID hpos hz

/-- Witness for C12: the lock "L1" of `scenarioAlertDB` has the fail count 2. A
report of a success sets it to zero, by the reset; a report of a failure sets it to
zero, by AlertLock. -/
theorem fail_count_reset_paths_witness :
    PostgresDeviceFailStore.Get
        (Op.run toyServices scenarioAlertDB
          (.report {} { DeviceID := utf8 "L1", Result := utf8 "success" } 7 []))
        DeviceTypeLock (utf8 "L1") = 0
      ∧ PostgresDeviceFailStore.Get
        (Op.run toyServices scenarioAlertDB
          (.report {} { DeviceID := utf8 "L1", Result := utf8 "fail" } 7 []))
        DeviceTypeLock (utf8 "L1") = 0
      ∧ (DeviceTypeLock = DeviceTypeLock ∧ utf8 "L1" = utf8 "L1"
        ∧ ((utf8 "fail" ≠ utf8 "fail" ∧ ({} : ReportWorld).resetFails = false)
          ∨ (ReachesAlertLock scenarioAlertDB {}
              { DeviceID := utf8 "L1", Result := utf8 "fail" }
            ∧ ({} : ReportWorld).alertTxFails = false))) :=
  ⟨by decide, by decide,
   fail_count_reset_paths.2.2.1 toyServices scenarioAlertDB {}
    { DeviceID := utf8 "L1", Result := utf8 "fail" } 7 [] DeviceTypeLock (utf8 "L1")
    (by decide) (by decide)⟩

/-- C12, counterexample. The lock "L1" is quarantined, its `consecutive_fail` alert
is open and its fail count is 2. `HandleAlert` with `unlock_device = true` succeeds
and sets the lock active; the fail count is still 2. -/
theorem handle_alert_keeps_fail_count :
    PostgresDeviceFailStore.Get scenarioAlertDB DeviceTypeLock (utf8 "L1") = 2
      ∧ (toyServices.admin.HandleAlert scenarioAlertDB {} 1
          { HandleNote := utf8 "ok", UnlockDevice := true } 9).code = 0
      ∧ (toyServices.admin.HandleAlert scenarioAlertDB {} 1
          { HandleNote := utf8 "ok", UnlockDevice := true } 9).db.devices[0]?
        = some { ID := 1, DeviceID := utf8 "L1", Status := 1 }
      ∧ PostgresDeviceFailStore.Get
          (toyServices.admin.HandleAlert scenarioAlertDB {} 1
            { HandleNote := utf8 "ok", UnlockDevice := true } 9).db DeviceTypeLock (utf8 "L1")
        = 2 := by
  decide

/-! ## C13 -/

theorem statusFrame_refl (ds : List Device) : StatusFrame ds ds :=
  ⟨id, [], by simp, fun _ => ⟨rfl, rfl, rfl⟩, fun _ h => by cases h⟩

theorem statusFrame_of_eq (ds1 ds2 : List Device) (h : ds2 = ds1) : StatusFrame ds1 ds2 := by
  rw [h]
  exact statusFrame_refl ds1

theorem statusFrame_touch (ds : List Device) (deviceID : Bytes) (now : Int) :
    StatusFrame ds (ds.map (fun d =>
      if deviceWhere deviceID d then { d with LastActiveAt := some now } else d)) :=
  ⟨fun d => if deviceWhere deviceID d then { d with LastActiveAt := some now } else d, [],
    by simp, fun d => by by_cases h : deviceWhere deviceID d = true <;> simp [h],
    fun _ h => by cases h⟩

theorem statusFrame_append (ds : List Device) (e : Device) (h : e.Status = 1) :
    StatusFrame ds (ds ++ [e]) :=
  ⟨id, [e], by simp, fun _ => ⟨rfl, rfl, rfl⟩, fun x hx => by
    rw [List.mem_singleton] at hx
    rw [hx]
    exact h⟩

theorem statusFrame_entry (ds1 ds2 : List Device) (h : StatusFrame ds1 ds2) (i : Nat)
    (d2 : Device) (h2 : ds2[i]? = some d2) (hs : d2.Status = 2) :
    ∃ d, ds1[i]? = some d ∧ d.Status = 2 := by
  obtain ⟨f, extra, e, hf, hx⟩ := h
  rw [e] at h2
  by_cases hi : i < ds1.length
  · rw [List.getElem?_append_left (by simpa using hi), List.getElem?_map] at h2
    cases hd : ds1[i]? with
    | none => rw [hd] at h2; cases h2
    | some d =>
      rw [hd] at h2
      simp only [Option.map_some', Option.some.injEq] at h2
      refine ⟨d, rfl, ?_⟩
      rw [← (hf d).1, h2]
      exact hs
  · rw [List.getElem?_append_right (by simpa using hi)] at h2
    have hm : d2 ∈ extra := List.mem_iff_getElem?.mpr ⟨_, h2⟩
    have := hx d2 hm
    omega

theorem statusFrame_exit (ds1 ds2 : List Device) (h : StatusFrame ds1 ds2) (i : Nat)
    (d : Device) (h1 : ds1[i]? = some d) :
    ∃ d2, ds2[i]? = some d2 ∧ d2.ID = d.ID ∧ d2.DeviceID = d.DeviceID ∧ d2.Status = d.Status := by
  obtain ⟨f, extra, e, hf, _⟩ := h
  have hi : i < ds1.length := by
    rcases List.getElem?_eq_some_iff.mp h1 with ⟨hlt, _⟩
    exact hlt
  refine ⟨f d, ?_, (hf d).2.1, (hf d).2.2, (hf d).1⟩
  rw [e, List.getElem?_append_left (by simpa using hi), List.getElem?_map, h1]
  rfl

theorem logOperation_devices (s : AdminService) (db : DB) (fails : Bool) (operatorID : Int)
    (action targetType : Bytes) (targetID : Int) :
    (s.logOperation db fails operatorID action targetType targetID).devices = db.devices := by
  unfold AdminService.logOperation
  split <;> rfl

theorem login_devices (s : AuthService) (db : DB) (w : LoginWorld) (req : LoginRequest)
    (userAgent ipAddress : Bytes) :
    (s.Login db w req userAgent ipAddress).db.devices = db.devices := by
  have hc : ∀ (fails : Bool) (x : Session),
      (PostgresSessionStore.Create db fails x).1.devices = db.devices := by
    intro fails x
    unfold PostgresSessionStore.Create
    split <;> rfl
  unfold AuthService.Login
  simp only []
  repeat' split
  all_goals first | rfl | exact hc _ _

theorem logout_devices (s : AuthService) (db : DB) (fails : Bool) (jti : Bytes) :
    (s.Logout db fails jti).1.devices = db.devices := by
  unfold AuthService.Logout PostgresSessionStore.DeleteByJTI
  split <;> rfl

theorem deleteByUserID_devices (db : DB) (fails : Bool) (userID : Int) :
    (PostgresSessionStore.DeleteByUserID db fails userID).1.devices = db.devices := by
  unfold PostgresSessionStore.DeleteByUserID
  split <;> rfl

theorem createUser_devices (s : AdminService) (db : DB) (w : AdminWorld)
    (req : CreateUserRequest) (operatorID : Int) :
    (s.CreateUser db w req operatorID).db.devices = db.devices := by
  unfold AdminService.CreateUser
  simp only []
  repeat' split
  all_goals first | rfl | (simp only [logOperation_devices])

theorem updateUser_devices (s : AdminService) (db : DB) (w : AdminWorld) (userUUID : Bytes)
    (req : UpdateUserRequest) (operatorID : Int) :
    (s.UpdateUser db w userUUID req operatorID).db.devices = db.devices := by
  unfold AdminService.UpdateUser
  simp only []
  repeat' split
  all_goals first | rfl | (simp only [logOperation_devices, deleteByUserID_devices])

theorem resetPassword_devices (s : AdminService) (db : DB) (w : AdminWorld) (userUUID : Bytes)
    (operatorID : Int) :
    (s.ResetPassword db w userUUID operatorID).db.devices = db.devices := by
  unfold AdminService.ResetPassword
  simp only []
  repeat' split
  all_goals first | rfl | (simp only [logOperation_devices, deleteByUserID_devices])

theorem grantPermission_devices (s : AdminService) (db : DB) (w : AdminWorld)
    (req : GrantPermissionRequest) (operatorID : Int) :
    (s.GrantPermission db w req operatorID).db.devices = db.devices := by
  unfold AdminService.GrantPermission
  simp only []
  repeat' split
  all_goals first | rfl | (simp only [logOperation_devices])

theorem batchGrantPermissions_devices (s : AdminService) :
    ∀ (reqs : List (AdminWorld × GrantPermissionRequest)) (db : DB) (operatorID : Int),
      (s.BatchGrantPermissions db reqs operatorID).db.devices = db.devices := by
  intro reqs
  induction reqs with
  | nil => intro db operatorID; rfl
  | cons a rest ih =>
    intro db operatorID
    obtain ⟨w, p⟩ := a
    unfold AdminService.BatchGrantPermissions
    simp only []
    split
    · exact grantPermission_devices s db w p operatorID
    · rw [ih, grantPermission_devices]

theorem revokePermission_devices (s : AdminService) (db : DB) (w : AdminWorld) (permID : Int)
    (operatorID : Int) :
    (s.RevokePermission db w permID operatorID).db.devices = db.devices := by
  unfold AdminService.RevokePermission
  simp only []
  repeat' split
  all_goals first | rfl | (simp only [logOperation_devices])

theorem createDevice_frame (s : AdminService) (kms : LocalKMS) (db : DB) (w : AdminWorld)
    (req : CreateDeviceRequest) (operatorID : Int) :
    StatusFrame db.devices (s.CreateDevice kms db w req operatorID).db.devices := by
  unfold AdminService.CreateDevice
  simp only []
  repeat' split
  all_goals first
    | exact statusFrame_refl _
    | (rw [logOperation_devices]; exact statusFrame_append _ _ rfl)

theorem challenge_frame (sv : Services) (db : DB) (w : ChallengeWorld) (req : ChallengeRequest)
    (userID : Int) (clientIP : Bytes) (touchNow : Int) (touchFails : Bool) :
    StatusFrame db.devices
      ((sv.lock.Challenge sv.kms db w req userID clientIP).spawned.foldl
        (runStmt touchNow touchFails) db).devices := by
  have hs : (sv.lock.Challenge sv.kms db w req userID clientIP).spawned = []
      ∨ (sv.lock.Challenge sv.kms db w req userID clientIP).spawned
        = [.touchDevice req.DeviceID] := by
    unfold LockService.Challenge
    simp only []
    repeat' split
    all_goals simp
  rcases hs with hs | hs
  · rw [hs]
    exact statusFrame_refl _
  · rw [hs]
    simp only [List.foldl, runStmt]
    split
    · exact statusFrame_refl _
    · exact statusFrame_touch _ _ _

theorem increment_devices (db : DB) (now : Int) (fails : Bool) (deviceType deviceID : Bytes) :
    (PostgresDeviceFailStore.Increment db now fails deviceType deviceID).1.devices
      = db.devices := by
  unfold PostgresDeviceFailStore.Increment
  repeat' split
  all_goals rfl

theorem reset_devices (db : DB) (fails : Bool) (deviceType deviceID : Bytes) :
    (PostgresDeviceFailStore.Reset db fails deviceType deviceID).1.devices = db.devices := by
  unfold PostgresDeviceFailStore.Reset
  split <;> rfl

theorem report_db_cases (s : LockService) (db : DB) (w : ReportWorld) (req : ReportRequest)
    (userID : Int) (clientIP : Bytes) :
    (ReachesAlertLock db w req ∧ w.alertTxFails = false
        ∧ (s.Report db w req userID clientIP).db
          = (s.triggerAlertLock
              (PostgresDeviceFailStore.Increment db w.now w.incrementFails DeviceTypeLock
                req.DeviceID).1 false req.DeviceID userID
              (PostgresDeviceFailStore.Increment db w.now w.incrementFails DeviceTypeLock
                req.DeviceID).2.1).1)
      ∨ StatusFrame db.devices (s.Report db w req userID clientIP).db.devices := by
  by_cases hres : req.Result = utf8 "fail"
  · by_cases hc : (PostgresDeviceFailStore.Increment db w.now w.incrementFails DeviceTypeLock
        req.DeviceID).2.1 ≥ 3
    · cases htx : w.alertTxFails with
      | false =>
        left
        refine ⟨⟨hres, hc⟩, rfl, ?_⟩
        simp only [LockService.Report, hres, decide_True, if_true, hc, htx]
      | true =>
        right
        apply statusFrame_of_eq
        simp only [LockService.Report, hres, decide_True, if_true, hc, htx,
          LockService.triggerAlertLock]
        exact increment_devices _ _ _ _ _
    · right
      apply statusFrame_of_eq
      simp only [LockService.Report, hres, decide_True, if_true, hc, if_false]
      exact increment_devices _ _ _ _ _
  · right
    simp only [LockService.Report, hres, decide_False, Bool.false_eq_true, if_false]
    split
    · apply statusFrame_of_eq
      exact reset_devices _ _ _ _
    · simp only [reset_devices]
      exact statusFrame_touch _ _ _

theorem handleAlert_devices_cases (s : AdminService) (db : DB) (w : AdminWorld) (alertID : Int)
    (req : HandleAlertRequest) (operatorID : Int) :
    (s.HandleAlert db w alertID req operatorID).db.devices = db.devices
      ∨ ∃ a, a ∈ db.alerts ∧ a.ID = alertID ∧ a.Status = 0 ∧ req.UnlockDevice = true
          ∧ a.AlertType = utf8 "consecutive_fail" ∧ a.DeviceType = DeviceTypeLock
          ∧ (s.HandleAlert db w alertID req operatorID).db.devices
            = db.devices.map (fun d =>
                if d.DeviceID = a.DeviceID ∧ d.Status = 2 ∧ d.DeletedAt.isNone then
                  { d with Status := 1 }
                else d) := by
  unfold AdminService.HandleAlert
  split
  · left; rfl
  · rename_i alert hfind
    by_cases htx : w.txFails = true
    · left
      simp only [htx, if_true]
    · simp only [htx, Bool.false_eq_true, if_false, logOperation_devices]
      by_cases hcond : req.UnlockDevice = true ∧ alert.AlertType = utf8 "consecutive_fail"
          ∧ alert.DeviceType = DeviceTypeLock
      · right
        have hf : db.alerts.find? (fun a => a.ID = alertID && a.Status = 0) = some alert := by
          by_cases hl : w.lookupFails = true
          · simp [hl] at hfind
          · simpa [hl] using hfind
        have hp := List.find?_some hf
        simp only [Bool.and_eq_true, decide_eq_true_eq] at hp
        refine ⟨alert, List.mem_of_find?_eq_some hf, hp.1, hp.2, hcond.1, hcond.2.1, hcond.2.2, ?_⟩
        rw [if_pos hcond]
      · left
        rw [if_neg hcond]

/-- C13. For every call of a service operation (`Login`, `Logout`, `Challenge`,
`Report`, `GetAuthorizedDevices`, `GetDeviceList` and the operations of the admin
service) on every database, the device rows keep their places, and: a row that has
status 2 after the call either had status 2 before, or the call is a `Report` that
reaches `triggerAlertLock` for the device id of the row, whose transaction does not
fail and whose database is the one the call leaves; a row that has status 2 before
the call keeps its primary key and device id, and either has status 2 after the
call, or has status 1 and the call is a `HandleAlert` with `unlock_device = true` of
an open alert of type `consecutive_fail` and device type lock for the device id of
the row. -/
theorem quarantine_transitions (sv : Services) (db : DB) (op : Op) :
    (∀ (i : Nat) (d2 : Device), (op.run sv db).devices[i]? = some d2 → d2.Status = 2 →
        (∃ d, db.devices[i]? = some d ∧ d.Status = 2)
        ∨ ∃ w req userID clientIP, op = .report w req userID clientIP
            ∧ ReachesAlertLock db w req ∧ w.alertTxFails = false
            ∧ d2.DeviceID = req.DeviceID
            ∧ op.run sv db
              = (sv.lock.triggerAlertLock
                  (PostgresDeviceFailStore.Increment db w.now w.incrementFails DeviceTypeLock
                    req.DeviceID).1 false req.DeviceID userID
                  (PostgresDeviceFailStore.Increment db w.now w.incrementFails DeviceTypeLock
                    req.DeviceID).2.1).1)
      ∧ (∀ (i : Nat) (d : Device), db.devices[i]? = some d → d.Status = 2 →
          ∃ d2, (op.run sv db).devices[i]? = some d2 ∧ d2.ID = d.ID ∧ d2.DeviceID = d.DeviceID
            ∧ (d2.Status = 2
              ∨ (d2.Status = 1 ∧ ∃ w alertID req operatorID a,
                  op = .handleAlert w alertID req operatorID ∧ req.UnlockDevice = true
                    ∧ a ∈ db.alerts ∧ a.ID = alertID ∧ a.Status = 0
                    ∧ a.AlertType = utf8 "consecutive_fail" ∧ a.DeviceType = DeviceTypeLock
                    ∧ a.DeviceID = d.DeviceID))) := by
  have frame : ∀ op1 : Op, StatusFrame db.devices (op1.run sv db).devices →
      (∀ (i : Nat) (d2 : Device), (op1.run sv db).devices[i]? = some d2 → d2.Status = 2 →
        (∃ d, db.devices[i]? = some d ∧ d.Status = 2)
        ∨ ∃ w req userID clientIP, op1 = .report w req userID clientIP
            ∧ ReachesAlertLock db w req ∧ w.alertTxFails = false
            ∧ d2.DeviceID = req.DeviceID
            ∧ op1.run sv db
              = (sv.lock.triggerAlertLock
                  (PostgresDeviceFailStore.Increment db w.now w.incrementFails DeviceTypeLock
                    req.DeviceID).1 false req.DeviceID userID
                  (PostgresDeviceFailStore.Increment db w.now w.incrementFails DeviceTypeLock
                    req.DeviceID).2.1).1)
      ∧ (∀ (i : Nat) (d : Device), db.devices[i]? = some d → d.Status = 2 →
          ∃ d2, (op1.run sv db).devices[i]? = some d2 ∧ d2.ID = d.ID ∧ d2.DeviceID = d.DeviceID
            ∧ (d2.Status = 2
              ∨ (d2.Status = 1 ∧ ∃ w alertID req operatorID a,
                  op1 = .handleAlert w alertID req operatorID ∧ req.UnlockDevice = true
                    ∧ a ∈ db.alerts ∧ a.ID = alertID ∧ a.Status = 0
                    ∧ a.AlertType = utf8 "consecutive_fail" ∧ a.DeviceType = DeviceTypeLock
                    ∧ a.DeviceID = d.DeviceID))) := by
    intro op1 hf
    constructor
    · intro i d2 h2 hs
      exact Or.inl (statusFrame_entry _ _ hf i d2 h2 hs)
    · intro i d h1 hs
      obtain ⟨d2, e1, e2, e3, e4⟩ := statusFrame_exit _ _ hf i d h1
      exact ⟨d2, e1, e2, e3, Or.inl (by rw [e4]; exact hs)⟩
  cases op with
  | login w req userAgent ipAddress =>
    exact frame _ (statusFrame_of_eq _ _ (login_devices _ _ _ _ _ _))
  | logout fails jti => exact frame _ (statusFrame_of_eq _ _ (logout_devices _ _ _ _))
  | challenge w req userID clientIP touchNow touchFails =>
    exact frame _ (challenge_frame sv db w req userID clientIP touchNow touchFails)
  | getAuthorizedDevices now fails userID => exact frame _ (statusFrame_refl _)
  | getDeviceList => exact frame _ (statusFrame_refl _)
  | createUser w req operatorID =>
    exact frame _ (statusFrame_of_eq _ _ (createUser_devices _ _ _ _ _))
  | updateUser w userUUID req operatorID =>
    exact frame _ (statusFrame_of_eq _ _ (updateUser_devices _ _ _ _ _ _))
  | resetPassword w userUUID operatorID =>
    exact frame _ (statusFrame_of_eq _ _ (resetPassword_devices _ _ _ _ _))
  | listUsers => exact frame _ (statusFrame_refl _)
  | createDevice w req operatorID => exact frame _ (createDevice_frame _ _ _ _ _ _)
  | grantPermission w req operatorID =>
    exact frame _ (statusFrame_of_eq _ _ (grantPermission_devices _ _ _ _ _))
  | batchGrantPermissions reqs operatorID =>
    exact frame _ (statusFrame_of_eq _ _ (batchGrantPermissions_devices _ _ _ _))
  | revokePermission w permID operatorID =>
    exact frame _ (statusFrame_of_eq _ _ (revokePermission_devices _ _ _ _ _))
  | listAlerts => exact frame _ (statusFrame_refl _)
  | getDashboard => exact frame _ (statusFrame_refl _)
  | listAuditLogs => exact frame _ (statusFrame_refl _)
  | listPermissions => exact frame _ (statusFrame_refl _)
  | report w req userID clientIP =>
    rcases report_db_cases sv.lock db w req userID clientIP with ⟨hr, htx, he⟩ | hf
    · have hdev : (Op.run sv db (.report w req userID clientIP)).devices
          = db.devices.map (fun d =>
              if deviceWhere req.DeviceID d then { d with Status := 2 } else d) := by
        show (sv.lock.Report db w req userID clientIP).db.devices = _
        rw [he, (triggerAlertLock_spec _ _ _ _ _).1, increment_devices]
      constructor
      · intro i d2 h2 hs
        rw [hdev, List.getElem?_map] at h2
        cases hd : db.devices[i]? with
        | none => rw [hd] at h2; cases h2
        | some d =>
          rw [hd] at h2
          simp only [Option.map_some', Option.some.injEq] at h2
          by_cases hwh : deviceWhere req.DeviceID d = true
          · right
            rw [if_pos hwh] at h2
            refine ⟨w, req, userID, clientIP, rfl, hr, htx, ?_, he⟩
            rw [← h2]
            simp only [deviceWhere, Bool.and_eq_true, decide_eq_true_eq] at hwh
            exact hwh.1
          · left
            rw [if_neg hwh] at h2
            exact ⟨d, rfl, by rw [h2]; exact hs⟩
      · intro i d h1 hs
        refine ⟨if deviceWhere req.DeviceID d then { d with Status := 2 } else d, ?_, ?_, ?_, ?_⟩
        · rw [hdev, List.getElem?_map, h1]
          rfl
        · split <;> rfl
        · split <;> rfl
        · left
          split
          · rfl
          · exact hs
    · exact frame _ hf
  | handleAlert w alertID req operatorID =>
    rcases handleAlert_devices_cases sv.admin db w alertID req operatorID with he | ⟨a, ha⟩
    · exact frame _ (statusFrame_of_eq _ _ he)
    · obtain ⟨ha1, ha2, ha3, ha4, ha5, ha6, hdev⟩ := ha
      have hdev1 : (Op.run sv db (.handleAlert w alertID req operatorID)).devices
          = db.devices.map (fun d =>
              if d.DeviceID = a.DeviceID ∧ d.Status = 2 ∧ d.DeletedAt.isNone then
                { d with Status := 1 }
              else d) := hdev
      constructor
      · intro i d2 h2 hs
        left
        rw [hdev1, List.getElem?_map] at h2
        cases hd : db.devices[i]? with
        | none => rw [hd] at h2; cases h2
        | some d =>
          rw [hd] at h2
          simp only [Option.map_some', Option.some.injEq] at h2
          refine ⟨d, rfl, ?_⟩
          by_cases hc : d.DeviceID = a.DeviceID ∧ d.Status = 2 ∧ d.DeletedAt.isNone
          · exact hc.2.1
          · rw [if_neg hc] at h2
            rw [h2]
            exact hs
      · intro i d h1 hs
        refine ⟨if d.DeviceID = a.DeviceID ∧ d.Status = 2 ∧ d.DeletedAt.isNone then
            { d with Status := 1 } else d, ?_, ?_, ?_, ?_⟩
        · rw [hdev1, List.getElem?_map, h1]
          rfl
        · split <;> rfl
        · split <;> rfl
        · by_cases hc : d.DeviceID = a.DeviceID ∧ d.Status = 2 ∧ d.DeletedAt.isNone
          · right
            rw [if_pos hc]
            exact ⟨rfl, w, alertID, req, operatorID, a, rfl, ha4, ha1, ha2, ha3, ha5, ha6,
              hc.1.symm⟩
          · left
            rw [if_neg hc]
            exact hs

/-- Witness for C13: the quarantined lock "L1" of `scenarioAlertDB` stays
quarantined under a report of a failure, and becomes active under `HandleAlert` with
`unlock_device = true` of its open alert. -/
theorem quarantine_transitions_witness :
    (Op.run toyServices scenarioAlertDB
        (.report {} { DeviceID := utf8 "L1", Result := utf8 "fail" } 7 [])).devices[0]?
        = some { ID := 1, DeviceID := utf8 "L1", Status := 2 }
      ∧ (Op.run toyServices scenarioAlertDB
        (.handleAlert {} 1 { HandleNote := utf8 "ok", UnlockDevice := true } 9)).devices[0]?
        = some { ID := 1, DeviceID := utf8 "L1", Status := 1 }
      ∧ ∃ d2, (Op.run toyServices scenarioAlertDB
          (.handleAlert {} 1 { HandleNote := utf8 "ok", UnlockDevice := true } 9)).devices[0]?
            = some d2 ∧ d2.ID = 1 ∧ d2.DeviceID = utf8 "L1"
          ∧ (d2.Status = 2
            ∨ (d2.Status = 1 ∧ ∃ w alertID req operatorID a,
                Op.handleAlert {} 1 { HandleNote := utf8 "ok", UnlockDevice := true } 9
                    = .handleAlert w alertID req operatorID ∧ req.UnlockDevice = true
                  ∧ a ∈ scenarioAlertDB.alerts ∧ a.ID = alertID ∧ a.Status = 0
                  ∧ a.AlertType = utf8 "consecutive_fail" ∧ a.DeviceType = DeviceTypeLock
                  ∧ a.DeviceID = utf8 "L1")) :=
  ⟨by decide, by decide,
   (quarantine_transitions toyServices scenarioAlertDB
      (.handleAlert {} 1 { HandleNote := utf8 "ok", UnlockDevice := true } 9)).2 0
      { ID := 1, DeviceID := utf8 "L1", Status := 2 } (by decide) rfl⟩

/-! ## C14 -/

theorem find_map_key (rows : List RateLimit) (key : Bytes) (f : RateLimit → RateLimit)
    (hf : ∀ r, (f r).Key = r.Key) :
    (rows.map (fun r => if r.Key = key then f r else r)).find? (fun r => r.Key = key)
      = (rows.find? (fun r => r.Key = key)).map f := by
  induction rows with
  | nil => rfl
  | cons a rest ih =>
    by_cases h : a.Key = key
    · simp [List.find?, h, hf]
    · rw [List.map_cons, if_neg h, List.find?_cons_of_neg _ (by simpa using h),
        List.find?_cons_of_neg _ (by simpa using h)]
      exact ih

theorem find_append_none (rows : List RateLimit) (key : Bytes) (r : RateLimit)
    (h : rows.find? (fun r => r.Key = key) = none) (hr : r.Key = key) :
    (rows ++ [r]).find? (fun r => r.Key = key) = some r := by
  rw [List.find?_append, h]
  simp [List.find?, hr]

theorem incrementRateLimit_absent (db : DB) (key : Bytes) (w t : Int)
    (h : rateRow db key = none) :
    incrementRateLimit db t false key w
      = ({ db with rateLimits := db.rateLimits ++ [{ Key := key, Count := 1, WindowStart := t }] },
          1, false) := by
  unfold rateRow at h
  simp only [incrementRateLimit, Bool.false_eq_true, if_false, h]

theorem incrementRateLimit_present (db : DB) (key : Bytes) (w t : Int) (r : RateLimit)
    (h : rateRow db key = some r) :
    rateRow (incrementRateLimit db t false key w).1 key
        = some (if r.WindowStart < t - w * ticksPerSecond
            then { r with Count := 1, WindowStart := t } else { r with Count := r.Count + 1 })
      ∧ (incrementRateLimit db t false key w).2
        = (if r.WindowStart < t - w * ticksPerSecond then 1 else r.Count + 1, false)
      ∧ (incrementRateLimit db t false key w).1.ipBlocks = db.ipBlocks := by
  unfold rateRow at h
  simp only [incrementRateLimit, Bool.false_eq_true, if_false, h, rateRow]
  refine ⟨?_, ?_, trivial⟩
  · rw [find_map_key _ _ (fun r => { r with
        Count := if decide (r.WindowStart < t - w * ticksPerSecond) then 1 else r.Count + 1,
        WindowStart := if decide (r.WindowStart < t - w * ticksPerSecond) then t
          else r.WindowStart }) (fun _ => rfl), h]
    by_cases hx : r.WindowStart < t - w * ticksPerSecond <;> simp [hx]
  · by_cases hx : r.WindowStart < t - w * ticksPerSecond <;> simp [hx]

/-- C14 (amended). For every key, window `w` and instant `t`, an upsert that does
not fail follows this rule: if the row is absent the count becomes 1 and the window
starts at `t`; if `t - window_start` is more than `w` seconds the count becomes 1
and the window starts at `t`; if it is at most `w` seconds the count grows by one and
the window start stays. The returned count is the stored one. So the rule of the
specification is followed except at the instant exactly `w` seconds after the window
start, where the request is still counted in the old window. -/
theorem incrementRateLimit_rule (db : DB) (key : Bytes) (w t : Int) :
    (rateRow db key = none →
        rateRow (incrementRateLimit db t false key w).1 key
            = some { Key := key, Count := 1, WindowStart := t }
          ∧ (incrementRateLimit db t false key w).2 = (1, false))
      ∧ (∀ r, rateRow db key = some r → t - r.WindowStart > w * ticksPerSecond →
          rateRow (incrementRateLimit db t false key w).1 key
              = some { r with Count := 1, WindowStart := t }
            ∧ (incrementRateLimit db t false key w).2 = (1, false))
      ∧ (∀ r, rateRow db key = some r → t - r.WindowStart ≤ w * ticksPerSecond →
          rateRow (incrementRateLimit db t false key w).1 key
              = some { r with Count := r.Count + 1 }
            ∧ (incrementRateLimit db t false key w).2 = (r.Count + 1, false))
      ∧ ((∀ r, rateRow db key = some r → t - r.WindowStart ≠ w * ticksPerSecond) →
          rateRow (incrementRateLimit db t false key w).1 key
            = some (specUpsert (rateRow db key) key t w)) := by
  refine ⟨?_, ?_, ?_, ?_⟩
  · intro h
    rw [incrementRateLimit_absent db key w t h]
    exact ⟨find_append_none _ _ _ h rfl, rfl⟩
  · intro r h hx
    obtain ⟨h1, h2, _⟩ := incrementRateLimit_present db key w t r h
    have hlt : r.WindowStart < t - w * ticksPerSecond := by omega
    rw [h1, h2, if_pos hlt, if_pos hlt]
    exact ⟨rfl, rfl⟩
  · intro r h hx
    obtain ⟨h1, h2, _⟩ := incrementRateLimit_present db key w t r h
    have hlt : ¬ r.WindowStart < t - w * ticksPerSecond := by omega
    rw [h1, h2, if_neg hlt, if_neg hlt]
    exact ⟨rfl, rfl⟩
  · intro hne
    cases h : rateRow db key with
    | none =>
      rw [incrementRateLimit_absent db key w t h]
      exact find_append_none _ _ _ h rfl
    | some r =>
      obtain ⟨h1, _, _⟩ := incrementRateLimit_present db key w t r h
      rw [h1]
      have := hne r h
      by_cases hlt : r.WindowStart < t - w * ticksPerSecond
      · have hge : t - r.WindowStart ≥ w * ticksPerSecond := by omega
        simp only [specUpsert, if_pos hlt, if_pos hge]
      · have hge : ¬ t - r.WindowStart ≥ w * ticksPerSecond := by omega
        simp only [specUpsert, if_neg hlt, if_neg hge]

/-- C14, counterexample. A counter row with count 3 whose window started at instant
0, and a request arriving exactly 60 seconds later with a window of 60 seconds: the
rule of the specification starts a new window with count 1, the upsert counts the
request in the old window, count 4, and returns 4. -/
theorem rate_window_boundary :
    specUpsert (some { Key := utf8 "k", Count := 3, WindowStart := 0 }) (utf8 "k")
        (60 * ticksPerSecond) 60
        = { Key := utf8 "k", Count := 1, WindowStart := 60 * ticksPerSecond }
      ∧ rateRow (incrementRateLimit
          { rateLimits := [{ Key := utf8 "k", Count := 3, WindowStart := 0 }] }
          (60 * ticksPerSecond) false (utf8 "k") 60).1 (utf8 "k")
        = some { Key := utf8 "k", Count := 4, WindowStart := 0 }
      ∧ (incrementRateLimit
          { rateLimits := [{ Key := utf8 "k", Count := 3, WindowStart := 0 }] }
          (60 * ticksPerSecond) false (utf8 "k") 60).2 = (4, false) := by
  decide

/-! ## C15 -/

theorem checkIPBlock_false (db : DB) (w : GateWorld) (c : RequestCtx)
    (h : ∀ b ∈ db.ipBlocks, b.IP = c.ClientIP → b.ExpiresAt ≤ w.now) :
    checkIPBlock db w c = false := by
  unfold checkIPBlock
  by_cases hq : w.blockQueryFails = true
  · simp [hq]
  · have he : db.ipBlocks.filter (fun b => b.IP = c.ClientIP && decide (b.ExpiresAt > w.now)) = [] := by
      rw [List.filter_eq_nil_iff]
      intro b hb
      have := h b hb
      simp only [Bool.and_eq_true, decide_eq_true_eq, not_and, not_lt]
      intro hip
      have := this hip
      omega
    simp [hq, he]

theorem checkIPBlock_true (db : DB) (w : GateWorld) (c : RequestCtx)
    (hq : w.blockQueryFails = false)
    (hb : ∃ b ∈ db.ipBlocks, b.IP = c.ClientIP ∧ b.ExpiresAt > w.now) :
    checkIPBlock db w c = true := by
  obtain ⟨b, hb1, hb2, hb3⟩ := hb
  unfold checkIPBlock
  have hm : b ∈ db.ipBlocks.filter
      (fun b => b.IP = c.ClientIP && decide (b.ExpiresAt > w.now)) := by
    rw [List.mem_filter]
    exact ⟨hb1, by simp [hb2, hb3]⟩
  have hl := List.length_pos_of_mem hm
  simp only [hq, Bool.false_eq_true, if_false, decide_eq_true_eq]
  exact hl

/-- C16. For every rate gate and every request, the block query not failing: if an
IP block row has the client address and `expires_at` later than now, the gate aborts
the chain, so the handler does not run, with a response of business code
`TooManyRequests` (status 403, message "IP has been temporarily blocked"), and the
database, with every rate counter row, is as before; if every IP block row with the
client address has `expires_at` at or before now, the block check passes, and the
request is denied only if the count returned by the upsert exceeds the limit. -/
theorem ip_block_denies (cfg : RateLimitConfig) (c : RequestCtx) (db : DB) (w : GateWorld)
    (hq : w.blockQueryFails = false) :
    ((∃ b ∈ db.ipBlocks, b.IP = c.ClientIP ∧ b.ExpiresAt > w.now) →
        RateLimiter cfg db w c
            = (.abort (modelFail 403 CodeTooManyRequests (utf8 "IP has been temporarily blocked")),
                db)
          ∧ (RateLimiter cfg db w c).1.Denied
          ∧ (RateLimiter cfg db w c).2.rateLimits = db.rateLimits)
      ∧ ((∀ b ∈ db.ipBlocks, b.IP = c.ClientIP → b.ExpiresAt ≤ w.now) →
          checkIPBlock db w c = false
            ∧ ((RateLimiter cfg db w c).1 = .next
              ∨ (incrementRateLimit db w.dbNow w.upsertFails (cfg.KeyFunc c) cfg.WindowSecs).2.1
                  > cfg.Limit)) := by
  constructor
  · intro hb
    have h := checkIPBlock_true db w c hq hb
    have e : RateLimiter cfg db w c
        = (.abort (modelFail 403 CodeTooManyRequests (utf8 "IP has been temporarily blocked")),
            db) := by
      simp only [RateLimiter, h, if_true]
    rw [e]
    exact ⟨rfl, rfl, rfl⟩
  · intro hb
    have h := checkIPBlock_false db w c hb
    refine ⟨h, ?_⟩
    simp only [RateLimiter, h, Bool.false_eq_true, if_false]
    by_cases h1 : (incrementRateLimit db w.dbNow w.upsertFails (cfg.KeyFunc c)
        cfg.WindowSecs).2.2 = true
    · left
      simp only [h1, if_true]
    · by_cases h2 : (incrementRateLimit db w.dbNow w.upsertFails (cfg.KeyFunc c)
          cfg.WindowSecs).2.1 > cfg.Limit
      · right
        exact h2
      · left
        simp [h1, h2]

/-- Witness for C16: a login request at instant 50 from an address with two block
rows, one expiring at 100 and one expired at 40; and the same request at instant 100,
when both have expired. -/
theorem ip_block_denies_witness :
    (RateLimiter LoginRateLimit scenarioBlockDB { now := 50, dbNow := 50 } scenarioCtx).1.Denied
      ∧ (RateLimiter LoginRateLimit scenarioBlockDB { now := 50, dbNow := 50 } scenarioCtx).2
          = scenarioBlockDB
      ∧ (RateLimiter LoginRateLimit scenarioBlockDB { now := 100, dbNow := 100 } scenarioCtx).1
          = .next :=
  ⟨((ip_block_denies LoginRateLimit scenarioCtx scenarioBlockDB { now := 50, dbNow := 50 }
      rfl).1 (by decide)).2.1,
   by decide, by decide⟩

/-! ## C17 -/

theorem challenge_codes (s : LockService) (kms : LocalKMS) (db : DB) (w : ChallengeWorld)
    (req : ChallengeRequest) (userID : Int) (clientIP : Bytes) :
    (s.Challenge kms db w req userID clientIP).code ∈
      [0, CodeParamError, CodeRequestExpired, CodeInternalError, CodeDeviceNotFound,
       CodeDeviceUnavailable, CodeNoPermission] := by
  unfold LockService.Challenge
  simp only []
  repeat' split
  all_goals simp

theorem httpStatus_eq_specStatus (code : Int) (h : code ≠ CodeAccountDisabled) :
    httpStatusFromBizCode code = specStatus code := by
  unfold httpStatusFromBizCode specStatus
  simp only [CodeAccountDisabled, CodeTooManyRequests] at *
  rw [if_neg h]
  split_ifs <;> first | rfl | omega

/-- C17 (amended). The failure responses of the lock handlers (`Challenge`, `Report`,
`GetDevices`) have the HTTP status that the table of the specification gives to
their business code. A response of the rate gate that aborts the chain carries the
business code `TooManyRequests`; when it comes from a quota overflow its status is
429, as in the table, and when it comes from an IP block its status is 403. The
function `httpStatusFromBizCode` agrees with the table on every code but
`AccountDisabled`, to which it gives 401; no lock handler answers with that code. -/
theorem failure_status_table :
    (∀ (svc : LockService) (kms : LocalKMS) (db : DB) (w : ChallengeWorld)
        (bound : Result Bytes ChallengeRequest) (userID : Int) (clientIP : Bytes),
        (LockHandler.Challenge svc kms db w bound userID clientIP).code ≠ 0 →
        (LockHandler.Challenge svc kms db w bound userID clientIP).status
          = specStatus (LockHandler.Challenge svc kms db w bound userID clientIP).code)
      ∧ (∀ (svc : LockService) (db : DB) (w : ReportWorld) (bound : Result Bytes ReportRequest)
          (userID : Int) (clientIP : Bytes),
          (LockHandler.Report svc db w bound userID clientIP).1.code ≠ 0 →
          (LockHandler.Report svc db w bound userID clientIP).1.status
            = specStatus (LockHandler.Report svc db w bound userID clientIP).1.code)
      ∧ (∀ (svc : LockService) (db : DB) (now : Int) (fails : Bool) (userID : Int),
          (LockHandler.GetDevices svc db now fails userID).code ≠ 0 →
          (LockHandler.GetDevices svc db now fails userID).status
            = specStatus (LockHandler.GetDevices svc db now fails userID).code)
      ∧ (∀ (cfg : RateLimitConfig) (db : DB) (w : GateWorld) (c : RequestCtx)
          (resp : HTTPResponse), (RateLimiter cfg db w c).1 = .abort resp →
          resp.code = CodeTooManyRequests
            ∧ (checkIPBlock db w c = false → resp.status = 429 ∧ resp.status = specStatus resp.code)
            ∧ (checkIPBlock db w c = true → resp.status = 403))
      ∧ (∀ code : Int, code ≠ CodeAccountDisabled → httpStatusFromBizCode code = specStatus code)
      ∧ httpStatusFromBizCode CodeAccountDisabled = 401 := by
  refine ⟨?_, ?_, ?_, ?_, httpStatus_eq_specStatus, by decide⟩
  · intro svc kms db w bound userID clientIP
    cases bound with
    | error err => intro _; rfl
    | ok req =>
      have hc := challenge_codes svc kms db w req userID clientIP
      simp only [LockHandler.Challenge]
      by_cases h : (svc.Challenge kms db w req userID clientIP).code ≠ 0
      · rw [if_pos h]
        simp only [modelFail]
        intro _
        apply httpStatus_eq_specStatus
        intro h2
        rw [h2] at hc
        revert hc
        decide
      · rw [if_neg h]
        intro hx
        exfalso
        revert hx
        cases (svc.Challenge kms db w req userID clientIP).resp <;> simp [modelOK]
  · intro svc db w bound userID clientIP
    cases bound with
    | error err => intro _; rfl
    | ok req =>
      intro hx
      exfalso
      revert hx
      simp [LockHandler.Report, LockService.Report, modelOK]
  · intro svc db now fails userID
    unfold LockHandler.GetDevices
    cases svc.GetAuthorizedDevices db now fails userID with
    | error e => intro _; rfl
    | ok ds => intro hx; exact absurd rfl hx
  · intro cfg db w c resp
    unfold RateLimiter
    cases hb : checkIPBlock db w c with
    | true =>
      simp only [if_true, Outcome.abort.injEq]
      intro h
      subst h
      exact ⟨rfl, fun hx => Bool.noConfusion hx, fun _ => rfl⟩
    | false =>
      simp only [Bool.false_eq_true, if_false]
      split_ifs
      · intro h; cases h
      · simp only [Outcome.abort.injEq]
        intro h
        subst h
        exact ⟨rfl, fun _ => ⟨rfl, rfl⟩, fun hx => hx.elim⟩
      · intro h; cases h

/-- C17, counterexample. A login request from an address with an unexpired IP block
row is answered with the business code `TooManyRequests` and the status 403, where
the table of the specification gives 429. -/
theorem ip_block_status_forbidden :
    (RateLimiter LoginRateLimit scenarioBlockDB { now := 50, dbNow := 50 } scenarioCtx).1
        = .abort { status := 403, code := CodeTooManyRequests,
                   message := utf8 "IP has been temporarily blocked" }
      ∧ specStatus CodeTooManyRequests = 429 := by
  decide

/-! ## C18 -/

/-- C18. The chain that `Setup` registers for `POST /api/lock/challenge` is the
global chain, `Auth` and the handler: `ChallengeRateLimit` is in no chain of the
router. The only rate gate before the handler is the global one, keyed by client
address with limit 100, and six challenges within one second all pass it. Were
`ChallengeRateLimit` installed, a request with a JSON body, which has no form field
`device_id`, would be counted under the key "challenge:lock:unknown". -/
theorem challenge_route_not_gated :
    routeChain (utf8 "POST") (utf8 "/api/lock/challenge")
        = some [.Recovery, .RequestID, .SecurityHeaders, .CORS, .AccessLog, .GlobalRateLimit,
                .Auth, .LockChallenge]
      ∧ (∀ r ∈ Setup, HandlerName.ChallengeRateLimit ∉ r.chain)
      ∧ runGate GlobalRateLimit scenarioCtx {} (scenarioGateWorlds.take 6)
        = List.replicate 6 .next
      ∧ ChallengeRateLimit.KeyFunc scenarioCtx = utf8 "challenge:lock:unknown" := by
  decide

/-! ## C19 -/

theorem find_user_none (db : DB) (phone : Bytes)
    (h : ∀ x ∈ db.users, x.Phone = phone → x.DeletedAt ≠ none) :
    db.users.find? (fun u => u.Phone = phone && u.DeletedAt.isNone) = none := by
  rw [List.find?_eq_none]
  intro x hx
  have := h x hx
  simp only [Bool.and_eq_true, decide_eq_true_eq, Option.isNone_iff_eq_none, not_and]
  exact this

theorem login_not_found (s : AuthService) (db : DB) (w : LoginWorld) (req : LoginRequest)
    (userAgent ipAddress : Bytes) (hq : w.userQueryFails = false)
    (h : db.users.find? (fun u => u.Phone = req.Phone && u.DeletedAt.isNone) = none) :
    s.Login db w req userAgent ipAddress
      = { code := CodeAuthFailed, msg := utf8 "invalid credentials", db := db,
          dummyVerifies := 1 } := by
  simp only [AuthService.Login, hq, Bool.false_eq_true, if_false, h]

theorem login_not_verified (s : AuthService) (db : DB) (w : LoginWorld) (req : LoginRequest)
    (userAgent ipAddress : Bytes) (u : User) (hq : w.userQueryFails = false)
    (h : db.users.find? (fun u => u.Phone = req.Phone && u.DeletedAt.isNone) = some u)
    (hv : s.crypto.VerifyPassword req.Password u.PasswordHash ≠ .ok true) :
    s.Login db w req userAgent ipAddress
      = { code := CodeAuthFailed, msg := utf8 "invalid credentials", db := db } := by
  simp only [AuthService.Login, hq, Bool.false_eq_true, if_false, h]
  cases hr : s.crypto.VerifyPassword req.Password u.PasswordHash with
  | error e => rfl
  | ok b =>
    cases b with
    | false => rfl
    | true => exact absurd hr hv

/-- C19. For every login request, the user query not failing: the result of `Login`
on a database where no non-deleted user has the phone and the result on a database
where the first non-deleted user with the phone has a password hash against which
the password does not verify have the same response, code and message, namely no
response, `AuthFailed` and "invalid credentials"; both leave the database as it
was, so no session is created; and the first runs `DummyVerify` once, the second
not at all. -/
theorem login_unknown_phone_same (s : AuthService) (db1 db2 : DB) (w1 w2 : LoginWorld)
    (req : LoginRequest) (userAgent ipAddress : Bytes) (u : User)
    (hq1 : w1.userQueryFails = false) (hq2 : w2.userQueryFails = false)
    (h1 : ∀ x ∈ db1.users, x.Phone = req.Phone → x.DeletedAt ≠ none)
    (h2 : db2.users.find? (fun x => x.Phone = req.Phone && x.DeletedAt.isNone) = some u)
    (hv : s.crypto.VerifyPassword req.Password u.PasswordHash ≠ .ok true) :
    ((s.Login db1 w1 req userAgent ipAddress).resp, (s.Login db1 w1 req userAgent ipAddress).code,
        (s.Login db1 w1 req userAgent ipAddress).msg)
        = ((s.Login db2 w2 req userAgent ipAddress).resp,
            (s.Login db2 w2 req userAgent ipAddress).code,
            (s.Login db2 w2 req userAgent ipAddress).msg)
      ∧ ((s.Login db1 w1 req userAgent ipAddress).resp,
          (s.Login db1 w1 req userAgent ipAddress).code,
          (s.Login db1 w1 req userAgent ipAddress).msg)
        = (none, CodeAuthFailed, utf8 "invalid credentials")
      ∧ (s.Login db1 w1 req userAgent ipAddress).db = db1
      ∧ (s.Login db2 w2 req userAgent ipAddress).db = db2
      ∧ (s.Login db1 w1 req userAgent ipAddress).dummyVerifies = 1
      ∧ (s.Login db2 w2 req userAgent ipAddress).dummyVerifies = 0 := by
  rw [login_not_found s db1 w1 req userAgent ipAddress hq1 (find_user_none db1 req.Phone h1),
    login_not_verified s db2 w2 req userAgent ipAddress u hq2 h2 hv]
  exact ⟨rfl, rfl, rfl, rfl, rfl, rfl⟩

/-- Witness for C19: the phone of `scenarioUser` with a wrong password, on the empty
database and on a database with that user. -/
theorem login_unknown_phone_same_witness :
    (toyAuth.Login {} scenarioLoginWorld { Phone := utf8 "13800000000", Password := utf8 "bad" }
        [] []).code = CodeAuthFailed
      ∧ (toyAuth.Login { users := [scenarioUser] } scenarioLoginWorld
        { Phone := utf8 "13800000000", Password := utf8 "bad" } [] []).code = CodeAuthFailed
      ∧ (toyAuth.Login { users := [scenarioUser] } scenarioLoginWorld
        { Phone := utf8 "13800000000", Password := utf8 "bad" } [] []).db
          = { users := [scenarioUser] } :=
  have h := login_unknown_phone_same toyAuth {} { users := [scenarioUser] } scenarioLoginWorld
    scenarioLoginWorld { Phone := utf8 "13800000000", Password := utf8 "bad" } [] [] scenarioUser
    rfl rfl (by decide) (by decide) (by decide)
  ⟨congrArg (fun t => t.2.1) h.2.1, by decide, h.2.2.2.1⟩

/-! ## C20 -/

/-- C20 (amended). For every login of an existing user, the user query not failing:
a password mismatch yields `AuthFailed`, and an error returned by the password
verifier yields `AuthFailed` too, with the same message "invalid credentials", no
response and the database as it was. -/
theorem login_verifier_failure (s : AuthService) (db : DB) (w : LoginWorld) (req : LoginRequest)
    (userAgent ipAddress : Bytes) (u : User) (hq : w.userQueryFails = false)
    (h : db.users.find? (fun x => x.Phone = req.Phone && x.DeletedAt.isNone) = some u) :
    (s.crypto.VerifyPassword req.Password u.PasswordHash = .ok false →
        s.Login db w req userAgent ipAddress
          = { code := CodeAuthFailed, msg := utf8 "invalid credentials", db := db })
      ∧ (∀ e, s.crypto.VerifyPassword req.Password u.PasswordHash = .error e →
          s.Login db w req userAgent ipAddress
            = { code := CodeAuthFailed, msg := utf8 "invalid credentials", db := db }) := by
  constructor
  · intro hv
    exact login_not_verified s db w req userAgent ipAddress u hq h (by rw [hv]; intro hx; cases hx)
  · intro e hv
    exact login_not_verified s db w req userAgent ipAddress u hq h (by rw [hv]; intro hx; cases hx)

/-- Witness for C20: the login of `scenarioUser` with a wrong password. -/
theorem login_verifier_failure_witness :
    (toyAuth.Login { users := [scenarioUser] } scenarioLoginWorld
        { Phone := utf8 "13800000000", Password := utf8 "bad" } [] []).code = CodeAuthFailed :=
  congrArg LoginResult.code
    ((login_verifier_failure toyAuth { users := [scenarioUser] } scenarioLoginWorld
      { Phone := utf8 "13800000000", Password := utf8 "bad" } [] [] scenarioUser rfl
      (by decide)).1 (by decide))

/-- C20, counterexample. The stored hash of the user cannot be parsed, so that the
verifier returns an error: `Login` answers `AuthFailed`, not `Internal`. -/
theorem login_verifier_error_auth_failed :
    toyCrypto.VerifyPassword (utf8 "pw") [1, 2, 3] = .error ()
      ∧ (toyAuth.Login { users := [{ scenarioUser with PasswordHash := [1, 2, 3] }] }
          scenarioLoginWorld { Phone := utf8 "13800000000", Password := utf8 "pw" } [] []).code
        = CodeAuthFailed
      ∧ CodeAuthFailed ≠ CodeInternalError := by
  decide

/-! ## C21 -/

theorem login_disabled (s : AuthService) (db : DB) (w : LoginWorld) (req : LoginRequest)
    (userAgent ipAddress : Bytes) (u : User) (hq : w.userQueryFails = false)
    (h : db.users.find? (fun u => u.Phone = req.Phone && u.DeletedAt.isNone) = some u)
    (hv : s.crypto.VerifyPassword req.Password u.PasswordHash = .ok true)
    (hs : u.Status = 0) :
    s.Login db w req userAgent ipAddress
      = { code := CodeAccountDisabled, msg := utf8 "account has been disabled", db := db } := by
  simp only [AuthService.Login, hq, Bool.false_eq_true, if_false, h, hv, hs, if_true]

/-- C21. For every `Login` call, the user query not failing, in which the user found
for the phone has status 0: the database is as before, so the session store is
unchanged, and no response, hence no token, is returned; the code is
`AccountDisabled` when the password verifies, and `AuthFailed` when it does not. -/
theorem login_disabled_no_session (s : AuthService) (db : DB) (w : LoginWorld)
    (req : LoginRequest) (userAgent ipAddress : Bytes) (u : User)
    (hq : w.userQueryFails = false)
    (h : db.users.find? (fun u => u.Phone = req.Phone && u.DeletedAt.isNone) = some u)
    (hs : u.Status = 0) :
    (s.Login db w req userAgent ipAddress).db = db
      ∧ (s.Login db w req userAgent ipAddress).db.sessions = db.sessions
      ∧ (s.Login db w req userAgent ipAddress).resp = none
      ∧ (s.crypto.VerifyPassword req.Password u.PasswordHash = .ok true →
          (s.Login db w req userAgent ipAddress).code = CodeAccountDisabled)
      ∧ (s.crypto.VerifyPassword req.Password u.PasswordHash ≠ .ok true →
          (s.Login db w req userAgent ipAddress).code = CodeAuthFailed) := by
  by_cases hv : s.crypto.VerifyPassword req.Password u.PasswordHash = .ok true
  · rw [login_disabled s db w req userAgent ipAddress u hq h hv hs]
    exact ⟨rfl, rfl, rfl, fun _ => rfl, fun hx => absurd hv hx⟩
  · rw [login_not_verified s db w req userAgent ipAddress u hq h hv]
    exact ⟨rfl, rfl, rfl, fun hx => absurd hx hv, fun _ => rfl⟩

/-- Witness for C21: `scenarioUser` disabled, with the right password and with a
wrong one. -/
theorem login_disabled_no_session_witness :
    (toyAuth.Login { users := [{ scenarioUser with Status := 0 }] } scenarioLoginWorld
        { Phone := utf8 "13800000000", Password := utf8 "pw" } [] []).code = CodeAccountDisabled
      ∧ (toyAuth.Login { users := [{ scenarioUser with Status := 0 }] } scenarioLoginWorld
        { Phone := utf8 "13800000000", Password := utf8 "bad" } [] []).code = CodeAuthFailed
      ∧ (toyAuth.Login { users := [{ scenarioUser with Status := 0 }] } scenarioLoginWorld
        { Phone := utf8 "13800000000", Password := utf8 "pw" } [] []).db.sessions = [] :=
  ⟨(login_disabled_no_session toyAuth { users := [{ scenarioUser with Status := 0 }] }
      scenarioLoginWorld { Phone := utf8 "13800000000", Password := utf8 "pw" } [] []
      { scenarioUser with Status := 0 } rfl (by decide) rfl).2.2.2.1 (by decide),
   by decide, by decide⟩

/-! ## C22 -/

theorem auth_session_found (secret : Bytes) (db : DB) (w : AuthWorld) (header : Bytes)
    (claims : TokenClaims) (session : Session)
    (hh : (utf8 "Bearer ").isPrefixOf header = true)
    (ht : ParseToken secret (header.drop 7) = .ok claims)
    (hq : w.sessionQueryFails = false)
    (hs : db.sessions.find? (fun x => x.JTI = claims.JTI && decide (x.ExpiresAt > w.now))
      = some session) :
    Auth secret db w header
      = if (if w.userQueryFails then none
            else db.users.find? (fun u => u.ID = session.UserID && u.DeletedAt.isNone)).isNone
          ∨ (if w.userQueryFails then none
            else db.users.find? (fun u => u.ID = session.UserID && u.DeletedAt.isNone)).any
              (fun u => u.Status = 0) then
          { outcome := .abort (modelFail 401 CodeAccountDisabled
              (utf8 "account has been disabled")),
            db := (PostgresSessionStore.DeleteByUserID db w.sessionDeleteFails session.UserID).1 }
        else
          { outcome := .next,
            keys := some { user_id := session.UserID, user_uuid := claims.UserUUID,
                           role := session.Role },
            db := db } := by
  have hne : header ≠ [] := by
    intro h0
    rw [h0] at hh
    revert hh
    decide
  have hl : (utf8 "Bearer ").length = 7 := by decide
  simp only [Auth, hne, hh, hl, ht, hq, hs, false_or, not_true_eq_false, if_false,
    Bool.false_eq_true]

theorem auth_session_missing (secret : Bytes) (db : DB) (w : AuthWorld) (header : Bytes)
    (claims : TokenClaims)
    (hh : (utf8 "Bearer ").isPrefixOf header = true)
    (ht : ParseToken secret (header.drop 7) = .ok claims)
    (hs : ∀ x ∈ db.sessions, x.JTI ≠ claims.JTI) :
    Auth secret db w header
      = { outcome := .abort (modelFail 401 CodeSessionExpired
            (utf8 "session expired, please login again")), db := db } := by
  have hne : header ≠ [] := by
    intro h0
    rw [h0] at hh
    revert hh
    decide
  have hl : (utf8 "Bearer ").length = 7 := by decide
  have hf : db.sessions.find? (fun x => x.JTI = claims.JTI && decide (x.ExpiresAt > w.now))
      = none := by
    rw [List.find?_eq_none]
    intro x hx
    simp [hs x hx]
  simp only [Auth, hne, hh, hl, ht, hf, false_or, not_true_eq_false, if_false, ite_self]

theorem find_user_disabled (db : DB) (userID : Int)
    (hu : ∀ u ∈ db.users, u.ID = userID → u.DeletedAt ≠ none ∨ u.Status = 0) :
    (db.users.find? (fun u => u.ID = userID && u.DeletedAt.isNone)).isNone
      ∨ (db.users.find? (fun u => u.ID = userID && u.DeletedAt.isNone)).any
          (fun u => u.Status = 0) := by
  cases hf : db.users.find? (fun u => u.ID = userID && u.DeletedAt.isNone) with
  | none => left; rfl
  | some u =>
    right
    have hp := List.find?_some hf
    have hm := List.mem_of_find?_eq_some hf
    simp only [Bool.and_eq_true, decide_eq_true_eq, Option.isNone_iff_eq_none] at hp
    rcases hu u hm hp.1 with h1 | h1
    · exact absurd hp.2 h1
    · simp [h1]

theorem deleteByUserID_sessions (db : DB) (userID : Int) :
    ∀ x ∈ (PostgresSessionStore.DeleteByUserID db false userID).1.sessions, x.UserID ≠ userID := by
  intro x hx
  simp only [PostgresSessionStore.DeleteByUserID, Bool.false_eq_true, if_false,
    List.mem_filter, Bool.not_eq_true', decide_eq_false_iff_not] at hx
  exact hx.2

theorem logOperation_sessions (s : AdminService) (db : DB) (fails : Bool) (operatorID : Int)
    (action targetType : Bytes) (targetID : Int) :
    (s.logOperation db fails operatorID action targetType targetID).sessions = db.sessions
      ∧ (s.logOperation db fails operatorID action targetType targetID).users = db.users := by
  unfold AdminService.logOperation
  split <;> exact ⟨rfl, rfl⟩

theorem updateUser_found (s : AdminService) (db : DB) (w : AdminWorld) (userUUID : Bytes)
    (req : UpdateUserRequest) (operatorID : Int) (u : User)
    (hl : w.lookupFails = false) (hf : db.users.find? (userWhere userUUID) = some u)
    (hup : w.updateFails = false) :
    (s.UpdateUser db w userUUID req operatorID).code = 0
      ∧ (s.UpdateUser db w userUUID req operatorID).db.users
        = db.users.map (fun x =>
            if x.ID = u.ID ∧ x.DeletedAt.isNone then
              { x with Name := req.Name.getD x.Name,
                       Department := match req.Department with
                         | some dep => some dep
                         | none => x.Department,
                       Role := req.Role.getD x.Role,
                       Status := req.Status.getD x.Status }
            else x)
      ∧ (req.Status = some 0 →
          (s.UpdateUser db w userUUID req operatorID).db.sessions
            = (PostgresSessionStore.DeleteByUserID db w.sessionDeleteFails u.ID).1.sessions)
      ∧ (req.Status ≠ some 0 →
          (s.UpdateUser db w userUUID req operatorID).db.sessions = db.sessions) := by
  simp only [AdminService.UpdateUser, hl, hf, hup, Bool.false_eq_true, if_false]
  refine ⟨trivial, ?_, ?_, ?_⟩
  · rw [(logOperation_sessions _ _ _ _ _ _ _).2]
    split
    · unfold PostgresSessionStore.DeleteByUserID
      split <;> rfl
    · rfl
  · intro h0
    rw [(logOperation_sessions _ _ _ _ _ _ _).1, if_pos h0]
    unfold PostgresSessionStore.DeleteByUserID
    split <;> rfl
  · intro h0
    rw [(logOperation_sessions _ _ _ _ _ _ _).1, if_neg h0]

/-- C22 (amended). First, for every request whose header carries a token that parses,
whose session is found unexpired, and whose user is soft-deleted or has status 0 (the
session query and the deletion not failing): `Auth` answers with status 401 and code
`AccountDisabled`, aborts the chain, so the handler does not run, sets no key, and
afterwards no session row with that user id remains. Second, for every `UpdateUser`
that finds the user and sets the status to 0 (the update not failing): the rows of
the user that are not deleted have status 0 afterwards; when the deletion of the
sessions does not fail, no session row of the user remains after `UpdateUser`
itself, and a later request with a token of one of these sessions is answered by
`Auth` with status 401 and code `SessionExpired`, not `AccountDisabled`. -/
theorem auth_rejects_disabled :
    (∀ (secret : Bytes) (db : DB) (w : AuthWorld) (header : Bytes) (claims : TokenClaims)
        (session : Session),
        (utf8 "Bearer ").isPrefixOf header = true →
        ParseToken secret (header.drop 7) = .ok claims →
        w.sessionQueryFails = false →
        db.sessions.find? (fun x => x.JTI = claims.JTI && decide (x.ExpiresAt > w.now))
          = some session →
        (∀ u ∈ db.users, u.ID = session.UserID → u.DeletedAt ≠ none ∨ u.Status = 0) →
        w.sessionDeleteFails = false →
        (Auth secret db w header).outcome
            = .abort (modelFail 401 CodeAccountDisabled (utf8 "account has been disabled"))
          ∧ (Auth secret db w header).keys = none
          ∧ ∀ x ∈ (Auth secret db w header).db.sessions, x.UserID ≠ session.UserID)
      ∧ (∀ (s : AdminService) (db : DB) (w : AdminWorld) (userUUID : Bytes)
          (req : UpdateUserRequest) (operatorID : Int) (u : User),
          w.lookupFails = false → db.users.find? (userWhere userUUID) = some u →
          w.updateFails = false → req.Status = some 0 →
          (s.UpdateUser db w userUUID req operatorID).code = 0
            ∧ (∀ x ∈ (s.UpdateUser db w userUUID req operatorID).db.users,
                x.ID = u.ID → x.DeletedAt ≠ none ∨ x.Status = 0)
            ∧ (w.sessionDeleteFails = false →
                (∀ x ∈ (s.UpdateUser db w userUUID req operatorID).db.sessions, x.UserID ≠ u.ID)
                ∧ ∀ (secret : Bytes) (aw : AuthWorld) (header : Bytes) (claims : TokenClaims),
                    (utf8 "Bearer ").isPrefixOf header = true →
                    ParseToken secret (header.drop 7) = .ok claims →
                    (∀ x ∈ db.sessions, x.JTI = claims.JTI → x.UserID = u.ID) →
                    Auth secret (s.UpdateUser db w userUUID req operatorID).db aw header
                      = { outcome := .abort (modelFail 401 CodeSessionExpired
                            (utf8 "session expired, please login again")),
                          db := (s.UpdateUser db w userUUID req operatorID).db })) := by
  constructor
  · intro secret db w header claims session hh ht hq hs hu hd
    rw [auth_session_found secret db w header claims session hh ht hq hs]
    have hdis : (if w.userQueryFails then none
          else db.users.find? (fun u => u.ID = session.UserID && u.DeletedAt.isNone)).isNone
        ∨ (if w.userQueryFails then none
          else db.users.find? (fun u => u.ID = session.UserID && u.DeletedAt.isNone)).any
            (fun u => u.Status = 0) := by
      by_cases hf : w.userQueryFails = true
      · left
        simp [hf]
      · simp only [hf, Bool.false_eq_true, if_false]
        exact find_user_disabled db session.UserID hu
    rw [if_pos hdis, hd]
    exact ⟨rfl, rfl, deleteByUserID_sessions db session.UserID⟩
  · intro s db w userUUID req operatorID u hl hf hup hst
    obtain ⟨h1, h2, h3, _⟩ := updateUser_found s db w userUUID req operatorID u hl hf hup
    refine ⟨h1, ?_, ?_⟩
    · intro x hx hid
      rw [h2, List.mem_map] at hx
      obtain ⟨y, _, hy⟩ := hx
      by_cases hc : y.ID = u.ID ∧ y.DeletedAt.isNone
      · rw [if_pos hc] at hy
        right
        rw [← hy, hst]
        rfl
      · rw [if_neg hc] at hy
        left
        rw [← hy] at hid ⊢
        intro hn
        exact hc ⟨hid, by rw [hn]; rfl⟩
    · intro hd
      have hs := h3 hst
      rw [hd] at hs
      have hno : ∀ x ∈ (s.UpdateUser db w userUUID req operatorID).db.sessions,
          x.UserID ≠ u.ID := by
        rw [hs]
        exact deleteByUserID_sessions db u.ID
      refine ⟨hno, ?_⟩
      intro secret aw header claims hh ht hj
      apply auth_session_missing secret _ aw header claims hh ht
      intro x hx hjx
      have hxd : x ∈ db.sessions := by
        rw [hs] at hx
        simp only [PostgresSessionStore.DeleteByUserID, Bool.false_eq_true, if_false,
          List.mem_filter] at hx
        exact hx.1
      exact hno x hx (hj x hxd hjx)

/-- Witness for C22: the user of `scenarioSessionDB` is disabled behind the back of
the services; the request with the token of the login is answered with
`AccountDisabled` and the session is deleted. -/
theorem auth_rejects_disabled_witness :
    (Auth (utf8 "secret")
        { scenarioSessionDB with users := [{ scenarioAdmin with Status := 0 }] }
        { now := 2000 } scenarioHeader).outcome
        = .abort (modelFail 401 CodeAccountDisabled (utf8 "account has been disabled"))
      ∧ (Auth (utf8 "secret")
        { scenarioSessionDB with users := [{ scenarioAdmin with Status := 0 }] }
        { now := 2000 } scenarioHeader).keys = none
      ∧ ∀ x ∈ (Auth (utf8 "secret")
          { scenarioSessionDB with users := [{ scenarioAdmin with Status := 0 }] }
          { now := 2000 } scenarioHeader).db.sessions, x.UserID ≠ 1 :=
  auth_rejects_disabled.1 (utf8 "secret")
    { scenarioSessionDB with users := [{ scenarioAdmin with Status := 0 }] }
    { now := 2000 } scenarioHeader
    { UserUUID := List.replicate 16 17, JTI := List.replicate 16 34 }
    { ID := 1, JTI := List.replicate 16 34, UserID := 1, Role := utf8 "admin",
      ExpiresAt := 3600001000 }
    (by decide!) (by decide!) rfl (by decide!) (by decide) rfl

/-- C22, counterexample. The admin sets the status of the user of `scenarioSessionDB`
to 0 through `UpdateUser`. The token of the login, accepted before, is then
answered with status 401 and code `SessionExpired`, where the specification says
`AccountDisabled`: `UpdateUser` has already deleted the session. -/
theorem disabled_by_admin_session_expired :
    (Auth (utf8 "secret") scenarioSessionDB { now := 2000 } scenarioHeader).outcome = .next
      ∧ (toyServices.admin.UpdateUser scenarioSessionDB {} (uuidString scenarioAdmin.UUID)
          { Status := some 0 } 9).code = 0
      ∧ (Auth (utf8 "secret")
          (toyServices.admin.UpdateUser scenarioSessionDB {} (uuidString scenarioAdmin.UUID)
            { Status := some 0 } 9).db { now := 2000 } scenarioHeader).outcome
        = .abort (modelFail 401 CodeSessionExpired (utf8 "session expired, please login again"))
      ∧ CodeSessionExpired ≠ CodeAccountDisabled := by
  decide!

/-! ## C23 -/

theorem find_map_user (rows : List User) (userID : Int) (f : User → User)
    (hf : ∀ u, (f u).ID = u.ID ∧ (f u).DeletedAt = u.DeletedAt) :
    (rows.map f).find? (fun u => u.ID = userID && u.DeletedAt.isNone)
      = (rows.find? (fun u => u.ID = userID && u.DeletedAt.isNone)).map f := by
  induction rows with
  | nil => rfl
  | cons a rest ih =>
    by_cases h : (a.ID = userID && a.DeletedAt.isNone) = true
    · have h2 : ((f a).ID = userID && (f a).DeletedAt.isNone) = true := by
        rw [(hf a).1, (hf a).2]
        exact h
      rw [List.map_cons, List.find?_cons_of_pos _ (by simpa using h2),
        List.find?_cons_of_pos _ (by simpa using h)]
      rfl
    · have h2 : ¬ ((f a).ID = userID && (f a).DeletedAt.isNone) = true := by
        rw [(hf a).1, (hf a).2]
        exact h
      rw [List.map_cons, List.find?_cons_of_neg _ (by simpa using h2),
        List.find?_cons_of_neg _ (by simpa using h)]
      exact ih

theorem auth_congr (secret : Bytes) (db1 db2 : DB) (w : AuthWorld) (header : Bytes)
    (hs : db1.sessions = db2.sessions)
    (hu : ∀ userID : Int,
      ((db1.users.find? (fun u => u.ID = userID && u.DeletedAt.isNone)).isNone
        = (db2.users.find? (fun u => u.ID = userID && u.DeletedAt.isNone)).isNone)
      ∧ ((db1.users.find? (fun u => u.ID = userID && u.DeletedAt.isNone)).any
          (fun u => u.Status = 0)
        = (db2.users.find? (fun u => u.ID = userID && u.DeletedAt.isNone)).any
          (fun u => u.Status = 0))) :
    (Auth secret db1 w header).outcome = (Auth secret db2 w header).outcome
      ∧ (Auth secret db1 w header).keys = (Auth secret db2 w header).keys := by
  unfold Auth
  rw [hs]
  split
  · exact ⟨rfl, rfl⟩
  · simp only []
    split
    · exact ⟨rfl, rfl⟩
    · split
      · exact ⟨rfl, rfl⟩
      · rename_i session _
        by_cases hq : w.userQueryFails = true
        · simp [hq]
        · simp only [hq, Bool.false_eq_true, if_false, (hu session.UserID).1,
            (hu session.UserID).2]
          split <;> exact ⟨rfl, rfl⟩

theorem updateUser_sessions (s : AdminService) (db : DB) (w : AdminWorld) (userUUID : Bytes)
    (req : UpdateUserRequest) (operatorID : Int) (hst : req.Status ≠ some 0) :
    (s.UpdateUser db w userUUID req operatorID).db.sessions = db.sessions := by
  unfold AdminService.UpdateUser
  split
  · rfl
  · simp only []
    split
    · rfl
    · rw [(logOperation_sessions _ _ _ _ _ _ _).1]

theorem updateUser_users (s : AdminService) (db : DB) (w : AdminWorld) (userUUID : Bytes)
    (req : UpdateUserRequest) (operatorID : Int) (hst : req.Status = none) :
    ∃ f : User → User,
      (∀ u, (f u).ID = u.ID ∧ (f u).DeletedAt = u.DeletedAt ∧ (f u).Status = u.Status)
      ∧ (s.UpdateUser db w userUUID req operatorID).db.users = db.users.map f := by
  unfold AdminService.UpdateUser
  split
  · exact ⟨id, fun _ => ⟨rfl, rfl, rfl⟩, by simp⟩
  · rename_i user _
    simp only []
    split
    · exact ⟨id, fun _ => ⟨rfl, rfl, rfl⟩, by simp⟩
    · rw [(logOperation_sessions _ _ _ _ _ _ _).2]
      have hne : req.Status ≠ some 0 := by rw [hst]; intro h; cases h
      rw [if_neg hne]
      refine ⟨fun x =>
        if x.ID = user.ID ∧ x.DeletedAt.isNone then
          { x with Name := req.Name.getD x.Name,
                   Department := match req.Department with
                     | some dep => some dep
                     | none => x.Department,
                   Role := req.Role.getD x.Role,
                   Status := req.Status.getD x.Status }
        else x, ?_, rfl⟩
      intro x
      dsimp only
      split
      · refine ⟨rfl, rfl, ?_⟩
        rw [hst]
        rfl
      · exact ⟨rfl, rfl, rfl⟩

/-- C23 (amended). The role that `Auth` hands to the role gate is the role stored in
the session row at login, not the current role of the user: whenever `Auth` lets a
request through, the keys it sets are the user id and the role of a session row
with the JTI of the token, unexpired, and the user UUID of the token; the user row
is read only to see that it exists, is not deleted and has a status other than 0.
`UpdateUser` without a status leaves the session rows as they were, with their
roles, and after it `Auth` gives every request the outcome and the keys it gave
before, whatever the new role of the user. -/
theorem auth_role_snapshot :
    (∀ (secret : Bytes) (db : DB) (w : AuthWorld) (header : Bytes),
        (Auth secret db w header).outcome = .next →
        ∃ claims, ParseToken secret (header.drop 7) = .ok claims
          ∧ ∃ session ∈ db.sessions, session.JTI = claims.JTI ∧ session.ExpiresAt > w.now
            ∧ (Auth secret db w header).keys
              = some { user_id := session.UserID, user_uuid := claims.UserUUID,
                       role := session.Role })
      ∧ (∀ (s : AdminService) (db : DB) (w : AdminWorld) (userUUID : Bytes)
          (req : UpdateUserRequest) (operatorID : Int), req.Status = none →
          (s.UpdateUser db w userUUID req operatorID).db.sessions = db.sessions
            ∧ ∀ (secret : Bytes) (aw : AuthWorld) (header : Bytes),
                (Auth secret (s.UpdateUser db w userUUID req operatorID).db aw header).outcome
                    = (Auth secret db aw header).outcome
                  ∧ (Auth secret (s.UpdateUser db w userUUID req operatorID).db aw header).keys
                    = (Auth secret db aw header).keys) := by
  constructor
  · intro secret db w header
    unfold Auth
    have hl : (utf8 "Bearer ").length = 7 := by decide
    rw [hl]
    split
    · intro h; cases h
    · simp only []
      split
      · intro h; cases h
      · rename_i claims hp
        split
        · intro h; cases h
        · rename_i session hfind
          have hf : db.sessions.find?
              (fun x => x.JTI = claims.JTI && decide (x.ExpiresAt > w.now)) = some session := by
            by_cases hq : w.sessionQueryFails = true
            · simp [hq] at hfind
            · simpa [hq] using hfind
          have hp2 := List.find?_some hf
          simp only [Bool.and_eq_true, decide_eq_true_eq] at hp2
          have hm := List.mem_of_find?_eq_some hf
          split_ifs
          all_goals
            intro h
            first
              | exact h.elim
              | exact ⟨claims, hp, session, hm, hp2.1, hp2.2, rfl⟩
  · intro s db w userUUID req operatorID hst
    have hne : req.Status ≠ some 0 := by rw [hst]; intro h; cases h
    have hs := updateUser_sessions s db w userUUID req operatorID hne
    refine ⟨hs, ?_⟩
    intro secret aw header
    obtain ⟨f, hf, hu⟩ := updateUser_users s db w userUUID req operatorID hst
    apply auth_congr secret _ db aw header hs
    intro userID
    rw [hu, find_map_user db.users userID f (fun u => ⟨(hf u).1, (hf u).2.1⟩)]
    cases db.users.find? (fun u => u.ID = userID && u.DeletedAt.isNone) with
    | none => exact ⟨rfl, rfl⟩
    | some u =>
      refine ⟨rfl, ?_⟩
      simp only [Option.map_some', Option.any_some, (hf u).2.2]

/-- C23, counterexample. `scenarioAdmin` logs in as admin; the admin role is then
taken away through `UpdateUser`, so that the current role in the user table is
"user". The request with the token of the login still passes `Auth`, which hands the
role "admin" to the role gate, and passes `RBAC("admin")`. -/
theorem stale_admin_role_passes :
    ((toyServices.admin.UpdateUser scenarioSessionDB {} (uuidString scenarioAdmin.UUID)
        { Role := some (utf8 "user") } 9).db.users.map (fun u => u.Role)) = [utf8 "user"]
      ∧ (Auth (utf8 "secret")
          (toyServices.admin.UpdateUser scenarioSessionDB {} (uuidString scenarioAdmin.UUID)
            { Role := some (utf8 "user") } 9).db { now := 2000 } scenarioHeader).outcome = .next
      ∧ (Auth (utf8 "secret")
          (toyServices.admin.UpdateUser scenarioSessionDB {} (uuidString scenarioAdmin.UUID)
            { Role := some (utf8 "user") } 9).db { now := 2000 } scenarioHeader).keys
        = some { user_id := 1, user_uuid := List.replicate 16 17, role := utf8 "admin" }
      ∧ RBAC [utf8 "admin"] (some (utf8 "admin")) = .next := by
  decide!

/-! ## C24 -/

theorem hexCharToByte_isSome (c : Nat) : (hexCharToByte c).isSome ↔ IsHexChar c := by
  unfold hexCharToByte IsHexChar
  split
  · simp; omega
  · split
    · simp; omega
    · split
      · simp; omega
      · simp; omega

theorem hexDecodeImpl_isSome : ∀ c : Bytes,
    ((hexDecodeImpl c).isSome ↔ c.length % 2 = 0 ∧ ∀ b ∈ c, IsHexChar b)
  | [] => by simp [hexDecodeImpl]
  | [_] => by simp [hexDecodeImpl]
  | p :: q :: rest => by
    have ih := hexDecodeImpl_isSome rest
    have hp := hexCharToByte_isSome p
    have hq := hexCharToByte_isSome q
    simp only [hexDecodeImpl]
    cases h1 : hexCharToByte p with
    | none =>
      rw [h1] at hp
      simp only [Option.isSome_none, Bool.false_eq_true, false_iff] at hp
      simp [hp]
    | some a =>
      rw [h1] at hp
      cases h2 : hexCharToByte q with
      | none =>
        rw [h2] at hq
        simp only [Option.isSome_none, Bool.false_eq_true, false_iff] at hq
        simp [hq]
      | some b =>
        rw [h2] at hq
        simp only [Option.isSome_some, true_iff] at hp hq
        simp only [Option.isSome_map', ih, List.length_cons, List.mem_cons, forall_eq_or_imp, hp,
          hq, true_and]
        constructor
        · rintro ⟨h, hall⟩; exact ⟨by omega, hall⟩
        · rintro ⟨h, hall⟩; exact ⟨by omega, hall⟩

theorem hexDecodeImpl_length : ∀ (c bs : Bytes), hexDecodeImpl c = some bs →
    bs.length * 2 = c.length
  | [], bs, h => by simp [hexDecodeImpl] at h; subst h; rfl
  | [_], bs, h => by simp [hexDecodeImpl] at h
  | p :: q :: rest, bs, h => by
    simp only [hexDecodeImpl] at h
    cases h1 : hexCharToByte p with
    | none => rw [h1] at h; simp at h
    | some a =>
      cases h2 : hexCharToByte q with
      | none => rw [h1, h2] at h; simp at h
      | some b =>
        rw [h1, h2] at h
        cases h3 : hexDecodeImpl rest with
        | none => rw [h3] at h; simp at h
        | some t =>
          rw [h3] at h
          simp at h
          subst h
          have := hexDecodeImpl_length rest t h3
          simp only [List.length_cons]
          omega

theorem removeSpaces_hex (s : Bytes) (h : ∀ c ∈ s, IsHexChar c) : removeSpaces s = s := by
  unfold removeSpaces
  rw [List.filter_eq_self]
  intro c hc
  have := h c hc
  unfold IsHexChar at this
  simp only [bne_iff_ne, ne_eq]
  omega

theorem space_heads : ∀ sp ∈ unicodeSpaces, sp ≠ [] ∧ ¬ IsHexChar (sp.headD 0) := by
  decide

theorem space_lasts : ∀ sp ∈ unicodeSpaces, sp ≠ [] ∧ ¬ IsHexChar (sp.reverse.headD 0) := by
  decide

theorem trimSpaceLeft_hex (fuel : Nat) (c : Nat) (rest : Bytes) (h : IsHexChar c) :
    trimSpaceLeft fuel (c :: rest) = c :: rest := by
  cases fuel with
  | zero => rfl
  | succ n =>
    have hf : unicodeSpaces.find? (fun sp => sp.isPrefixOf (c :: rest)) = none := by
      rw [List.find?_eq_none]
      intro sp hsp
      obtain ⟨hne, hb⟩ := space_heads sp hsp
      cases sp with
      | nil => exact absurd rfl hne
      | cons b t =>
        simp only [List.headD_cons] at hb
        simp only [List.isPrefixOf, Bool.and_eq_true, beq_iff_eq, not_and]
        intro hbc
        rw [hbc] at hb
        exact absurd h hb
    simp only [trimSpaceLeft, hf]

theorem trimSpaceRight_hex (fuel : Nat) (s : Bytes) (c : Nat) (rest : Bytes)
    (hs : s.reverse = c :: rest) (h : IsHexChar c) :
    trimSpaceRight fuel s = s := by
  cases fuel with
  | zero => rfl
  | succ n =>
    have hf : unicodeSpaces.find? (fun sp => sp.isSuffixOf s) = none := by
      rw [List.find?_eq_none]
      intro sp hsp
      obtain ⟨hne, hb⟩ := space_lasts sp hsp
      cases hr : sp.reverse with
      | nil => exact absurd (List.reverse_eq_nil_iff.mp hr) hne
      | cons b t =>
        rw [hr] at hb
        simp only [List.headD_cons] at hb
        simp only [List.isSuffixOf, hr, hs, List.isPrefixOf, Bool.and_eq_true, beq_iff_eq,
          not_and]
        intro hbc
        rw [hbc] at hb
        exact absurd h hb
    simp only [trimSpaceRight, hf]

theorem stringsTrimSpace_hex (s : Bytes) (h : ∀ c ∈ s, IsHexChar c) :
    stringsTrimSpace s = s := by
  unfold stringsTrimSpace
  cases s with
  | nil => rfl
  | cons c rest =>
    rw [trimSpaceLeft_hex _ c rest (h c (List.mem_cons_self _ _))]
    cases hr : (c :: rest).reverse with
    | nil => simp at hr
    | cons l t =>
      apply trimSpaceRight_hex _ _ l t hr
      apply h
      have : l ∈ (c :: rest).reverse := by rw [hr]; exact List.mem_cons_self _ _
      exact List.mem_reverse.mp this

/-- C24 (amended). `CreateDevice` first removes every space from the `device_key`
and trims the white space at its ends; call the rest the cleaned key. The request
is answered `ParamError` if and only if the cleaned key is not exactly 32
hexadecimal characters, of either case; then no device row is created, and the
database is as before. A `device_key` of exactly 32 hexadecimal characters of either
case is its own cleaned key. When the cleaned key is accepted it decodes to 16
bytes, and if the key manager wraps them and the insert does not fail, the new
device row holds the wrapped key and has status 1. -/
theorem createDevice_key_rule (s : AdminService) (kms : LocalKMS) (db : DB) (w : AdminWorld)
    (req : CreateDeviceRequest) (operatorID : Int) :
    ((s.CreateDevice kms db w req operatorID).code = CodeParamError ↔
        ¬ ((stringsTrimSpace (removeSpaces req.DeviceKey)).length = 32
          ∧ ∀ c ∈ stringsTrimSpace (removeSpaces req.DeviceKey), IsHexChar c))
      ∧ ((s.CreateDevice kms db w req operatorID).code = CodeParamError →
          (s.CreateDevice kms db w req operatorID).db = db
            ∧ (s.CreateDevice kms db w req operatorID).device = none)
      ∧ ((∀ c ∈ req.DeviceKey, IsHexChar c) →
          stringsTrimSpace (removeSpaces req.DeviceKey) = req.DeviceKey)
      ∧ (∀ keyBytes encrypted : Bytes,
          (stringsTrimSpace (removeSpaces req.DeviceKey)).length = 32 →
          hexDecodeImpl (stringsTrimSpace (removeSpaces req.DeviceKey)) = some keyBytes →
          kms.EncryptDeviceKey w.nonceRand keyBytes = .ok encrypted →
          w.createFails = false →
          keyBytes.length = 16
            ∧ (s.CreateDevice kms db w req operatorID).code = 0
            ∧ (s.CreateDevice kms db w req operatorID).db.devices
              = db.devices ++ [{ ID := nextDeviceID db, DeviceID := req.DeviceID,
                                 KeyEncrypted := encrypted, Status := 1 }]) := by
  have hsome := hexDecodeImpl_isSome (stringsTrimSpace (removeSpaces req.DeviceKey))
  refine ⟨?_, ?_, ?_, ?_⟩
  · unfold AdminService.CreateDevice decodeHexKey
    simp only []
    by_cases hl : (stringsTrimSpace (removeSpaces req.DeviceKey)).length = 32
    · rw [if_neg (by simpa using hl)]
      cases hd : hexDecodeImpl (stringsTrimSpace (removeSpaces req.DeviceKey)) with
      | none =>
        rw [hd] at hsome
        simp only [Option.isSome_none, Bool.false_eq_true, false_iff, not_and] at hsome
        simp only [true_iff, not_and]
        intro _
        exact hsome (by omega)
      | some keyBytes =>
        rw [hd] at hsome
        simp only [Option.isSome_some, true_iff] at hsome
        have hok : (stringsTrimSpace (removeSpaces req.DeviceKey)).length = 32
            ∧ ∀ c ∈ stringsTrimSpace (removeSpaces req.DeviceKey), IsHexChar c := ⟨hl, hsome.2⟩
        refine ⟨fun h => ?_, fun hn => absurd hok hn⟩
        exfalso
        revert h
        repeat' split
        all_goals simp_all [CodeInternalError, CodeParamError]
    · rw [if_pos (by simpa using hl)]
      simp only [true_iff, not_and]
      intro h
      exact absurd h hl
  · unfold AdminService.CreateDevice decodeHexKey
    simp only []
    split
    · intro _; exact ⟨rfl, rfl⟩
    · split
      · intro _; exact ⟨rfl, rfl⟩
      · split
        · intro h; simp [CodeInternalError, CodeParamError] at h
        · split
          · intro h; simp [CodeInternalError, CodeParamError] at h
          · intro h; simp [CodeInternalError, CodeParamError] at h
  · intro h
    rw [removeSpaces_hex _ h]
    exact stringsTrimSpace_hex _ h
  · intro keyBytes encrypted hl hd he hc
    have hlen := hexDecodeImpl_length _ _ hd
    refine ⟨by omega, ?_, ?_⟩
    · simp only [AdminService.CreateDevice, decodeHexKey, hl, hd, he, hc, ne_eq,
        not_true_eq_false, if_false, Bool.false_eq_true]
    · simp only [AdminService.CreateDevice, decodeHexKey, hl, hd, he, hc, ne_eq,
        not_true_eq_false, if_false, Bool.false_eq_true, logOperation_devices]

/-- C24, counterexample. A `device_key` of 32 hexadecimal characters with the
letters in upper case, and one of 32 lower-case hexadecimal characters with a space
after every fourth and a line feed at the end, are both accepted, and a device row
is created with the same wrapped key as for the key in lower case without
spaces. -/
theorem createDevice_accepts_upper_and_spaces :
    (toyServices.admin.CreateDevice toyKMS {} { nonceRand := List.replicate 12 1 }
        { DeviceID := utf8 "L9", DeviceKey := utf8 "0123456789ABCDEF0123456789ABCDEF" } 9).code = 0
      ∧ (toyServices.admin.CreateDevice toyKMS {} { nonceRand := List.replicate 12 1 }
        { DeviceID := utf8 "L9",
          DeviceKey := utf8 "0123 4567 89ab cdef 0123 4567 89ab cdef\n" } 9).code = 0
      ∧ (toyServices.admin.CreateDevice toyKMS {} { nonceRand := List.replicate 12 1 }
        { DeviceID := utf8 "L9", DeviceKey := utf8 "0123456789ABCDEF0123456789ABCDEF" } 9).db.devices
        = (toyServices.admin.CreateDevice toyKMS {} { nonceRand := List.replicate 12 1 }
          { DeviceID := utf8 "L9", DeviceKey := utf8 "0123456789abcdef0123456789abcdef" } 9).db.devices
      ∧ (toyServices.admin.CreateDevice toyKMS {} { nonceRand := List.replicate 12 1 }
        { DeviceID := utf8 "L9",
          DeviceKey := utf8 "0123 4567 89ab cdef 0123 4567 89ab cdef\n" } 9).db.devices
        = (toyServices.admin.CreateDevice toyKMS {} { nonceRand := List.replicate 12 1 }
          { DeviceID := utf8 "L9", DeviceKey := utf8 "0123456789abcdef0123456789abcdef" } 9).db.devices
      ∧ (toyServices.admin.CreateDevice toyKMS {} { nonceRand := List.replicate 12 1 }
        { DeviceID := utf8 "L9", DeviceKey := utf8 "0123456789abcdef0123456789abcdef" } 9).db.devices.length
        = 1 := by
  decide

/-! ## C25 -/

theorem logOperation_permissions (s : AdminService) (db : DB) (fails : Bool) (operatorID : Int)
    (action targetType : Bytes) (targetID : Int) :
    (s.logOperation db fails operatorID action targetType targetID).permissions
      = db.permissions := by
  unfold AdminService.logOperation
  split <;> rfl

theorem activeUnique_map (ps : List Permission) (f : Permission → Permission)
    (hf : ∀ p, (f p = p ∨ (f p).Status ≠ 1)
      ∨ ((f p).Status = p.Status ∧ (f p).UserID = p.UserID ∧ (f p).DeviceType = p.DeviceType
        ∧ (f p).DeviceID = p.DeviceID))
    (h : ActiveUnique ps) : ActiveUnique (ps.map f) := by
  unfold ActiveUnique at *
  rw [List.pairwise_map]
  refine h.imp ?_
  intro a b hab htw
  apply hab
  obtain ⟨h1, h2, h3, h4, h5⟩ := htw
  have ka : a.Status = 1 ∧ (f a).UserID = a.UserID ∧ (f a).DeviceType = a.DeviceType
      ∧ (f a).DeviceID = a.DeviceID := by
    rcases hf a with (e | e) | e
    · rw [e] at h1; exact ⟨h1, by rw [e], by rw [e], by rw [e]⟩
    · exact absurd h1 e
    · exact ⟨by rw [← e.1]; exact h1, e.2.1, e.2.2.1, e.2.2.2⟩
  have kb : b.Status = 1 ∧ (f b).UserID = b.UserID ∧ (f b).DeviceType = b.DeviceType
      ∧ (f b).DeviceID = b.DeviceID := by
    rcases hf b with (e | e) | e
    · rw [e] at h2; exact ⟨h2, by rw [e], by rw [e], by rw [e]⟩
    · exact absurd h2 e
    · exact ⟨by rw [← e.1]; exact h2, e.2.1, e.2.2.1, e.2.2.2⟩
  exact ⟨ka.1, kb.1, by rw [← ka.2.1, ← kb.2.1]; exact h3,
    by rw [← ka.2.2.1, ← kb.2.2.1]; exact h4, by rw [← ka.2.2.2, ← kb.2.2.2]; exact h5⟩

theorem grantPermission_permissions (s : AdminService) (db : DB) (w : AdminWorld)
    (req : GrantPermissionRequest) (operatorID : Int) :
    (s.GrantPermission db w req operatorID).db.permissions = db.permissions
      ∨ (∃ e, db.permissions.find? (fun p => p.UserID = req.UserID
              && p.DeviceType = req.deviceType && p.DeviceID = req.DeviceID && p.Status = 1)
            = some e
          ∧ w.lookupFails = false ∧ w.updateFails = false
          ∧ (s.GrantPermission db w req operatorID).code = 0
          ∧ (s.GrantPermission db w req operatorID).db.permissions
            = db.permissions.map (fun p =>
                if p.ID = e.ID then { p with ValidUntil := req.ValidUntil } else p))
      ∨ (db.permissions.find? (fun p => p.UserID = req.UserID
              && p.DeviceType = req.deviceType && p.DeviceID = req.DeviceID && p.Status = 1)
            = none
          ∧ (s.GrantPermission db w req operatorID).db.permissions
            = db.permissions ++
              [{ ID := nextPermissionID db, UserID := req.UserID, DeviceType := req.deviceType,
                 DeviceID := req.DeviceID, GrantedBy := operatorID, ValidFrom := req.ValidFrom,
                 ValidUntil := req.ValidUntil, Status := 1 }]) := by
  have hdt : (if req.DeviceType = [] then DeviceTypeLock else req.DeviceType)
      = req.deviceType := rfl
  unfold AdminService.GrantPermission
  simp only [hdt]
  generalize req.deviceType = dt
  split
  · left; rfl
  · split
    · rename_i e he
      split
      · left; rfl
      · rename_i hu
        right; left
        refine ⟨e, he, by simpa using ‹¬ w.lookupFails = true›, by simpa using hu, rfl, ?_⟩
        rw [logOperation_permissions]
    · rename_i he
      split
      · left; rfl
      · split
        · left; rfl
        · split
          · left; rfl
          · right; right
            refine ⟨he, ?_⟩
            rw [logOperation_permissions]

theorem grantPermission_existing (s : AdminService) (db : DB) (w : AdminWorld)
    (req : GrantPermissionRequest) (operatorID : Int) (e : Permission)
    (hl : w.lookupFails = false) (hu : w.updateFails = false)
    (hf : db.permissions.find? (fun p => p.UserID = req.UserID
        && p.DeviceType = req.deviceType && p.DeviceID = req.DeviceID && p.Status = 1) = some e) :
    (s.GrantPermission db w req operatorID).code = 0
      ∧ (s.GrantPermission db w req operatorID).db.permissions
        = db.permissions.map (fun p =>
            if p.ID = e.ID then { p with ValidUntil := req.ValidUntil } else p) := by
  have hdt : (if req.DeviceType = [] then DeviceTypeLock else req.DeviceType)
      = req.deviceType := rfl
  simp only [AdminService.GrantPermission, hdt, hl, hu, hf, Bool.false_eq_true, if_false,
    logOperation_permissions]
  exact ⟨trivial, trivial⟩

theorem grantPermission_activeUnique (s : AdminService) (db : DB) (w : AdminWorld)
    (req : GrantPermissionRequest) (operatorID : Int) (h : ActiveUnique db.permissions) :
    ActiveUnique (s.GrantPermission db w req operatorID).db.permissions := by
  rcases grantPermission_permissions s db w req operatorID with e | ⟨e, _, _, _, _, hp⟩ | ⟨hn, hp⟩
  · rw [e]; exact h
  · rw [hp]
    apply activeUnique_map _ _ _ h
    intro p
    right
    split <;> exact ⟨rfl, rfl, rfl, rfl⟩
  · rw [hp]
    unfold ActiveUnique at *
    rw [List.pairwise_append]
    refine ⟨h, List.pairwise_singleton _ _, ?_⟩
    intro a ha b hb
    rw [List.mem_singleton] at hb
    rw [hb]
    rw [List.find?_eq_none] at hn
    have := hn a ha
    intro htw
    apply this
    obtain ⟨h1, _, h3, h4, h5⟩ := htw
    simp [h1, h3, h4, h5]

theorem revokePermission_activeUnique (s : AdminService) (db : DB) (w : AdminWorld)
    (permID : Int) (operatorID : Int) (h : ActiveUnique db.permissions) :
    ActiveUnique (s.RevokePermission db w permID operatorID).db.permissions := by
  have hm : ActiveUnique (db.permissions.map (fun p =>
      if (decide (p.ID = permID) && decide (p.Status = 1)) = true then
        { p with Status := 0, RevokedBy := some operatorID, RevokedAt := some w.now }
      else p)) := by
    apply activeUnique_map _ _ _ h
    intro p
    left
    dsimp only
    split
    · right
      simp
    · left; rfl
  unfold AdminService.RevokePermission
  simp only []
  split_ifs
  all_goals first
    | exact h
    | (rw [logOperation_permissions]; exact hm)

theorem batchGrantPermissions_activeUnique (s : AdminService) :
    ∀ (reqs : List (AdminWorld × GrantPermissionRequest)) (db : DB) (operatorID : Int),
      ActiveUnique db.permissions →
      ActiveUnique (s.BatchGrantPermissions db reqs operatorID).db.permissions := by
  intro reqs
  induction reqs with
  | nil => intro db operatorID h; exact h
  | cons a rest ih =>
    intro db operatorID h
    obtain ⟨w, p⟩ := a
    unfold AdminService.BatchGrantPermissions
    simp only []
    split
    · exact grantPermission_activeUnique s db w p operatorID h
    · exact ih _ operatorID (grantPermission_activeUnique s db w p operatorID h)

theorem find_active_unique (ps : List Permission) (e : Permission) (userID : Int)
    (deviceType deviceID : Bytes) (h : ActiveUnique ps) (he : e ∈ ps)
    (h1 : e.Status = 1) (h2 : e.UserID = userID) (h3 : e.DeviceType = deviceType)
    (h4 : e.DeviceID = deviceID) :
    ps.find? (fun p => p.UserID = userID && p.DeviceType = deviceType && p.DeviceID = deviceID
      && p.Status = 1) = some e := by
  induction ps with
  | nil => cases he
  | cons a rest ih =>
    unfold ActiveUnique at h
    rw [List.pairwise_cons] at h
    by_cases ha : (a.UserID = userID && a.DeviceType = deviceType && a.DeviceID = deviceID
        && a.Status = 1) = true
    · rw [List.find?_cons_of_pos _ (by simpa using ha)]
      rcases List.mem_cons.mp he with e1 | e1
      · rw [e1]
      · exfalso
        simp only [Bool.and_eq_true, decide_eq_true_eq] at ha
        exact h.1 e e1 ⟨ha.2, h1, by rw [ha.1.1.1, h2], by rw [ha.1.1.2, h3], by rw [ha.1.2, h4]⟩
    · rw [List.find?_cons_of_neg _ (by simpa using ha)]
      rcases List.mem_cons.mp he with e1 | e1
      · exfalso
        apply ha
        rw [← e1]
        simp [h1, h2, h3, h4]
      · exact ih h.2 e1

/-- C25. If the permission table holds at most one row with status 1 for each user,
device type and device id, it still does after every `GrantPermission`, every
`BatchGrantPermissions` and every `RevokePermission`. And granting, with no
statement failing, a triple for which the table holds an active row `e` returns
code 0, creates no row, and changes nothing but `valid_until`, set to the requested
value, in the rows with the primary key of `e`: every row keeps its place, and its
`valid_from`, `granted_by` and all other columns. -/
theorem permission_active_unique (s : AdminService) (db : DB)
    (h : ActiveUnique db.permissions) :
    (∀ (w : AdminWorld) (req : GrantPermissionRequest) (operatorID : Int),
        ActiveUnique (s.GrantPermission db w req operatorID).db.permissions)
      ∧ (∀ (reqs : List (AdminWorld × GrantPermissionRequest)) (operatorID : Int),
          ActiveUnique (s.BatchGrantPermissions db reqs operatorID).db.permissions)
      ∧ (∀ (w : AdminWorld) (permID operatorID : Int),
          ActiveUnique (s.RevokePermission db w permID operatorID).db.permissions)
      ∧ (∀ (w : AdminWorld) (req : GrantPermissionRequest) (operatorID : Int) (e : Permission),
          e ∈ db.permissions → e.Status = 1 → e.UserID = req.UserID →
          e.DeviceType = req.deviceType → e.DeviceID = req.DeviceID →
          w.lookupFails = false → w.updateFails = false →
          (s.GrantPermission db w req operatorID).code = 0
            ∧ (s.GrantPermission db w req operatorID).db.permissions.length
              = db.permissions.length
            ∧ ∀ (i : Nat) (p : Permission), db.permissions[i]? = some p →
                (s.GrantPermission db w req operatorID).db.permissions[i]?
                  = some (if p.ID = e.ID then { p with ValidUntil := req.ValidUntil } else p)) := by
  refine ⟨fun w req operatorID => grantPermission_activeUnique s db w req operatorID h,
    fun reqs operatorID => batchGrantPermissions_activeUnique s reqs db operatorID h,
    fun w permID operatorID => revokePermission_activeUnique s db w permID operatorID h, ?_⟩
  intro w req operatorID e he h1 h2 h3 h4 hl hu
  have hf := find_active_unique db.permissions e req.UserID req.deviceType req.DeviceID h he
    h1 h2 h3 h4
  obtain ⟨hc, hp⟩ := grantPermission_existing s db w req operatorID e hl hu hf
  refine ⟨hc, by rw [hp, List.length_map], ?_⟩
  intro i p hi
  rw [hp, List.getElem?_map, hi]
  rfl

/-- Witness for C25: user 7 holds an active permission on the lock "L1"; granting it
again, by another operator and with other dates, leaves one row, with the old
`valid_from` and `granted_by` and the new `valid_until`. -/
theorem permission_active_unique_witness :
    ActiveUnique (toyServices.admin.GrantPermission scenarioPermDB {}
        { UserID := 7, DeviceID := utf8 "L1", ValidFrom := 99, ValidUntil := some 500 }
        8).db.permissions
      ∧ (toyServices.admin.GrantPermission scenarioPermDB {}
        { UserID := 7, DeviceID := utf8 "L1", ValidFrom := 99, ValidUntil := some 500 }
        8).db.permissions
        = [{ ID := 1, UserID := 7, DeviceType := DeviceTypeLock, DeviceID := utf8 "L1",
             GrantedBy := 9, ValidFrom := 10, ValidUntil := some 500, Status := 1 }] :=
  ⟨(permission_active_unique toyServices.admin scenarioPermDB (by decide)).1 {}
      { UserID := 7, DeviceID := utf8 "L1", ValidFrom := 99, ValidUntil := some 500 } 8,
   by decide⟩

/-! ## C26 -/

/-- C26. In the create-user flow the service returns the generated password, but the
handler assigns it to the blank identifier: for every create-user request that
succeeds, the response of `AdminHandler.CreateUser` is the success envelope whose
data is the JSON encoding of the new user row (`uuid`, `name`, `department`, `role`,
`status`), which holds neither the password nor its hash. The row stored has the
hash of the password as its `password_hash`. The reset-password handler, on the
other hand, answers with the generated password under "new_password". -/
theorem createUser_handler_drops_password (svc : AdminService) (db : DB) (w : AdminWorld)
    (req : CreateUserRequest) (operatorID : Int) (password hash : Bytes)
    (hg : svc.crypto.GenerateRandomPassword 16 w.passwordRand = .ok password)
    (hh : svc.crypto.HashPassword password w.saltRand = .ok hash)
    (hc : w.createFails = false) :
    (svc.CreateUser db w req operatorID).code = 0
      ∧ (svc.CreateUser db w req operatorID).password = password
      ∧ (AdminHandler.CreateUser svc db w (.ok req) operatorID).1
        = modelOK (.user { uuid := uuidString w.newUUID, name := req.Name,
                           department := if req.Department ≠ [] then some req.Department
                             else none,
                           role := req.Role, status := 1 })
      ∧ (AdminHandler.CreateUser svc db w (.ok req) operatorID).2.users
        = db.users ++
          [{ ID := nextUserID db, UUID := w.newUUID, Phone := req.Phone, PasswordHash := hash,
             Name := req.Name, Role := req.Role, Status := 1,
             Department := if req.Department ≠ [] then some req.Department else none }]
      ∧ (∀ (userUUID : Bytes) (u : User), w.lookupFails = false →
          db.users.find? (userWhere userUUID) = some u → w.updateFails = false →
          (AdminHandler.ResetPassword svc db w userUUID operatorID).1
            = modelOK (.newPassword password)) := by
  have hcode : (svc.CreateUser db w req operatorID).code = 0 := by
    simp only [AdminService.CreateUser, hg, hh, hc, Bool.false_eq_true, if_false]
  refine ⟨hcode, ?_, ?_, ?_, ?_⟩
  · simp only [AdminService.CreateUser, hg, hh, hc, Bool.false_eq_true, if_false]
  · simp only [AdminHandler.CreateUser, hcode, ne_eq, not_true_eq_false, if_false]
    simp only [AdminService.CreateUser, hg, hh, hc, Bool.false_eq_true, if_false, userJSON]
  · simp only [AdminHandler.CreateUser, hcode, ne_eq, not_true_eq_false, if_false]
    simp only [AdminService.CreateUser, hg, hh, hc, Bool.false_eq_true, if_false,
      (logOperation_sessions _ _ _ _ _ _ _).2]
  · intro userUUID u hl hf hu
    have hr : svc.ResetPassword db w userUUID operatorID
        = { password := password, code := 0, msg := [],
            db := (svc.ResetPassword db w userUUID operatorID).db } := by
      simp only [AdminService.ResetPassword, hl, hf, hg, hh, hu, Bool.false_eq_true, if_false]
    simp only [AdminHandler.ResetPassword]
    rw [hr]
    rfl

/-- Witness for C26: a user created with the toy password scheme, on the empty
database; the service returns the sixteen bytes it drew as the password, the
response of the handler does not hold them. -/
theorem createUser_handler_drops_password_witness :
    (toyServices.admin.CreateUser {} { passwordRand := List.range 16 }
        { Phone := utf8 "13900000000", Name := utf8 "n", Role := utf8 "user" } 9).password
        = List.range 16
      ∧ (AdminHandler.CreateUser toyServices.admin {} { passwordRand := List.range 16 }
        (.ok { Phone := utf8 "13900000000", Name := utf8 "n", Role := utf8 "user" }) 9).1
        = { status := 200, code := 0, message := utf8 "success",
            data := .user { uuid := utf8 "00000000-0000-0000-0000-000000000000", name := utf8 "n",
                            department := none, role := utf8 "user", status := 1 } } :=
  have h := createUser_handler_drops_password toyServices.admin {}
    { passwordRand := List.range 16 }
    { Phone := utf8 "13900000000", Name := utf8 "n", Role := utf8 "user" } 9 (List.range 16)
    (36 :: (List.range 16).reverse) (by decide) (by decide) rfl
  ⟨h.2.1, by decide⟩

/-! ## C27 -/

theorem reset_count (db : DB) (deviceType deviceID : Bytes) :
    PostgresDeviceFailStore.Get (PostgresDeviceFailStore.Reset db false deviceType deviceID).1
      deviceType deviceID = 0 := by
  simp only [PostgresDeviceFailStore.Reset, Bool.false_eq_true, if_false,
    PostgresDeviceFailStore.Get]
  rw [find_map_hasKey _ _ _ _ (by
    intro r
    by_cases hk : r.hasKey deviceType deviceID = true
    · simp only [hk, if_true]
      simpa [DeviceFailCount.hasKey] using hk
    · simp [hk])]
  cases hfind : db.failCounts.find? (fun r => r.hasKey deviceType deviceID) with
  | none => rfl
  | some row =>
    have hk := List.find?_some hfind
    simp only at hk
    simp [hk]

theorem report_other_db (s : LockService) (db : DB) (w : ReportWorld) (req : ReportRequest)
    (userID : Int) (clientIP : Bytes) (hres : req.Result ≠ utf8 "fail") :
    (s.Report db w req userID clientIP).db.failCounts
        = (PostgresDeviceFailStore.Reset db w.resetFails DeviceTypeLock req.DeviceID).1.failCounts
      ∧ (s.Report db w req userID clientIP).db.alerts = db.alerts
      ∧ StatusFrame db.devices (s.Report db w req userID clientIP).db.devices := by
  have hr : ∀ fails, (PostgresDeviceFailStore.Reset db fails DeviceTypeLock req.DeviceID).1.alerts
      = db.alerts := by
    intro fails
    unfold PostgresDeviceFailStore.Reset
    split <;> rfl
  simp only [LockService.Report, hres, decide_False, Bool.false_eq_true, if_false]
  split
  · exact ⟨rfl, hr _, statusFrame_of_eq _ _ (reset_devices _ _ _ _)⟩
  · refine ⟨rfl, hr _, ?_⟩
    simp only [reset_devices]
    exact statusFrame_touch _ _ _

/-- The fail count that a `Report` call leaves for its device, no store operation
and no transaction failing. -/
theorem report_step_count (s : LockService) (db : DB) (w : ReportWorld) (req : ReportRequest)
    (userID : Int) (clientIP : Bytes)
    (hw : w.incrementFails = false ∧ w.resetFails = false ∧ w.alertTxFails = false) :
    PostgresDeviceFailStore.Get (s.Report db w req userID clientIP).db DeviceTypeLock
        req.DeviceID
      = if req.Result = utf8 "fail" then
          (if PostgresDeviceFailStore.Get db DeviceTypeLock req.DeviceID + 1 ≥ 3 then 0
           else PostgresDeviceFailStore.Get db DeviceTypeLock req.DeviceID + 1)
        else 0 := by
  by_cases hres : req.Result = utf8 "fail"
  · rw [if_pos hres, report_fail_db s db w req userID clientIP hres hw.1 hw.2.2]
    split
    · exact (triggerAlertLock_spec s _ req.DeviceID userID _).2.2
    · exact (increment_spec db w.now DeviceTypeLock req.DeviceID).2.1
  · rw [if_neg hres]
    have h1 := (report_other_db s db w req userID clientIP hres).1
    rw [hw.2.1] at h1
    have h2 := reset_count db DeviceTypeLock req.DeviceID
    simp only [PostgresDeviceFailStore.Get] at h2 ⊢
    rw [h1]
    exact h2

/-- C27. For every device whose fail count is 0, 1 or 2, after any finite sequence of
`Report` calls for that device in which no store operation and no AlertLock
transaction fails, the stored fail count is 0, 1 or 2. In one such call, a report
of a failure stores the count plus one, or 0 when the count plus one reaches 3, and a
report with another result stores 0. -/
theorem fail_count_bounded (s : LockService) (deviceID : Bytes) (calls : List ReportCall)
    (db : DB)
    (h0 : 0 ≤ PostgresDeviceFailStore.Get db DeviceTypeLock deviceID
      ∧ PostgresDeviceFailStore.Get db DeviceTypeLock deviceID ≤ 2)
    (hc : ∀ c ∈ calls, c.2.1.DeviceID = deviceID ∧ c.1.incrementFails = false
      ∧ c.1.resetFails = false ∧ c.1.alertTxFails = false) :
    (0 ≤ PostgresDeviceFailStore.Get (runReports s db calls) DeviceTypeLock deviceID
        ∧ PostgresDeviceFailStore.Get (runReports s db calls) DeviceTypeLock deviceID ≤ 2)
      ∧ ∀ (db1 : DB) (w : ReportWorld) (req : ReportRequest) (userID : Int) (clientIP : Bytes),
          w.incrementFails = false ∧ w.resetFails = false ∧ w.alertTxFails = false →
          PostgresDeviceFailStore.Get (s.Report db1 w req userID clientIP).db DeviceTypeLock
              req.DeviceID
            = if req.Result = utf8 "fail" then
                (if PostgresDeviceFailStore.Get db1 DeviceTypeLock req.DeviceID + 1 ≥ 3 then 0
                 else PostgresDeviceFailStore.Get db1 DeviceTypeLock req.DeviceID + 1)
              else 0 := by
  refine ⟨?_, fun db1 w req userID clientIP hw => report_step_count s db1 w req userID clientIP hw⟩
  induction calls generalizing db with
  | nil => exact h0
  | cons c rest ih =>
    obtain ⟨hd, hw⟩ := hc c (List.mem_cons_self _ _)
    have hstep := report_step_count s db c.1 c.2.1 c.2.2.1 c.2.2.2 hw
    rw [hd] at hstep
    apply ih
    · rw [hstep]
      split
      · split <;> omega
      · omega
    · exact fun c1 h1 => hc c1 (List.mem_cons_of_mem _ h1)

/-- Witness for C27: the lock "L1" of `scenarioAlertDB`, whose fail count is 2, under
a report of a failure, a report of a success and another report of a failure. -/
theorem fail_count_bounded_witness :
    PostgresDeviceFailStore.Get
        (runReports toyServices.lock scenarioAlertDB
          [({}, { DeviceID := utf8 "L1", Result := utf8 "fail" }, 7, []),
           ({}, { DeviceID := utf8 "L1", Result := utf8 "success" }, 7, []),
           ({}, { DeviceID := utf8 "L1", Result := utf8 "fail" }, 7, [])])
        DeviceTypeLock (utf8 "L1") = 1
      ∧ (0 ≤ PostgresDeviceFailStore.Get
          (runReports toyServices.lock scenarioAlertDB
            [({}, { DeviceID := utf8 "L1", Result := utf8 "fail" }, 7, []),
             ({}, { DeviceID := utf8 "L1", Result := utf8 "success" }, 7, []),
             ({}, { DeviceID := utf8 "L1", Result := utf8 "fail" }, 7, [])])
          DeviceTypeLock (utf8 "L1")
        ∧ PostgresDeviceFailStore.Get
          (runReports toyServices.lock scenarioAlertDB
            [({}, { DeviceID := utf8 "L1", Result := utf8 "fail" }, 7, []),
             ({}, { DeviceID := utf8 "L1", Result := utf8 "success" }, 7, []),
             ({}, { DeviceID := utf8 "L1", Result := utf8 "fail" }, 7, [])])
          DeviceTypeLock (utf8 "L1") ≤ 2) :=
  ⟨by decide,
   (fail_count_bounded toyServices.lock (utf8 "L1")
      [({}, { DeviceID := utf8 "L1", Result := utf8 "fail" }, 7, []),
       ({}, { DeviceID := utf8 "L1", Result := utf8 "success" }, 7, []),
       ({}, { DeviceID := utf8 "L1", Result := utf8 "fail" }, 7, [])]
      scenarioAlertDB (by decide) (by decide)).1⟩

/-! ## C28 -/

theorem twosComplement64_inj (x y : Int) (hx : IsInt64 x) (hy : IsInt64 y)
    (h : twosComplement64 x = twosComplement64 y) : x = y := by
  obtain ⟨hx1, hx2⟩ := hx
  obtain ⟨hy1, hy2⟩ := hy
  unfold twosComplement64 at h
  split at h <;> split at h <;> omega

theorem be64Bytes_inj (x y : Int) (hx : IsInt64 x) (hy : IsInt64 y)
    (h : be64Bytes (uint64OfInt64 x) = be64Bytes (uint64OfInt64 y)) : x = y := by
  apply twosComplement64_inj x y hx hy
  rw [← (be64Bytes_spec x hx).2.2, ← (be64Bytes_spec y hy).2.2, h]

/-- C28. The MAC input built by `Challenge` is injective in its fields: for all
challenges `c1`, `c2` of 8 bytes, device ids `d1`, `d2`, and user ids and timestamps
in the range of `int64`, if the input built from `(c1, d1, u1, t1)` equals the one
built from `(c2, d2, u2, t2)` then `c1 = c2`, `d1 = d2`, `u1 = u2` and `t1 = t2`. -/
theorem challengeData_injective (c1 c2 d1 d2 : Bytes) (u1 u2 t1 t2 : Int)
    (hc1 : c1.length = 8) (hc2 : c2.length = 8)
    (hu1 : IsInt64 u1) (hu2 : IsInt64 u2) (ht1 : IsInt64 t1) (ht2 : IsInt64 t2)
    (h : challengeData c1 d1 u1 t1 = challengeData c2 d2 u2 t2) :
    c1 = c2 ∧ d1 = d2 ∧ u1 = u2 ∧ t1 = t2 := by
  unfold challengeData at h
  have lt1 : (be64Bytes (uint64OfInt64 t1)).length = (be64Bytes (uint64OfInt64 t2)).length := rfl
  have lu1 : (be64Bytes (uint64OfInt64 u1)).length = (be64Bytes (uint64OfInt64 u2)).length := rfl
  obtain ⟨h1, h2⟩ := List.append_inj' h lt1
  obtain ⟨h3, h4⟩ := List.append_inj' h1 lu1
  obtain ⟨h5, h6⟩ := List.append_inj h3 (by rw [hc1, hc2])
  exact ⟨h5, h6, be64Bytes_inj u1 u2 hu1 hu2 h4, be64Bytes_inj t1 t2 ht1 ht2 h2⟩

/-- Witness for C28: the input of the scenario request determines its fields. -/
theorem challengeData_injective_witness :
    challengeData [1, 2, 3, 4, 5, 6, 7, 8] (utf8 "L1") 7 (-1)
        = challengeData [1, 2, 3, 4, 5, 6, 7, 8] (utf8 "L1") 7 (-1)
      ∧ ([1, 2, 3, 4, 5, 6, 7, 8] = [1, 2, 3, 4, 5, 6, 7, 8] ∧ utf8 "L1" = utf8 "L1"
        ∧ (7 : Int) = 7 ∧ (-1 : Int) = -1) :=
  ⟨rfl, challengeData_injective [1, 2, 3, 4, 5, 6, 7, 8] [1, 2, 3, 4, 5, 6, 7, 8] (utf8 "L1")
    (utf8 "L1") 7 7 (-1) (-1) rfl rfl (by decide) (by decide) (by decide) (by decide) rfl⟩

/-! ## C29 -/

/-- C29. The rate gate fails open: for every gate, database and request, when no
unexpired IP block row has the client address and the upsert of the counter returns
an error, `RateLimiter` passes the request to the next handler and leaves the
database as it was, whatever the limit and whatever the counter rows hold. -/
theorem rate_gate_fails_open (cfg : RateLimitConfig) (c : RequestCtx) (db : DB) (w : GateWorld)
    (hb : ∀ b ∈ db.ipBlocks, b.IP = c.ClientIP → b.ExpiresAt ≤ w.now)
    (hf : w.upsertFails = true) :
    RateLimiter cfg db w c = (.next, db) := by
  simp only [RateLimiter, checkIPBlock_false db w c hb, hf, incrementRateLimit,
    Bool.false_eq_true, if_false, if_true]

/-- Witness for C29: a login request from an address whose counter stands at 1000,
far over the limit of 10, when the upsert fails. -/
theorem rate_gate_fails_open_witness :
    RateLimiter LoginRateLimit
        { rateLimits := [{ Key := utf8 "login:ip:10.0.0.7", Count := 1000, WindowStart := 0 }] }
        { now := 50, dbNow := 50, upsertFails := true } scenarioCtx
      = (.next,
          { rateLimits := [{ Key := utf8 "login:ip:10.0.0.7", Count := 1000, WindowStart := 0 }] }) :=
  rate_gate_fails_open LoginRateLimit scenarioCtx
    { rateLimits := [{ Key := utf8 "login:ip:10.0.0.7", Count := 1000, WindowStart := 0 }] }
    { now := 50, dbNow := 50, upsertFails := true } (by decide) rfl

/-! ## C30 -/

theorem increment_frame (db : DB) (now : Int) (fails : Bool) (deviceType deviceID : Bytes)
    (ps : List Permission) (ds : List Device) :
    PostgresDeviceFailStore.Increment { db with permissions := ps, devices := ds } now fails
        deviceType deviceID
      = ({ (PostgresDeviceFailStore.Increment db now fails deviceType deviceID).1 with
            permissions := ps, devices := ds },
          (PostgresDeviceFailStore.Increment db now fails deviceType deviceID).2) := by
  unfold PostgresDeviceFailStore.Increment
  cases fails with
  | true => rfl
  | false =>
    simp only [Bool.false_eq_true, if_false]
    cases db.failCounts.find? (fun r => r.hasKey deviceType deviceID) <;> rfl

theorem reset_frame (db : DB) (fails : Bool) (deviceType deviceID : Bytes)
    (ps : List Permission) (ds : List Device) :
    PostgresDeviceFailStore.Reset { db with permissions := ps, devices := ds } fails deviceType
        deviceID
      = ({ (PostgresDeviceFailStore.Reset db fails deviceType deviceID).1 with
            permissions := ps, devices := ds },
          (PostgresDeviceFailStore.Reset db fails deviceType deviceID).2) := by
  unfold PostgresDeviceFailStore.Reset
  cases fails <;> rfl

theorem triggerAlertLock_frame (s : LockService) (db : DB) (txFails : Bool) (deviceID : Bytes)
    (userID failCount : Int) (ps : List Permission) (ds : List Device) :
    s.triggerAlertLock { db with permissions := ps, devices := ds } txFails deviceID userID
        failCount
      = ({ (s.triggerAlertLock db txFails deviceID userID failCount).1 with
            permissions := ps,
            devices := if txFails then ds
              else ds.map (fun d => if deviceWhere deviceID d then { d with Status := 2 } else d) },
          (s.triggerAlertLock db txFails deviceID userID failCount).2) := by
  unfold LockService.triggerAlertLock nextAlertID
  cases txFails <;> rfl

theorem report_frame (s : LockService) (db : DB) (w : ReportWorld)
    (req : ReportRequest) (userID : Int) (clientIP : Bytes) (ps : List Permission)
    (ds : List Device) :
    (s.Report { db with permissions := ps, devices := ds } w req userID clientIP).db.failCounts
        = (s.Report db w req userID clientIP).db.failCounts
      ∧ (s.Report { db with permissions := ps, devices := ds } w req userID clientIP).db.alerts
        = (s.Report db w req userID clientIP).db.alerts
      ∧ (s.Report { db with permissions := ps, devices := ds } w req userID clientIP).db.permissions
        = ps
      ∧ ((s.Report { db with permissions := ps, devices := ds } w req userID clientIP).db.devices
          = (s.Report { db with devices := ds } w req userID clientIP).db.devices)
      ∧ (s.Report { db with permissions := ps, devices := ds } w req userID clientIP).code
        = (s.Report db w req userID clientIP).code
      ∧ (s.Report { db with permissions := ps, devices := ds } w req userID clientIP).msg
        = (s.Report db w req userID clientIP).msg
      ∧ (s.Report { db with permissions := ps, devices := ds } w req userID clientIP).audits
        = (s.Report db w req userID clientIP).audits
      ∧ (s.Report { db with permissions := ps, devices := ds } w req userID clientIP).notifies
        = (s.Report db w req userID clientIP).notifies := by
  have hd : ({ db with devices := ds } : DB)
      = { db with permissions := db.permissions, devices := ds } := rfl
  rw [hd]
  unfold LockService.Report
  simp only [increment_frame, reset_frame, triggerAlertLock_frame]
  split_ifs <;> (refine ⟨?_, ?_, ?_, ?_, ?_, ?_, ?_, ?_⟩ <;> first | rfl | trivial)

theorem report_fail_devices (s : LockService) (db : DB) (w : ReportWorld) (req : ReportRequest)
    (userID : Int) (clientIP : Bytes) (hres : req.Result = utf8 "fail")
    (hw : w.incrementFails = false ∧ w.resetFails = false ∧ w.alertTxFails = false) :
    (s.Report db w req userID clientIP).db.devices
      = if PostgresDeviceFailStore.Get db DeviceTypeLock req.DeviceID + 1 ≥ 3 then
          db.devices.map (fun d => if deviceWhere req.DeviceID d then { d with Status := 2 } else d)
        else db.devices := by
  rw [report_fail_db s db w req userID clientIP hres hw.1 hw.2.2]
  split
  · rw [(triggerAlertLock_spec s _ req.DeviceID userID _).1, increment_devices]
  · exact increment_devices _ _ _ _ _

theorem three_fails_devices (s : LockService) (db : DB) (deviceID : Bytes)
    (c1 c2 c3 : ReportCall)
    (hcount : PostgresDeviceFailStore.Get db DeviceTypeLock deviceID = 0)
    (hc : ∀ c ∈ [c1, c2, c3], c.2.1.DeviceID = deviceID ∧ c.2.1.Result = utf8 "fail"
      ∧ c.1.incrementFails = false ∧ c.1.resetFails = false ∧ c.1.alertTxFails = false) :
    (runReports s db [c1, c2, c3]).devices
      = db.devices.map (fun d => if deviceWhere deviceID d then { d with Status := 2 } else d) := by
  obtain ⟨d1, r1, w1⟩ := hc c1 (by simp)
  obtain ⟨d2, r2, w2⟩ := hc c2 (by simp)
  obtain ⟨d3, r3, w3⟩ := hc c3 (by simp)
  have g1 := report_step_count s db c1.1 c1.2.1 c1.2.2.1 c1.2.2.2 w1
  have e1 := report_fail_devices s db c1.1 c1.2.1 c1.2.2.1 c1.2.2.2 r1 w1
  rw [d1, hcount] at g1 e1
  rw [if_pos r1, if_neg (by decide)] at g1
  rw [if_neg (by decide)] at e1
  have g2 := report_step_count s (s.Report db c1.1 c1.2.1 c1.2.2.1 c1.2.2.2).db
    c2.1 c2.2.1 c2.2.2.1 c2.2.2.2 w2
  have e2 := report_fail_devices s (s.Report db c1.1 c1.2.1 c1.2.2.1 c1.2.2.2).db
    c2.1 c2.2.1 c2.2.2.1 c2.2.2.2 r2 w2
  rw [d2, g1] at g2 e2
  rw [if_pos r2, if_neg (by decide)] at g2
  rw [if_neg (by decide), e1] at e2
  have e3 := report_fail_devices s
    (s.Report (s.Report db c1.1 c1.2.1 c1.2.2.1 c1.2.2.2).db c2.1 c2.2.1 c2.2.2.1 c2.2.2.2).db
    c3.1 c3.2.1 c3.2.2.1 c3.2.2.2 r3 w3
  rw [d3, g2, if_pos (by decide), e2] at e3
  exact e3

/-- C30. `Report` always returns code 0, and reads neither the permission table nor
the device table: with any other permission table and any other device table it
returns the same code, audit messages and notifications, and leaves the same fail
counts and alerts, and the permission table it was given. No store operation and no transaction failing, a report of a failure
stores the fail count of its device plus one, or 0 when AlertLock runs, and a report
with any other result stores 0. So for every user id, whatever the permission table
holds, three reports of a failure in a row for a device that is stored, not deleted,
and has the fail count 0 leave every row of that device that is not deleted with
status 2. -/
theorem report_ignores_permissions (s : LockService) (db : DB) :
    (∀ (w : ReportWorld) (req : ReportRequest) (userID : Int) (clientIP : Bytes),
        (s.Report db w req userID clientIP).code = 0
          ∧ (∀ (ps : List Permission) (ds : List Device),
              (s.Report { db with permissions := ps, devices := ds } w req userID clientIP).code
                  = 0
                ∧ (s.Report { db with permissions := ps, devices := ds } w req userID
                    clientIP).db.failCounts
                  = (s.Report db w req userID clientIP).db.failCounts
                ∧ (s.Report { db with permissions := ps, devices := ds } w req userID
                    clientIP).db.alerts
                  = (s.Report db w req userID clientIP).db.alerts
                ∧ (s.Report { db with permissions := ps, devices := ds } w req userID
                    clientIP).db.permissions = ps
                ∧ (s.Report { db with permissions := ps, devices := ds } w req userID
                    clientIP).audits
                  = (s.Report db w req userID clientIP).audits
                ∧ (s.Report { db with permissions := ps, devices := ds } w req userID
                    clientIP).notifies
                  = (s.Report db w req userID clientIP).notifies)
          ∧ (w.incrementFails = false ∧ w.resetFails = false ∧ w.alertTxFails = false →
              PostgresDeviceFailStore.Get (s.Report db w req userID clientIP).db DeviceTypeLock
                  req.DeviceID
                = if req.Result = utf8 "fail" then
                    (if PostgresDeviceFailStore.Get db DeviceTypeLock req.DeviceID + 1 ≥ 3 then 0
                     else PostgresDeviceFailStore.Get db DeviceTypeLock req.DeviceID + 1)
                  else 0))
      ∧ (∀ (d : Device) (c1 c2 c3 : ReportCall), d ∈ db.devices → d.DeletedAt = none →
          PostgresDeviceFailStore.Get db DeviceTypeLock d.DeviceID = 0 →
          (∀ c ∈ [c1, c2, c3], c.2.1.DeviceID = d.DeviceID ∧ c.2.1.Result = utf8 "fail"
            ∧ c.1.incrementFails = false ∧ c.1.resetFails = false ∧ c.1.alertTxFails = false) →
          { d with Status := 2 } ∈ (runReports s db [c1, c2, c3]).devices
            ∧ ∀ x ∈ (runReports s db [c1, c2, c3]).devices,
                x.DeviceID = d.DeviceID → x.DeletedAt = none → x.Status = 2) := by
  constructor
  · intro w req userID clientIP
    refine ⟨rfl, ?_, fun hw => report_step_count s db w req userID clientIP hw⟩
    intro ps ds
    obtain ⟨h1, h2, h3, _, _, _, h7, h8⟩ := report_frame s db w req userID clientIP ps ds
    exact ⟨rfl, h1, h2, h3, h7, h8⟩
  · intro d c1 c2 c3 hd hdel hcount hc
    rw [three_fails_devices s db d.DeviceID c1 c2 c3 hcount hc]
    constructor
    · rw [List.mem_map]
      refine ⟨d, hd, ?_⟩
      have : deviceWhere d.DeviceID d = true := by simp [deviceWhere, hdel]
      simp [this]
    · intro x hx hid hxd
      rw [List.mem_map] at hx
      obtain ⟨y, _, hy⟩ := hx
      by_cases hwh : deviceWhere d.DeviceID y = true
      · rw [if_pos hwh] at hy
        rw [← hy]
      · rw [if_neg hwh] at hy
        rw [hy] at hwh
        exfalso
        apply hwh
        simp [deviceWhere, hid, hxd]

/-- Witness for C30: user 999 holds no permission in `scenarioDB`; three reports of a
failure from that user for the active device D1 leave it quarantined. -/
theorem report_ignores_permissions_witness :
    (∀ p ∈ scenarioDB.permissions, p.UserID ≠ 999)
      ∧ scenarioDevice.Status = 1
      ∧ { scenarioDevice with Status := 2 } ∈
          (runReports toyServices.lock scenarioDB
            [({}, { DeviceID := utf8 "D1", Result := utf8 "fail" }, 999, []),
             ({}, { DeviceID := utf8 "D1", Result := utf8 "fail" }, 999, []),
             ({}, { DeviceID := utf8 "D1", Result := utf8 "fail" }, 999, [])]).devices :=
  ⟨by decide, rfl,
   ((report_ignores_permissions toyServices.lock scenarioDB).2 scenarioDevice
      ({}, { DeviceID := utf8 "D1", Result := utf8 "fail" }, 999, [])
      ({}, { DeviceID := utf8 "D1", Result := utf8 "fail" }, 999, [])
      ({}, { DeviceID := utf8 "D1", Result := utf8 "fail" }, 999, [])
      (by decide) rfl (by decide) (by decide)).1⟩

end Arus
